import Mathlib

/-!
Shallow embedding of the DEFLATE inflator (`inflator.c`) of the jdeflate
repository, together with theorems checking the natural-language
specification against it.

Modelling conventions:
* machine integers (`uintxx`, `uint64`, `uint32`, `uint16`, `uint8`) are
  modelled as `Nat`, with explicit `% 2^w` reductions at the operations where
  the C code can overflow or truncate (bit-buffer inserts, 16-bit code
  arithmetic, byte stores);
* byte buffers handed in by the caller (source span, target span, dictionary)
  are modelled as `List Nat` of byte values; the target span is the list of
  bytes written so far (`out`) plus its total capacity `tcap`
  (`tend - tbgn`), and the source span is a list plus a consumed-prefix
  index `spos` (`source - sbgn`);
* the 32 KiB window and the decode-table storage are modelled as functions
  `Nat → _` updated pointwise, mirroring the in-place writes of the C code;
* the unbounded loops of the C code (the block-decoding cycle, the driver
  loop, the code-length reader and the copy loops) take an explicit fuel
  argument and return `none` when it runs out; every bounded loop is
  translated by well-founded recursion without fuel.
-/

/- deflate format definitions (inflator.c) -/

def DEFLT_MAXBITS : Nat := 15
def WNDWSIZE : Nat := 32768
def LROOTBITS : Nat := 9
def DROOTBITS : Nat := 7
def CROOTBITS : Nat := 7
def DEFLT_LMAXSYMBOL : Nat := 288
def DEFLT_DMAXSYMBOL : Nat := 32
def DEFLT_CMAXSYMBOL : Nat := 19
def ENOUGHL : Nat := 854
def ENOUGHD : Nat := 402

/- tags for the table entries, 0 to 13 is used to indicate the extra bits if
the symbol is not a literal -/
def LITERALSYMBOL : Nat := 0x10
def ENDOFBLOCK : Nat := 0x11
def SUBTABLEENTRY : Nat := 0x12
def INVALIDCODE : Nat := 0x13

/-- Modelled from the spec: the public result enum `eINFLTResult` of
`jdeflate/inflator.h` is not under `src/`; the spec lists the four results
OK, SOURCE_EXHAUSTED, TARGET_EXHAUSTED, ERROR.  `INFLT_OK` must be the zero
value (internal decode functions return it where the C returns literal `0`
and callers test `!= 0`); the others are distinct and nonzero. -/
inductive eINFLTResult where
  | INFLT_OK
  | INFLT_SRCEXHSTD
  | INFLT_TGTEXHSTD
  | INFLT_ERROR
deriving DecidableEq

open eINFLTResult

/-- Modelled from the spec: error code for allocation failure (OOM); the
header values are unobservable, only distinctness and nonzeroness matter. -/
def INFLT_EOOM : Nat := 1

/-- Modelled from the spec: error code for calls in an invalid order
(BAD_STATE error taxonomy). -/
def INFLT_EBADSTATE : Nat := 2

/-- Modelled from the spec: error code set by `inflator_setdctnr` when the
decoder was already used (BAD_STATE error taxonomy). -/
def INFLT_EINCORRECTUSE : Nat := 3

/-- Modelled from the spec: error code for block type 3 or a STORED
length/complement mismatch (BAD_BLOCK). -/
def INFLT_EBADBLOCK : Nat := 4

/-- Modelled from the spec: error code for a malformed dynamic header
(BAD_TREE). -/
def INFLT_EBADTREE : Nat := 5

/-- Modelled from the spec: error code for an INVALID table entry
(BAD_CODE). -/
def INFLT_EBADCODE : Nat := 6

/-- Modelled from the spec: error code for a too-far back-reference
(FAR_OFFSET). -/
def INFLT_EFAROFFSET : Nat := 7

/-- Modelled from the spec: error code for input needed after the caller
declared the input final (INPUT_END). -/
def INFLT_EINPUTEND : Nat := 8

/-- Modelled from the spec: the bad-state value of the public `state` field
(spec block state BAD).  Its numeric value in the header is unknown; the
translated code only needs it to be distinct from the decode states 0..5
(NEED_HEADER, STORED, FIXED, DYNAMIC, invalid-type, DECODING), any such
value behaves identically. -/
def INFLT_BADSTATE : Nat := 6

/-- A decode-table entry (`struct TINFLTTEntry`): `info` is the symbol, the
base length/distance value, or the subtable offset; `etag` is the extra-bit
count or one of the tags above; `length` is the code length in bits. -/
structure TINFLTTEntry where
  info : Nat
  etag : Nat
  length : Nat
deriving DecidableEq

instance : Inhabited TINFLTTEntry := ⟨⟨0, 0, 0⟩⟩

/-- The nibble bit-reverse table `rtable` of `reversecode`. -/
def rtable : List Nat :=
  [0x00, 0x08, 0x04, 0x0c,
   0x02, 0x0a, 0x06, 0x0e,
   0x01, 0x09, 0x05, 0x0d,
   0x03, 0x0b, 0x07, 0x0f]

/-- `reversecode`: bit-reverse the low `length` bits of a (≤ 16-bit) code. -/
def reversecode (code : Nat) (length : Nat) : Nat :=
  if length > 8 then
    let a := code % 256
    let b := (code / 256) % 256
    let a := rtable.getD (a / 16) 0 ||| ((rtable.getD (a % 16) 0) <<< 4)
    let b := rtable.getD (b / 16) 0 ||| ((rtable.getD (b % 16) 0) <<< 4)
    (b ||| (a <<< 8)) >>> (0x10 - length)
  else
    let a := code % 256
    ((rtable.getD (a / 16) 0) ||| ((rtable.getD (a % 16) 0) <<< 4)) >>> (0x08 - length)

/-- The 256-entry per-byte count-leading-zeros table of `clzero24`
(listed in the source as 256 literals; written here by its runs). -/
def clztable : List Nat :=
  [8, 7, 6, 6] ++ List.replicate 4 5 ++ List.replicate 8 4 ++
  List.replicate 16 3 ++ List.replicate 32 2 ++ List.replicate 64 1 ++
  List.replicate 128 0

/-- `clzero24` (portable branch): count of leading zero bits of a 32-bit
value, computed from its top three bytes (hence capped at 24). -/
def clzero24 (n : Nat) : Nat :=
  let a := clztable.getD ((n >>> 0x18) % 256) 0
  let b := clztable.getD ((n >>> 0x10) % 256) 0
  if a = 8 then
    let r := a + b
    if r = 0x10 then r + clztable.getD ((n >>> 0x08) % 256) 0 else r
  else
    a

/-- `reverseinc`: increment a bit-reversed `length`-bit code to the next
code in reversed order (returns 0 on wrap-around). -/
def reverseinc (n : Nat) (length : Nat) : Nat :=
  let offset := 0x10 - length
  let n := (n <<< offset) % 65536
  let s := 0x8000 >>> clzero24 (((65535 - n) <<< 16) % 4294967296)
  if s = 0 then
    0
  else
    ((n &&& (s - 1)) + s) >>> offset

/-- Symbol info (`struct TSInfo`): base value and extra-bit count. -/
structure TSInfo where
  base : Nat
  extrabits : Nat
deriving DecidableEq

instance : Inhabited TSInfo := ⟨⟨0, 0⟩⟩

/-- Length base value and extra bits (`lnsinfo`); index 0 is the
end-of-block pseudo entry for symbol 256. -/
def lnsinfo : List TSInfo :=
  [⟨0x0100, 0x11⟩, ⟨0x0003, 0x00⟩,
   ⟨0x0004, 0x00⟩, ⟨0x0005, 0x00⟩,
   ⟨0x0006, 0x00⟩, ⟨0x0007, 0x00⟩,
   ⟨0x0008, 0x00⟩, ⟨0x0009, 0x00⟩,
   ⟨0x000a, 0x00⟩, ⟨0x000b, 0x01⟩,
   ⟨0x000d, 0x01⟩, ⟨0x000f, 0x01⟩,
   ⟨0x0011, 0x01⟩, ⟨0x0013, 0x02⟩,
   ⟨0x0017, 0x02⟩, ⟨0x001b, 0x02⟩,
   ⟨0x001f, 0x02⟩, ⟨0x0023, 0x03⟩,
   ⟨0x002b, 0x03⟩, ⟨0x0033, 0x03⟩,
   ⟨0x003b, 0x03⟩, ⟨0x0043, 0x04⟩,
   ⟨0x0053, 0x04⟩, ⟨0x0063, 0x04⟩,
   ⟨0x0073, 0x04⟩, ⟨0x0083, 0x05⟩,
   ⟨0x00a3, 0x05⟩, ⟨0x00c3, 0x05⟩,
   ⟨0x00e3, 0x05⟩, ⟨0x0102, 0x00⟩]

/-- Distance base value and extra bits (`dstinfo`). -/
def dstinfo : List TSInfo :=
  [⟨0x0001, 0x00⟩, ⟨0x0002, 0x00⟩,
   ⟨0x0003, 0x00⟩, ⟨0x0004, 0x00⟩,
   ⟨0x0005, 0x01⟩, ⟨0x0007, 0x01⟩,
   ⟨0x0009, 0x02⟩, ⟨0x000d, 0x02⟩,
   ⟨0x0011, 0x03⟩, ⟨0x0019, 0x03⟩,
   ⟨0x0021, 0x04⟩, ⟨0x0031, 0x04⟩,
   ⟨0x0041, 0x05⟩, ⟨0x0061, 0x05⟩,
   ⟨0x0081, 0x06⟩, ⟨0x00c1, 0x06⟩,
   ⟨0x0101, 0x07⟩, ⟨0x0181, 0x07⟩,
   ⟨0x0201, 0x08⟩, ⟨0x0301, 0x08⟩,
   ⟨0x0401, 0x09⟩, ⟨0x0601, 0x09⟩,
   ⟨0x0801, 0x0a⟩, ⟨0x0c01, 0x0a⟩,
   ⟨0x1001, 0x0b⟩, ⟨0x1801, 0x0b⟩,
   ⟨0x2001, 0x0c⟩, ⟨0x3001, 0x0c⟩,
   ⟨0x4001, 0x0d⟩, ⟨0x6001, 0x0d⟩]

def LTABLEMODE : Nat := 0
def DTABLEMODE : Nat := 1
def CTABLEMODE : Nat := 2

/-- A decode-table region (`struct TINFLTTEntry *`), modelled by its
contents. -/
def TTable : Type := Nat → TINFLTTEntry

/-- Pointwise store into a table region. -/
def tset (t : TTable) (i : Nat) (e : TINFLTTEntry) : TTable :=
  fun j => if j = i then e else t j

/-- The `counts[]` histogram of `buildtable`: number of occurrences of each
length value (all inputs have lengths ≤ 15, the only defined case). -/
def lengthcounts (lengths : List Nat) (k : Nat) : Nat :=
  lengths.count k

/-- The `mlen` scan of `buildtable`: walk down from `DEFLT_MAXBITS` while the
count is zero (the code reaches this only when some length is nonzero). -/
def maxlengthgo (lengths : List Nat) : Nat → Nat
  | 0 => 0
  | i + 1 => if lengthcounts lengths (i + 1) = 0 then maxlengthgo lengths i else i + 1

/-- The longest code length present. -/
def maxlength (lengths : List Nat) : Nat :=
  maxlengthgo lengths DEFLT_MAXBITS

/-- The validity scan of `buildtable`: `left = (left << 1) - counts[i]` for
`i = 1..k`; `none` as soon as `left` goes negative (over-subscribed),
otherwise the final `left`. -/
def kraftleft (counts : Nat → Nat) : Nat → Option Int
  | 0 => some 1
  | i + 1 =>
    match kraftleft counts i with
    | none => none
    | some left =>
      let left := left * 2 - counts (i + 1)
      if left < 0 then none else some left

/-- The first-codeword loop of `buildtable`:
`code = (code + counts[i-1]) << 1; ncodes[i] = reversecode(code, i)` for
`i = 1..mlen` (`code` is a `uint16`).  Returns the `ncodes` array. -/
def ncodesgo (counts : Nat → Nat) : Nat → (Nat → Nat) × Nat
  | 0 => (fun _ => 0, 0)
  | i + 1 =>
    let (nc, code) := ncodesgo counts i
    let code := ((code + counts i) <<< 1) % 65536
    (fun j => if j = i + 1 then reversecode code (i + 1) else nc j, code)

/-- Inner loop of the secondary-table reservation: issue `j` subtable root
entries of total length `mbits + r`, skipping slots already tagged
SUBTABLEENTRY (the C `continue` also skips the code/offset update). -/
def subtblinner (mbits r : Nat) : Nat → Nat × Nat × TTable → Nat × Nat × TTable
  | 0, st => st
  | j + 1, (code, offset, table) =>
    let st :=
      if (table code).etag = SUBTABLEENTRY then (code, offset, table)
      else
        (reverseinc code mbits, offset + (1 <<< r),
         tset table code ⟨offset, SUBTABLEENTRY, mbits + r⟩)
    subtblinner mbits r j st

/-- Outer loop of the secondary-table reservation, `r` running from
`mlen - mbits` down to 1. -/
def subtblouter (counts ncodes : Nat → Nat) (mbits mmask : Nat) :
    Nat → Nat × TTable → Nat × TTable
  | 0, st => st
  | r + 1, (offset, table) =>
    let count := counts (mbits + (r + 1))
    let st :=
      if count = 0 then (offset, table)
      else
        let code := ncodes (mbits + (r + 1)) &&& mmask
        let j := (count >>> (r + 1)) +
                 (if count &&& ((1 <<< (r + 1)) - 1) ≠ 0 then 1 else 0)
        let (_, offset, table) := subtblinner mbits (r + 1) j (code, offset, table)
        (offset, table)
    subtblouter counts ncodes mbits mmask r st

/-- `sinfo[symbol]` of `buildtable`: `lnsinfo - 256` for the literal/length
table, `dstinfo` otherwise (the code-length mode never reads it). -/
def sinfoval (mode symbol : Nat) : TSInfo :=
  if mode = LTABLEMODE then lnsinfo.getD (symbol - 256) default
  else dstinfo.getD symbol default

/-- Replicated writes of one symbol's entry over all longer-suffix patterns
(the final `for (j = (1 << j) - 1; j >= 0; j--)` of the population loop). -/
def popfill (i code len : Nat) (e : TINFLTTEntry) : Nat → TTable → TTable
  | 0, table => table
  | j + 1, table => popfill i code len e j (tset table (i + (code ||| (j <<< len))) e)

/-- One iteration of the population loop of `buildtable`: state is
`(ncodes, code, table)`. -/
def popsym (mode mbits mmask : Nat) (lengths : List Nat) (symbol : Nat)
    (st : (Nat → Nat) × Nat × TTable) : (Nat → Nat) × Nat × TTable :=
  let length := lengths.getD symbol 0
  if length = 0 then st
  else
    let (ncodes, _, table) := st
    let e : TINFLTTEntry :=
      if mode = DTABLEMODE ∨ symbol ≥ 256 then
        ⟨(sinfoval mode symbol).base, (sinfoval mode symbol).extrabits, length⟩
      else
        ⟨symbol, LITERALSYMBOL, length⟩
    let code := ncodes length
    let ncodes := fun k => if k = length then reverseinc code length else ncodes k
    if length > mbits then
      let entry := table (code &&& mmask)
      let j := entry.length - length
      let i := entry.info
      (ncodes, code, popfill i (code >>> mbits) (length - mbits) e (1 <<< j) table)
    else
      (ncodes, code, popfill 0 code length e (1 <<< (mbits - length)) table)

/-- The population loop of `buildtable` over all symbols, iterated on the
count of symbols still to process (`lengths.length - symbol`). -/
def popgo (mode mbits mmask : Nat) (lengths : List Nat) :
    Nat → Nat → (Nat → Nat) × Nat × TTable → (Nat → Nat) × Nat × TTable
  | 0, _, st => st
  | k + 1, symbol, st =>
    popgo mode mbits mmask lengths k (symbol + 1) (popsym mode mbits mmask lengths symbol st)

/-- The final fill of `buildtable` for a single distance code of length one:
mark every pattern selecting the unused code (low bit 1) INVALID. -/
def onefillgo : Nat → TTable → TTable
  | 0, table => table
  | j + 1, table => onefillgo j (tset table (1 ||| (j <<< 1)) ⟨0xffff, INVALIDCODE, 15⟩)

/-- `buildtable`: construct the canonical-Huffman lookup table for a vector
of code lengths; `none` is the C `INFLT_ERROR` return, `some` the updated
table region. -/
def buildtable (lengths : List Nat) (table : TTable) (mode : Nat) : Option TTable :=
  let n := lengths.length
  let mbits := if mode = LTABLEMODE then LROOTBITS
               else if mode = DTABLEMODE then DROOTBITS else CROOTBITS
  if lengthcounts lengths 0 = n then
    if mode = DTABLEMODE then
      some (fun i => if i < (1 <<< mbits) then ⟨0xffff, INVALIDCODE, 15⟩ else table i)
    else
      none
  else
    let counts := fun k => if k = 0 then 0 else lengthcounts lengths k
    let mlen := maxlength lengths
    match kraftleft counts DEFLT_MAXBITS with
    | none => none
    | some left =>
      if left ≠ 0 ∧ (mlen ≠ 1 ∨ mode ≠ DTABLEMODE) then none
      else
        let ncodes := (ncodesgo counts mlen).1
        let mmask := (1 <<< mbits) - 1
        let sub : Option TTable :=
          if mlen > mbits then
            let table := fun i => if i ≤ mmask then { table i with etag := 0 } else table i
            let (offset, table) :=
              subtblouter counts ncodes mbits mmask (mlen - mbits) (mmask + 1, table)
            if mode = DTABLEMODE then
              if offset > ENOUGHD then none else some table
            else
              if offset > ENOUGHL then none else some table
          else some table
        match sub with
        | none => none
        | some table =>
          let (_, code, table) :=
            popgo mode mbits mmask lengths lengths.length 0 (ncodes, 0, table)
          some (if mlen = 1 ∧ code = 0 then onefillgo (1 <<< (mbits - 1)) table else table)

/-- The decoder state: the public `struct TInflator` fields plus the private
`struct TINFLTPrvt` fields.  `src`/`spos` model the source span and the
consumed prefix (`source - sbgn`); `out`/`tcap` model the bytes written to
the target span (`target - tbgn`) and its capacity (`tend - tbgn`);
`wend` is the window field `end` (renamed: `end` is reserved in Lean);
`tblL`/`tblD` are the dynamic table regions `tables->symbols` and
`tables->symbols + ENOUGHL`, while `ltable`/`dtable` are the current views
the pointers `PRVT->ltable`/`PRVT->dtable` designate. -/
structure TInflator where
  state : Nat
  error : Nat
  finalinput : Nat
  src : List Nat
  spos : Nat
  out : List Nat
  tcap : Nat
  substate : Nat
  final : Nat
  used : Nat
  aux0 : Nat
  aux1 : Nat
  aux2 : Nat
  aux3 : Nat
  aux4 : Nat
  bbuffer : Nat
  bcount : Nat
  window : Nat → Nat
  count : Nat
  wend : Nat
  ltable : TTable
  dtable : TTable
  tblL : TTable
  tblD : TTable
  lengths : List Nat

/-- The bit-buffer word width: `BBTYPE` is `uint64` (`CTB_ENV64`); the
64-bit configuration of the code is the one embedded throughout. -/
def BBWIDTH : Nat := 64

/-- The pull loop of `tryreadbits`, iterated structurally on a counter so
that concrete runs compute by kernel reduction.  Each pass adds 8 bits, so
a counter of `n` passes always outlasts the loop (the loop body runs at
most `⌈n / 8⌉ ≤ n` times); the counter-0 fallback returns what the loop
condition then forces. -/
def tryreadbitsGo : Nat → TInflator → Nat → Bool × TInflator
  | 0, s, _ => (true, s)
  | k + 1, s, n =>
    if n > s.bcount then
      if s.spos ≥ s.src.length then (false, s)
      else
        tryreadbitsGo k
          { s with
            bbuffer := (s.bbuffer ||| (s.src.getD s.spos 0 <<< s.bcount)) % 2 ^ BBWIDTH,
            bcount := s.bcount + 8,
            spos := s.spos + 1 } n
    else (true, s)

/-- `tryreadbits`: pull source bytes into the bit buffer until it holds at
least `n` bits; `false` when the source is exhausted first (partial bytes
are retained). -/
def tryreadbits (s : TInflator) (n : Nat) : Bool × TInflator :=
  tryreadbitsGo n s n

/-- `fetchbyte`: pull at most one byte; `false` on exhaustion. -/
def fetchbyte (s : TInflator) : Bool × TInflator :=
  if s.spos < s.src.length then
    (true,
     { s with
       bbuffer := (s.bbuffer ||| (s.src.getD s.spos 0 <<< s.bcount)) % 2 ^ BBWIDTH,
       bcount := s.bcount + 8,
       spos := s.spos + 1 })
  else (false, s)

/-- `dropbits`: discard the low `n` bits of the bit buffer. -/
def dropbits (s : TInflator) (n : Nat) : TInflator :=
  { s with bbuffer := s.bbuffer >>> n, bcount := s.bcount - n }

/-- `getbits`: read the low `n` bits of the bit buffer. -/
def getbits (s : TInflator) (n : Nat) : Nat :=
  s.bbuffer &&& ((1 <<< n) - 1)

/-- Overwrite `xs.length` bytes of the byte store `w` starting at `start`
(a `ctb_memcpy` into window memory). -/
def overlay (w : Nat → Nat) (start : Nat) (xs : List Nat) : Nat → Nat :=
  fun i => if start ≤ i ∧ i < start + xs.length then xs.getD (i - start) 0 else w i

/-- `updatewindow`: copy the last (up to) 32 KiB of the bytes produced into
the target span into the circular window.  The C function returns `uintxx`
but both of its returns are literal `0`; the result is kept so the call
sites translate literally. -/
def updatewindow (s : TInflator) : Nat × TInflator :=
  let total := s.out.length
  if total = 0 then (0, s)
  else
    let total := if total > WNDWSIZE then WNDWSIZE else total
    let bgn := s.out.drop (s.out.length - total)
    let count :=
      if s.count < WNDWSIZE then
        let bytes := s.count + total
        if bytes > WNDWSIZE then WNDWSIZE else bytes
      else s.count
    let maxrun := WNDWSIZE - s.wend
    let maxrun := if total < maxrun then total else maxrun
    let w := overlay s.window s.wend (bgn.take maxrun)
    let total := total - maxrun
    if total ≠ 0 then
      (0, { s with window := overlay w 0 (bgn.drop maxrun), count := count, wend := total })
    else
      (0, { s with window := w, count := count, wend := s.wend + maxrun })

/-- `inflator_reset`: clear all decoding state; window contents, table
regions and the scratch length vector are retained.  (The first-call
allocations of the window and table block are modelled as succeeding;
the OOM path is out of the embedded state space.) -/
def inflator_reset (s : TInflator) : TInflator :=
  { s with
    state := 0, error := 0, finalinput := 0,
    src := [], spos := 0, out := [], tcap := 0,
    final := 0, substate := 0, used := 0,
    aux0 := 0, aux1 := 0, aux2 := 0, aux3 := 0, aux4 := 0,
    bbuffer := 0, bcount := 0, count := 0, wend := 0 }

/-- `inflator_setdctnr`: install a preset dictionary.  Fails (bad state)
when the decoder was already used; otherwise copies the first
`min (dict.length) 32768` dictionary bytes to the start of the window and
sets `count`/`end` to that size.  (The window allocation is modelled as
succeeding.) -/
def inflator_setdctnr (s : TInflator) (dict : List Nat) : TInflator :=
  if s.used ≠ 0 then
    { s with error := INFLT_EINCORRECTUSE, state := INFLT_BADSTATE }
  else
    let size := if dict.length > WNDWSIZE then WNDWSIZE else dict.length
    { s with
      window := overlay s.window 0 (dict.take size),
      count := size,
      wend := size,
      used := 1 }

/-- A freshly created decoder (`inflator_create` followed by no other call):
`inflator_reset` applied to a zeroed object. -/
def initialState : TInflator :=
  inflator_reset
    { state := 0, error := 0, finalinput := 0, src := [], spos := 0, out := [], tcap := 0,
      substate := 0, final := 0, used := 0, aux0 := 0, aux1 := 0, aux2 := 0, aux3 := 0,
      aux4 := 0, bbuffer := 0, bcount := 0, window := fun _ => 0, count := 0, wend := 0,
      ltable := fun _ => default, dtable := fun _ => default,
      tblL := fun _ => default, tblD := fun _ => default,
      lengths := List.replicate (DEFLT_LMAXSYMBOL + DEFLT_DMAXSYMBOL) 0 }

/-- On an unused decoder, `inflator_setdctnr` copies the first
`min size 32768` dictionary bytes to window positions `0..size`, and sets
`count` and `end` to that size. -/
theorem setdctnr_installs (s : TInflator) (dict : List Nat) (h : s.used = 0) :
    (inflator_setdctnr s dict).count
        = (if dict.length > WNDWSIZE then WNDWSIZE else dict.length) ∧
    (inflator_setdctnr s dict).wend
        = (if dict.length > WNDWSIZE then WNDWSIZE else dict.length) ∧
    ∀ i, i < (if dict.length > WNDWSIZE then WNDWSIZE else dict.length) →
      (inflator_setdctnr s dict).window i = dict.getD i 0 := by
  have hcond : ¬ (s.used ≠ 0) := by simp [h]
  rw [inflator_setdctnr, if_neg hcond]
  set size := if dict.length > WNDWSIZE then WNDWSIZE else dict.length with hsize
  have hle : size ≤ dict.length := by
    rw [hsize]; split <;> omega
  refine ⟨rfl, rfl, fun i hi => ?_⟩
  show overlay s.window 0 (dict.take size) i = dict.getD i 0
  rw [overlay]
  have hlen : (dict.take size).length = size := by
    rw [List.length_take]; omega
  rw [if_pos (by constructor <;> omega)]
  rw [List.getD_eq_getElem?_getD, List.getD_eq_getElem?_getD, List.getElem?_take]
  simp only [Nat.sub_zero]
  rw [if_pos hi]

/-- The claim's installed-bytes description fails on the code: for a
dictionary one byte longer than the window, the installed bytes are the
dictionary's head, not its tail.  With dictionary
`replicate 32768 0 ++ [7]`, the installed window byte at index 32767 is 0,
while the dictionary's last 32768 bytes (starting at offset 1) hold 7
there. -/
theorem C4_cex :
    (inflator_setdctnr initialState (List.replicate 32768 0 ++ [7])).window 32767 = 0 ∧
    ((List.replicate 32768 (0 : Nat) ++ [7]).drop 1).getD 32767 0 = 7 := by
  have hused : initialState.used = 0 := rfl
  have hlen : (List.replicate 32768 (0 : Nat) ++ [7]).length = 32769 := by
    rw [List.length_append, List.length_replicate, List.length_singleton]
  constructor
  · have h := (setdctnr_installs initialState (List.replicate 32768 0 ++ [7]) hused).2.2
    rw [hlen] at h
    rw [if_pos (by norm_num [WNDWSIZE])] at h
    rw [h 32767 (by norm_num [WNDWSIZE])]
    rw [List.getD_append _ _ _ _ (by rw [List.length_replicate]; omega)]
    rw [List.getD_eq_getElem?_getD, List.getElem?_replicate, if_pos (by omega)]
    rfl
  · rw [List.drop_append_of_le_length (by rw [List.length_replicate]; omega),
        List.drop_replicate]
    rw [List.getD_append_right _ _ _ _ (by rw [List.length_replicate])]
    rw [List.length_replicate]
    norm_num

/-- C4 (amended): for every dictionary installed on an unused decoder, the
window receives the FIRST `min size 32768` bytes of the dictionary (its
head), and `count`/`end` are set to that size; for a dictionary larger than
32 KiB the window holds its initial, not final, 32 KiB. -/
theorem C4_setdctnr_head (s : TInflator) (dict : List Nat) (h : s.used = 0) :
    (∀ i, i < (if dict.length > WNDWSIZE then WNDWSIZE else dict.length) →
        (inflator_setdctnr s dict).window i = dict.getD i 0) ∧
    (inflator_setdctnr s dict).count
        = (if dict.length > WNDWSIZE then WNDWSIZE else dict.length) ∧
    (inflator_setdctnr s dict).wend
        = (if dict.length > WNDWSIZE then WNDWSIZE else dict.length) :=
  ⟨(setdctnr_installs s dict h).2.2, (setdctnr_installs s dict h).1,
   (setdctnr_installs s dict h).2.1⟩

/-- Witness for C4 at a concrete unused decoder and 3-byte dictionary. -/
theorem C4_setdctnr_head_witness :
    initialState.used = 0 ∧
    ((∀ i, i < (if ([9, 8, 7] : List Nat).length > WNDWSIZE then WNDWSIZE
                else ([9, 8, 7] : List Nat).length) →
        (inflator_setdctnr initialState [9, 8, 7]).window i = ([9, 8, 7] : List Nat).getD i 0) ∧
     (inflator_setdctnr initialState [9, 8, 7]).count
        = (if ([9, 8, 7] : List Nat).length > WNDWSIZE then WNDWSIZE
           else ([9, 8, 7] : List Nat).length) ∧
     (inflator_setdctnr initialState [9, 8, 7]).wend
        = (if ([9, 8, 7] : List Nat).length > WNDWSIZE then WNDWSIZE
           else ([9, 8, 7] : List Nat).length)) :=
  ⟨rfl, C4_setdctnr_head initialState [9, 8, 7] rfl⟩

/-- The window fields can reach `end = 32768` exactly: installing a
32768-byte dictionary on a fresh decoder leaves `end` equal to 32768, so
the claimed invariant `end ∈ [0, 32768)` fails on a reachable state. -/
theorem C7_cex :
    (inflator_setdctnr initialState (List.replicate 32768 1)).wend = 32768 ∧
    ¬ (inflator_setdctnr initialState (List.replicate 32768 1)).wend < WNDWSIZE := by
  have h := (setdctnr_installs initialState (List.replicate 32768 1) rfl).2.1
  rw [List.length_replicate] at h
  rw [if_neg (by norm_num [WNDWSIZE])] at h
  exact ⟨h, by rw [h]; norm_num [WNDWSIZE]⟩

/-- C7 (amended): the window bounds are `count ≤ 32768` and `end ≤ 32768`
(`end = 32768` is reachable, e.g. through a full-window dictionary): both
`updatewindow` and `inflator_setdctnr` preserve them. -/
theorem C7_window_bounds (s : TInflator) (dict : List Nat)
    (h1 : s.count ≤ WNDWSIZE) (h2 : s.wend ≤ WNDWSIZE) :
    ((updatewindow s).2.count ≤ WNDWSIZE ∧ (updatewindow s).2.wend ≤ WNDWSIZE) ∧
    ((inflator_setdctnr s dict).count ≤ WNDWSIZE ∧
     (inflator_setdctnr s dict).wend ≤ WNDWSIZE) := by
  simp only [WNDWSIZE] at h1 h2 ⊢
  constructor
  · rw [updatewindow]
    simp only [WNDWSIZE]
    split
    · exact ⟨h1, h2⟩
    · split_ifs <;> simp only <;> omega
  · rw [inflator_setdctnr]
    simp only [WNDWSIZE]
    split
    · exact ⟨h1, h2⟩
    · split_ifs <;> simp only <;> omega

/-- Witness for C7 at a fresh decoder and a 2-byte dictionary. -/
theorem C7_window_bounds_witness :
    (initialState.count ≤ WNDWSIZE ∧ initialState.wend ≤ WNDWSIZE) ∧
    (((updatewindow initialState).2.count ≤ WNDWSIZE ∧
      (updatewindow initialState).2.wend ≤ WNDWSIZE) ∧
     ((inflator_setdctnr initialState [4, 2]).count ≤ WNDWSIZE ∧
      (inflator_setdctnr initialState [4, 2]).wend ≤ WNDWSIZE)) :=
  ⟨⟨by decide, by decide⟩, C7_window_bounds initialState [4, 2] (by decide) (by decide)⟩

/-- C9 (amended): `inflator_setdctnr` succeeds exactly when the `used` flag
is clear, i.e. when neither `inflator_inflate` nor a previous
`inflator_setdctnr` has run since the last reset (an inflate call that
consumed no input still forfeits it); on failure it stores
`INFLT_EINCORRECTUSE`, enters the bad state and leaves the window fields
unchanged. -/
theorem C9_setdctnr_guard (s : TInflator) (dict : List Nat) :
    (s.used ≠ 0 →
      (inflator_setdctnr s dict).error = INFLT_EINCORRECTUSE ∧
      (inflator_setdctnr s dict).state = INFLT_BADSTATE ∧
      (inflator_setdctnr s dict).window = s.window ∧
      (inflator_setdctnr s dict).count = s.count ∧
      (inflator_setdctnr s dict).wend = s.wend) ∧
    (s.used = 0 →
      (inflator_setdctnr s dict).error = s.error ∧
      (inflator_setdctnr s dict).state = s.state ∧
      (inflator_setdctnr s dict).used = 1) := by
  constructor
  · intro h
    rw [inflator_setdctnr, if_pos h]
    exact ⟨rfl, rfl, rfl, rfl, rfl⟩
  · intro h
    rw [inflator_setdctnr, if_neg (by simp [h])]
    exact ⟨rfl, rfl, rfl⟩

/-- Witness for C9 on a used decoder and a fresh decoder. -/
theorem C9_setdctnr_guard_witness :
    ({ initialState with used := 1 } : TInflator).used ≠ 0 ∧
    ((inflator_setdctnr { initialState with used := 1 } [3]).error = INFLT_EINCORRECTUSE ∧
     (inflator_setdctnr { initialState with used := 1 } [3]).state = INFLT_BADSTATE ∧
     (inflator_setdctnr { initialState with used := 1 } [3]).window
        = ({ initialState with used := 1 } : TInflator).window ∧
     (inflator_setdctnr { initialState with used := 1 } [3]).count
        = ({ initialState with used := 1 } : TInflator).count ∧
     (inflator_setdctnr { initialState with used := 1 } [3]).wend
        = ({ initialState with used := 1 } : TInflator).wend) :=
  ⟨by decide, (C9_setdctnr_guard { initialState with used := 1 } [3]).1 (by decide)⟩

/-- If every length is counted at 0 (all-zero vector), every nonzero length
has count zero. -/
theorem count_zero_all (lengths : List Nat)
    (h : lengthcounts lengths 0 = lengths.length) :
    ∀ k, k ≠ 0 → lengthcounts lengths k = 0 := by
  intro k hk
  unfold lengthcounts at *
  rw [List.count_eq_length] at h
  rw [List.count_eq_zero]
  intro hmem
  exact hk ((h k hmem).symm)

/-- The validity scan on an all-zero histogram yields `2 ^ i`. -/
theorem kraftleft_allzero (cnt : Nat → Nat) (h : ∀ k, k ≠ 0 → cnt k = 0) :
    ∀ i, kraftleft cnt i = some (2 ^ i) := by
  intro i
  induction i with
  | zero => rfl
  | succ i ih =>
    rw [kraftleft, ih, h (i + 1) (by omega)]
    dsimp only
    rw [if_neg (by
      have : (0 : Int) < 2 ^ i * 2 := by positivity
      omega)]
    congr 1
    push_cast
    ring

/-- C5: `buildtable` input validity.  (1) an over-subscribed vector (the
running Kraft scan goes negative) is rejected; (2) an incomplete vector
(positive residual) is rejected unless the longest length present is 1 and
the mode is the distance table; (3) an all-zero distance vector succeeds
and fills the whole distance root table with INVALID entries; (4) an
all-zero literal/length or code-length vector is rejected; (5) the
permitted incomplete case (single length-1 distance code) is not
rejected. -/
theorem C5_buildtable (lengths : List Nat) (table : TTable) (mode : Nat) :
    (kraftleft (fun k => if k = 0 then 0 else lengthcounts lengths k) DEFLT_MAXBITS = none →
       buildtable lengths table mode = none) ∧
    (∀ left : Int,
       kraftleft (fun k => if k = 0 then 0 else lengthcounts lengths k) DEFLT_MAXBITS
          = some left →
       left > 0 → ¬ (maxlength lengths = 1 ∧ mode = DTABLEMODE) →
       lengthcounts lengths 0 ≠ lengths.length →
       buildtable lengths table mode = none) ∧
    ((∀ l ∈ lengths, l = 0) → mode = DTABLEMODE →
       ∃ t, buildtable lengths table mode = some t ∧
         ∀ i, i < (1 <<< DROOTBITS) → t i = ⟨0xffff, INVALIDCODE, 15⟩) ∧
    ((∀ l ∈ lengths, l = 0) → mode ≠ DTABLEMODE → buildtable lengths table mode = none) ∧
    (∀ left : Int,
       kraftleft (fun k => if k = 0 then 0 else lengthcounts lengths k) DEFLT_MAXBITS
          = some left →
       left > 0 → maxlength lengths = 1 → mode = DTABLEMODE →
       lengthcounts lengths 0 ≠ lengths.length →
       (buildtable lengths table mode).isSome = true) := by
  refine ⟨?_, ?_, ?_, ?_, ?_⟩
  · intro hover
    by_cases hc : lengthcounts lengths 0 = lengths.length
    · exfalso
      have := kraftleft_allzero
        (fun k => if k = 0 then 0 else lengthcounts lengths k)
        (fun k hk => by simp only [if_neg hk]; exact count_zero_all lengths hc k hk)
        DEFLT_MAXBITS
      rw [hover] at this
      exact Option.noConfusion this
    · rw [buildtable]
      simp only [if_neg hc, hover]
  · intro left hleft hpos hexc hc
    rw [buildtable]
    simp only [if_neg hc, hleft]
    rw [if_pos]
    constructor
    · omega
    · by_cases h1 : maxlength lengths = 1
      · exact Or.inr (fun h2 => hexc ⟨h1, h2⟩)
      · exact Or.inl h1
  · intro hzero hmode
    subst hmode
    have hc : lengthcounts lengths 0 = lengths.length := by
      unfold lengthcounts
      rw [List.count_eq_length]
      exact fun b hb => (hzero b hb).symm
    refine ⟨fun i => if i < (1 <<< DROOTBITS) then ⟨0xffff, INVALIDCODE, 15⟩ else table i,
      ?_, fun i hi => by dsimp only; rw [if_pos hi]⟩
    simp only [buildtable, DTABLEMODE, LTABLEMODE, DROOTBITS, LROOTBITS, CROOTBITS]
    rw [if_pos hc]
    norm_num
  · intro hzero hmode
    have hc : lengthcounts lengths 0 = lengths.length := by
      unfold lengthcounts
      rw [List.count_eq_length]
      exact fun b hb => (hzero b hb).symm
    rw [buildtable]
    simp only [if_pos hc]
    rw [if_neg hmode]
  · intro left hleft hpos hmlen hmode hc
    rw [buildtable]
    simp only [if_neg hc, hleft]
    rw [if_neg (by push_neg; intro _; exact ⟨hmlen, by simp [hmode]⟩)]
    have hmb : (if mode = LTABLEMODE then LROOTBITS
                else if mode = DTABLEMODE then DROOTBITS else CROOTBITS) = DROOTBITS := by
      rw [hmode]; norm_num [DTABLEMODE, LTABLEMODE]
    simp only [hmb, hmlen]
    rw [if_neg (by norm_num [DROOTBITS])]
    rfl

/-- An arbitrary table region used as the pre-existing contents for
concrete `buildtable` runs. -/
def emptyTable : TTable := fun _ => default

/-- Witness for C5: the over-subscribed vector `[1,1,1]`, the incomplete
vector `[2]`, the all-zero vectors `[0,0]` for both table kinds, and the
permitted single length-1 distance code `[1]`. -/
theorem C5_buildtable_witness :
    (kraftleft (fun k => if k = 0 then 0 else lengthcounts [1, 1, 1] k) DEFLT_MAXBITS = none ∧
     buildtable [1, 1, 1] emptyTable LTABLEMODE = none) ∧
    buildtable [2] emptyTable LTABLEMODE = none ∧
    (buildtable [0, 0] emptyTable DTABLEMODE).isSome = true ∧
    buildtable [0, 0] emptyTable LTABLEMODE = none ∧
    (buildtable [1] emptyTable DTABLEMODE).isSome = true := by
  refine ⟨⟨by decide, (C5_buildtable [1, 1, 1] emptyTable LTABLEMODE).1 (by decide)⟩,
    (C5_buildtable [2] emptyTable LTABLEMODE).2.1 24576 (by decide) (by decide)
      (by decide) (by decide), ?_,
    (C5_buildtable [0, 0] emptyTable LTABLEMODE).2.2.2.1 (by decide) (by decide),
    (C5_buildtable [1] emptyTable DTABLEMODE).2.2.2.2 16384 (by decide) (by decide)
      (by decide) rfl (by decide)⟩
  obtain ⟨t, ht, -⟩ :=
    (C5_buildtable [0, 0] emptyTable DTABLEMODE).2.2.1 (by decide) rfl
  rw [ht]
  rfl

/-- `tryreadbits` only changes the bit buffer, the bit count and the source
position; every other state field is untouched (and the source position
does not decrease). -/
theorem tryreadbitsGo_spec (k : Nat) (s : TInflator) (n : Nat) :
    (tryreadbitsGo k s n).2.state = s.state ∧ (tryreadbitsGo k s n).2.error = s.error ∧
    (tryreadbitsGo k s n).2.finalinput = s.finalinput ∧
    (tryreadbitsGo k s n).2.src = s.src ∧
    (tryreadbitsGo k s n).2.out = s.out ∧ (tryreadbitsGo k s n).2.tcap = s.tcap ∧
    (tryreadbitsGo k s n).2.substate = s.substate ∧
    (tryreadbitsGo k s n).2.final = s.final ∧
    (tryreadbitsGo k s n).2.used = s.used ∧ (tryreadbitsGo k s n).2.aux0 = s.aux0 ∧
    (tryreadbitsGo k s n).2.aux1 = s.aux1 ∧ (tryreadbitsGo k s n).2.aux2 = s.aux2 ∧
    (tryreadbitsGo k s n).2.aux3 = s.aux3 ∧ (tryreadbitsGo k s n).2.aux4 = s.aux4 ∧
    (tryreadbitsGo k s n).2.window = s.window ∧
    (tryreadbitsGo k s n).2.count = s.count ∧
    (tryreadbitsGo k s n).2.wend = s.wend ∧
    (tryreadbitsGo k s n).2.ltable = s.ltable ∧
    (tryreadbitsGo k s n).2.dtable = s.dtable ∧
    (tryreadbitsGo k s n).2.tblL = s.tblL ∧
    (tryreadbitsGo k s n).2.tblD = s.tblD ∧
    (tryreadbitsGo k s n).2.lengths = s.lengths ∧
    s.spos ≤ (tryreadbitsGo k s n).2.spos := by
  induction k generalizing s with
  | zero =>
    rw [tryreadbitsGo]
    exact ⟨rfl, rfl, rfl, rfl, rfl, rfl, rfl, rfl, rfl, rfl, rfl, rfl, rfl, rfl, rfl,
      rfl, rfl, rfl, rfl, rfl, rfl, rfl, le_refl _⟩
  | succ k ih =>
    rw [tryreadbitsGo]
    split
    · split
      · exact ⟨rfl, rfl, rfl, rfl, rfl, rfl, rfl, rfl, rfl, rfl, rfl, rfl, rfl, rfl, rfl,
          rfl, rfl, rfl, rfl, rfl, rfl, rfl, le_refl _⟩
      · have h := ih
          { s with
            bbuffer := (s.bbuffer ||| (s.src.getD s.spos 0 <<< s.bcount)) % 2 ^ BBWIDTH,
            bcount := s.bcount + 8,
            spos := s.spos + 1 }
        exact ⟨h.1, h.2.1, h.2.2.1, h.2.2.2.1, h.2.2.2.2.1, h.2.2.2.2.2.1,
          h.2.2.2.2.2.2.1, h.2.2.2.2.2.2.2.1, h.2.2.2.2.2.2.2.2.1,
          h.2.2.2.2.2.2.2.2.2.1, h.2.2.2.2.2.2.2.2.2.2.1, h.2.2.2.2.2.2.2.2.2.2.2.1,
          h.2.2.2.2.2.2.2.2.2.2.2.2.1, h.2.2.2.2.2.2.2.2.2.2.2.2.2.1,
          h.2.2.2.2.2.2.2.2.2.2.2.2.2.2.1, h.2.2.2.2.2.2.2.2.2.2.2.2.2.2.2.1,
          h.2.2.2.2.2.2.2.2.2.2.2.2.2.2.2.2.1, h.2.2.2.2.2.2.2.2.2.2.2.2.2.2.2.2.2.1,
          h.2.2.2.2.2.2.2.2.2.2.2.2.2.2.2.2.2.2.1,
          h.2.2.2.2.2.2.2.2.2.2.2.2.2.2.2.2.2.2.2.1,
          h.2.2.2.2.2.2.2.2.2.2.2.2.2.2.2.2.2.2.2.2.1,
          h.2.2.2.2.2.2.2.2.2.2.2.2.2.2.2.2.2.2.2.2.2.1,
          le_trans (Nat.le_succ _) h.2.2.2.2.2.2.2.2.2.2.2.2.2.2.2.2.2.2.2.2.2.2⟩
    · exact ⟨rfl, rfl, rfl, rfl, rfl, rfl, rfl, rfl, rfl, rfl, rfl, rfl, rfl, rfl, rfl,
        rfl, rfl, rfl, rfl, rfl, rfl, rfl, le_refl _⟩

/-- `tryreadbits` only changes the bit buffer, the bit count and the source
position; every other state field is untouched (and the source position
does not decrease). -/
theorem tryreadbits_spec (s : TInflator) (n : Nat) :
    (tryreadbits s n).2.state = s.state ∧ (tryreadbits s n).2.error = s.error ∧
    (tryreadbits s n).2.finalinput = s.finalinput ∧ (tryreadbits s n).2.src = s.src ∧
    (tryreadbits s n).2.out = s.out ∧ (tryreadbits s n).2.tcap = s.tcap ∧
    (tryreadbits s n).2.substate = s.substate ∧ (tryreadbits s n).2.final = s.final ∧
    (tryreadbits s n).2.used = s.used ∧ (tryreadbits s n).2.aux0 = s.aux0 ∧
    (tryreadbits s n).2.aux1 = s.aux1 ∧ (tryreadbits s n).2.aux2 = s.aux2 ∧
    (tryreadbits s n).2.aux3 = s.aux3 ∧ (tryreadbits s n).2.aux4 = s.aux4 ∧
    (tryreadbits s n).2.window = s.window ∧ (tryreadbits s n).2.count = s.count ∧
    (tryreadbits s n).2.wend = s.wend ∧ (tryreadbits s n).2.ltable = s.ltable ∧
    (tryreadbits s n).2.dtable = s.dtable ∧ (tryreadbits s n).2.tblL = s.tblL ∧
    (tryreadbits s n).2.tblD = s.tblD ∧ (tryreadbits s n).2.lengths = s.lengths ∧
    s.spos ≤ (tryreadbits s n).2.spos :=
  tryreadbitsGo_spec n s n

/-- The repeat-symbol info table local to `readlengths`
(`sinfo[][2] = {{2,3},{3,3},{7,11}}`): extra-bit count and base repeat. -/
def rlsinfo : List (Nat × Nat) := [(0x02, 0x03), (0x03, 0x03), (0x07, 0x0b)]

instance : Inhabited (Nat × Nat) := ⟨(0, 0)⟩

/-- The code-length-symbol fetch loop at the head of the `readlengths`
`while` body: look up the code-length table with `CROOTBITS` buffered bits,
pulling one source byte (`fetchbyte`, inlined here for structural
termination) while the selected entry needs more bits than are buffered;
on exhaustion run `updatewindow` and suspend. -/
def rlFetchGo : Nat → TInflator → (eINFLTResult × TInflator) ⊕ (TINFLTTEntry × TInflator)
  | 0, s =>
    let (r, s) := updatewindow s
    if r ≠ 0 then .inl (INFLT_ERROR, s) else .inl (INFLT_SRCEXHSTD, s)
  | k + 1, s =>
    let e := s.ltable (getbits s CROOTBITS)
    if e.length ≤ s.bcount then .inr (e, s)
    else
      if s.spos < s.src.length then
        rlFetchGo k
          { s with
            bbuffer := (s.bbuffer ||| (s.src.getD s.spos 0 <<< s.bcount)) % 2 ^ BBWIDTH,
            bcount := s.bcount + 8,
            spos := s.spos + 1 }
      else
        let (r, s) := updatewindow s
        if r ≠ 0 then .inl (INFLT_ERROR, s) else .inl (INFLT_SRCEXHSTD, s)

/-- Entry point of the fetch loop; the structural counter
`src.length - spos + 1` outlasts the loop, which pulls one byte per pass
(the counter-0 fallback is the exhaustion branch, which is what the loop
condition forces there). -/
def rlFetch (s : TInflator) : (eINFLTResult × TInflator) ⊕ (TINFLTTEntry × TInflator) :=
  rlFetchGo (s.src.length - s.spos + 1) s

/-- The repeat-write loop `while (replen--) lengths[scindex++] = length`. -/
def rlstore (lengths : List Nat) (scindex len : Nat) : Nat → List Nat
  | 0 => lengths
  | r + 1 => rlstore (lengths.set scindex len) (scindex + 1) len r

/-- `readlengths`: decode the `HLIT + HDIST` code-length sequence of a
dynamic header with the code-length table, expanding the repeat symbols 16,
17 and 18.  `scindex` lives in `aux3`; the scratch vector is
`tables->lengths`.  The outer `while` takes fuel. -/
def readlengths : Nat → TInflator → Nat → Option (eINFLTResult × TInflator)
  | 0, s, n =>
    if s.aux3 < n then none else some (INFLT_OK, s)
  | fuel + 1, s, n =>
    if s.aux3 < n then
      match rlFetch s with
      | .inl r => some r
      | .inr (e, s) =>
        if e.info < 16 then
          readlengths fuel
            (dropbits { s with lengths := s.lengths.set s.aux3 e.info,
                               aux3 := s.aux3 + 1 } e.length) n
        else
          let replen := (rlsinfo.getD (e.info - 16) default).2
          let length := (rlsinfo.getD (e.info - 16) default).1
          match tryreadbits s (e.length + length) with
          | (false, s) =>
            let (r, s) := updatewindow s
            if r ≠ 0 then some (INFLT_ERROR, s) else some (INFLT_SRCEXHSTD, s)
          | (true, s) =>
            let s := dropbits s e.length
            let replen := replen + getbits s length
            let s := dropbits s length
            if length = 2 ∧ s.aux3 = 0 then
              some (INFLT_ERROR, { s with error := INFLT_EBADTREE })
            else
              let length := if length = 2 then s.lengths.getD (s.aux3 - 1) 0 else 0
              if s.aux3 + replen > DEFLT_DMAXSYMBOL + DEFLT_LMAXSYMBOL then
                some (INFLT_ERROR, { s with error := INFLT_EBADTREE })
              else
                readlengths fuel
                  { s with lengths := rlstore s.lengths s.aux3 length replen,
                           aux3 := s.aux3 + replen } n
    else some (INFLT_OK, s)

/-- `decodestrd` from label `L_STATE3`: copy `slength` (in `aux0`) stored
bytes from source to target, clamped by both spans; suspend (updating the
window unless the block is final) when bytes remain. -/
def decodestrd3 (s : TInflator) : eINFLTResult × TInflator :=
  let sourceleft := s.src.length - s.spos
  let targetleft := s.tcap - s.out.length
  let maxrun := s.aux0
  let maxrun := if targetleft < maxrun then targetleft else maxrun
  let maxrun := if sourceleft < maxrun then sourceleft else maxrun
  let s := { s with out := s.out ++ (s.src.drop s.spos).take maxrun,
                    spos := s.spos + maxrun,
                    aux0 := s.aux0 - maxrun }
  if s.aux0 ≠ 0 then
    if s.final = 0 then
      let (r, s) := updatewindow s
      if r ≠ 0 then (INFLT_ERROR, s)
      else if targetleft - maxrun = 0 then (INFLT_TGTEXHSTD, s)
      else (INFLT_SRCEXHSTD, s)
    else
      if targetleft - maxrun = 0 then (INFLT_TGTEXHSTD, s)
      else (INFLT_SRCEXHSTD, s)
  else
    (INFLT_OK, { s with substate := 0 })

/-- `decodestrd` from label `L_STATE2`: read the 16-bit one's complement
`NLEN` and check it against `LEN` (in `aux0`). -/
def decodestrd2 (s : TInflator) : eINFLTResult × TInflator :=
  match tryreadbits s 16 with
  | (true, s) =>
    let a := getbits s 8
    let s := dropbits s 8
    let b := getbits s 8
    let s := dropbits s 8
    let nlength := a ||| (b <<< 8)
    if 65535 - s.aux0 % 65536 ≠ nlength then
      (INFLT_ERROR, { s with error := INFLT_EBADBLOCK })
    else
      decodestrd3 { s with substate := s.substate + 1 }
  | (false, s) =>
    let (r, s) := updatewindow s
    if r ≠ 0 then (INFLT_ERROR, s) else (INFLT_SRCEXHSTD, s)

/-- `decodestrd` from label `L_STATE1`: read the 16-bit little-endian
stored-block length `LEN` into `aux0`. -/
def decodestrd1 (s : TInflator) : eINFLTResult × TInflator :=
  match tryreadbits s 16 with
  | (true, s) =>
    let a := getbits s 8
    let s := dropbits s 8
    let b := getbits s 8
    let s := dropbits s 8
    decodestrd2 { s with aux0 := a ||| (b <<< 8), substate := s.substate + 1 }
  | (false, s) =>
    let (r, s) := updatewindow s
    if r ≠ 0 then (INFLT_ERROR, s) else (INFLT_SRCEXHSTD, s)

/-- `decodestrd` entry (substate 0): discard the bits up to the next byte
boundary, then fall through to `L_STATE1`. -/
def decodestrd0 (s : TInflator) : eINFLTResult × TInflator :=
  match tryreadbits s 8 with
  | (true, s) =>
    decodestrd1 { (dropbits s (s.bcount &&& 7)) with substate := s.substate + 1 }
  | (false, s) =>
    let (r, s) := updatewindow s
    if r ≠ 0 then (INFLT_ERROR, s) else (INFLT_SRCEXHSTD, s)

/-- `decodestrd`: the resumable STORED-block decoder; the substate selects
the resume label (a value outside 1..3 falls through the C switch into the
main body, like substate 0). -/
def decodestrd (s : TInflator) : eINFLTResult × TInflator :=
  match s.substate with
  | 1 => decodestrd1 s
  | 2 => decodestrd2 s
  | 3 => decodestrd3 s
  | _ => decodestrd0 s

/-- The code-length-code transmission order `lcorder`. -/
def lcorder : List Nat :=
  [16, 17, 18, 0, 8, 7, 9, 6, 10, 5, 11, 4, 12, 3, 13, 2, 14, 1, 15]

/-- The `L_STATE1` loop of `decodednmc`: read `sccount` (in `aux2`)
three-bit code lengths into scratch positions `lcorder[scindex]`
(`scindex` in `aux3`). -/
def dnmclensGo : Nat → TInflator → Bool × TInflator
  | 0, s => (true, s)
  | k + 1, s =>
    if s.aux2 > s.aux3 then
      match tryreadbits s 3 with
      | (true, s') =>
        let s' := { s' with
          lengths := s'.lengths.set (lcorder.getD s'.aux3 0) (getbits s' 3) }
        dnmclensGo k { (dropbits s' 3) with aux3 := s'.aux3 + 1 }
      | (false, s') => (false, s')
    else (true, s)

/-- Entry point of the `L_STATE1` loop; the structural counter
`aux2 - aux3` matches the loop count exactly (`tryreadbits` leaves both
fields unchanged, and `scindex` rises by one per pass). -/
def dnmclens (s : TInflator) : Bool × TInflator :=
  dnmclensGo (s.aux2 - s.aux3) s

/-- The zero-fill after the `L_STATE1` loop of `decodednmc`:
`sccount = 19; for (; sccount > scindex; scindex++) lengths[lcorder[scindex]] = 0`. -/
def dnmczero (lengths : List Nat) (scindex : Nat) : Nat → List Nat
  | 0 => lengths
  | k + 1 => dnmczero (lengths.set (lcorder.getD scindex 0) 0) (scindex + 1) k

/-- `decodednmc` from label `L_STATE2`: read the code-length sequence, check
symbol 256, and build the literal/length and distance tables (writing
through the `ltable`/`dtable` pointers into the dynamic regions). -/
def decodednmc2 (fuel : Nat) (s : TInflator) : Option (eINFLTResult × TInflator) :=
  match readlengths fuel s (s.aux0 + s.aux1) with
  | none => none
  | some (r, s) =>
    if r ≠ INFLT_OK then some (r, s)
    else
      if s.lengths.getD 256 0 = 0 then
        some (INFLT_ERROR, { s with error := INFLT_EBADTREE })
      else
        match buildtable (s.lengths.take s.aux0) s.ltable LTABLEMODE with
        | none => some (INFLT_ERROR, { s with error := INFLT_EBADTREE })
        | some t =>
          let s := { s with ltable := t, tblL := t }
          match buildtable ((s.lengths.drop s.aux0).take s.aux1) s.dtable DTABLEMODE with
          | none => some (INFLT_ERROR, { s with error := INFLT_EBADTREE })
          | some t =>
            some (INFLT_OK, { s with dtable := t, tblD := t, substate := 0 })

/-- `decodednmc` from label `L_STATE1`: read the code-length-code lengths,
zero the remaining positions, and build the code-length table (through the
`ltable` pointer). -/
def decodednmc1 (fuel : Nat) (s : TInflator) : Option (eINFLTResult × TInflator) :=
  match dnmclens s with
  | (false, s) =>
    let (r, s) := updatewindow s
    if r ≠ 0 then some (INFLT_ERROR, s) else some (INFLT_SRCEXHSTD, s)
  | (true, s) =>
    let s := { s with aux2 := DEFLT_CMAXSYMBOL,
                      lengths := dnmczero s.lengths s.aux3 (DEFLT_CMAXSYMBOL - s.aux3),
                      aux3 := s.aux3 + (DEFLT_CMAXSYMBOL - s.aux3) }
    match buildtable (s.lengths.take DEFLT_CMAXSYMBOL) s.ltable CTABLEMODE with
    | none => some (INFLT_ERROR, { s with error := INFLT_EBADTREE })
    | some t =>
      decodednmc2 fuel { s with ltable := t, tblL := t,
                                substate := s.substate + 1, aux3 := 0 }

/-- `decodednmc` entry (substate 0): aim the table pointers at the dynamic
regions and read `HLIT`/`HDIST`/`HCLEN` (`aux0`/`aux1`/`aux2`). -/
def decodednmc0 (fuel : Nat) (s : TInflator) : Option (eINFLTResult × TInflator) :=
  let s := { s with ltable := s.tblL, dtable := s.tblD }
  match tryreadbits s 14 with
  | (false, s) =>
    let (r, s) := updatewindow s
    if r ≠ 0 then some (INFLT_ERROR, s) else some (INFLT_SRCEXHSTD, s)
  | (true, s) =>
    let a0 := getbits s 5 + 257
    let s := dropbits s 5
    let a1 := getbits s 5 + 1
    let s := dropbits s 5
    let a2 := getbits s 4 + 4
    let s := dropbits s 4
    let s := { s with aux0 := a0, aux1 := a1, aux2 := a2 }
    if a0 > 286 ∨ a1 > 30 then
      some (INFLT_ERROR, { s with error := INFLT_EBADTREE })
    else
      decodednmc1 fuel { s with substate := s.substate + 1, aux3 := 0 }

/-- `decodednmc`: the resumable dynamic-header decoder (a substate outside
1..2 falls through the C switch into the main body, like substate 0). -/
def decodednmc (fuel : Nat) (s : TInflator) : Option (eINFLTResult × TInflator) :=
  match s.substate with
  | 1 => decodednmc1 fuel s
  | 2 => decodednmc2 fuel s
  | _ => decodednmc0 fuel s


/-- Manual unfolding lemma for `readlengths` at nonzero fuel (the
auto-generated equations are too costly to realize). -/
theorem readlengths_succ (fuel : Nat) (s : TInflator) (n : Nat) :
    readlengths (fuel + 1) s n =
      (if s.aux3 < n then
        match rlFetch s with
        | .inl r => some r
        | .inr (e, s) =>
          if e.info < 16 then
            readlengths fuel
              (dropbits { s with lengths := s.lengths.set s.aux3 e.info,
                                 aux3 := s.aux3 + 1 } e.length) n
          else
            let replen := (rlsinfo.getD (e.info - 16) default).2
            let length := (rlsinfo.getD (e.info - 16) default).1
            match tryreadbits s (e.length + length) with
            | (false, s) =>
              let (r, s) := updatewindow s
              if r ≠ 0 then some (INFLT_ERROR, s) else some (INFLT_SRCEXHSTD, s)
            | (true, s) =>
              let s := dropbits s e.length
              let replen := replen + getbits s length
              let s := dropbits s length
              if length = 2 ∧ s.aux3 = 0 then
                some (INFLT_ERROR, { s with error := INFLT_EBADTREE })
              else
                let length := if length = 2 then s.lengths.getD (s.aux3 - 1) 0 else 0
                if s.aux3 + replen > DEFLT_DMAXSYMBOL + DEFLT_LMAXSYMBOL then
                  some (INFLT_ERROR, { s with error := INFLT_EBADTREE })
                else
                  readlengths fuel
                    { s with lengths := rlstore s.lengths s.aux3 length replen,
                             aux3 := s.aux3 + replen } n
      else some (INFLT_OK, s)) := rfl
/-- When the fetch loop accepts an entry, it has only pulled source bytes:
the repeat index `scindex` (`aux3`), the scratch vector and the error field
are unchanged. -/
theorem rlFetchGo_inr (k : Nat) (s s1 : TInflator) (e : TINFLTTEntry)
    (h : rlFetchGo k s = .inr (e, s1)) :
    s1.aux3 = s.aux3 ∧ s1.lengths = s.lengths ∧ s1.error = s.error := by
  induction k generalizing s with
  | zero =>
    rw [rlFetchGo] at h
    rcases hu : updatewindow s with ⟨r', s'⟩
    rw [hu] at h
    dsimp only at h
    split at h <;> exact Sum.noConfusion h
  | succ k ih =>
    rw [rlFetchGo] at h
    dsimp only at h
    split at h
    · obtain ⟨he, hs⟩ := Prod.mk.injEq .. ▸ (Sum.inr.injEq .. ▸ h)
      subst hs
      exact ⟨rfl, rfl, rfl⟩
    · split at h
      · exact ih
          { s with
            bbuffer := (s.bbuffer ||| (s.src.getD s.spos 0 <<< s.bcount)) % 2 ^ BBWIDTH,
            bcount := s.bcount + 8,
            spos := s.spos + 1 } h
      · rcases hu : updatewindow s with ⟨r', s'⟩
        rw [hu] at h
        dsimp only at h
        split at h <;> exact Sum.noConfusion h
/-- C3 (amended): the repeat-overflow guard of `readlengths` checks the
running total against the scratch capacity
`DEFLT_LMAXSYMBOL + DEFLT_DMAXSYMBOL = 320`, not against `HLIT + HDIST`:
a repeat symbol (16, 17 or 18) whose expansion would push `scindex` beyond
320 is rejected with the BAD_TREE error, while an expansion that stays
within 320 is written out (and merely ends the loop) even when it exceeds
`n = HLIT + HDIST`. -/
theorem C3_repeat_cap (fuel n : Nat) (s s1 s2 : TInflator) (e : TINFLTTEntry)
    (replen : Nat)
    (hidx : s.aux3 < n)
    (hfetch : rlFetch s = .inr (e, s1))
    (hlo : 16 ≤ e.info) (hhi : e.info ≤ 18)
    (hbits : tryreadbits s1 (e.length + (rlsinfo.getD (e.info - 16) default).1)
       = (true, s2))
    (hreplen : replen = (rlsinfo.getD (e.info - 16) default).2
       + getbits (dropbits s2 e.length) (rlsinfo.getD (e.info - 16) default).1)
    (hprev : ¬ ((rlsinfo.getD (e.info - 16) default).1 = 2 ∧ s2.aux3 = 0)) :
    s2.aux3 = s.aux3 ∧
    (s.aux3 + replen > DEFLT_DMAXSYMBOL + DEFLT_LMAXSYMBOL →
      readlengths (fuel + 1) s n =
        some (INFLT_ERROR,
          { dropbits (dropbits s2 e.length) (rlsinfo.getD (e.info - 16) default).1
            with error := INFLT_EBADTREE })) ∧
    (s.aux3 + replen ≤ DEFLT_DMAXSYMBOL + DEFLT_LMAXSYMBOL →
      readlengths (fuel + 1) s n =
        readlengths fuel
          { dropbits (dropbits s2 e.length) (rlsinfo.getD (e.info - 16) default).1
            with
            lengths := rlstore s2.lengths s2.aux3
              (if (rlsinfo.getD (e.info - 16) default).1 = 2 then
                 s2.lengths.getD (s2.aux3 - 1) 0
               else 0) replen,
            aux3 := s2.aux3 + replen } n) := by
  have haux3 : s2.aux3 = s.aux3 := by
    have h1 := (rlFetchGo_inr _ _ _ _ hfetch).1
    have h2 := tryreadbits_spec s1 (e.length + (rlsinfo.getD (e.info - 16) default).1)
    rw [hbits] at h2
    dsimp only at h2
    rw [show s2.aux3 = s1.aux3 from h2.2.2.2.2.2.2.2.2.2.2.2.2.1, h1]
  refine ⟨haux3, ?_, ?_⟩ <;> intro hcap <;>
    rw [readlengths_succ, if_pos hidx,
        show rlFetch s = Sum.inr (e, s1) from hfetch] <;>
    dsimp only <;>
    rw [if_neg (show ¬ e.info < 16 by omega), hbits] <;>
    simp only [dropbits] at hreplen ⊢ <;>
    rw [if_neg hprev, ← hreplen]
  · rw [if_pos (by omega)]
  · rw [if_neg (by omega)]

/-- A code-length code with symbol 0 and symbol 17 both one bit long. -/
def ctLens : List Nat := 1 :: (List.replicate 16 0 ++ [1, 0])

/-- The code-length decode table built from `ctLens`. -/
def ctTable : TTable := (buildtable ctLens emptyTable CTABLEMODE).getD emptyTable

/-- A dynamic-header decode resumed at `scindex = 257` with
`n = HLIT + HDIST = 258` (the smallest legal total) and one source byte
holding the repeat symbol 17 with extra bits 7 (eleven bits past `n`). -/
def c3state : TInflator :=
  { initialState with ltable := ctTable, src := [0x0F], aux3 := 257 }

/-- The same header resumed at `scindex = 315` with the largest legal total
`n = 286 + 30 = 316`, so the same repeat crosses the 320-entry cap. -/
def c3over : TInflator :=
  { initialState with ltable := ctTable, src := [0x0F], aux3 := 315 }

/-- `c3over` after the fetch loop pulled its single source byte. -/
def c3fetched : TInflator :=
  { c3over with bbuffer := 0x0F, bcount := 8, spos := 1 }

/-- The claim fails on the code: at `scindex = 257` of a 258-length
code-length sequence, the repeat symbol 17 with count 10 pushes the total
to 267 > 258 = HLIT + HDIST, yet `readlengths` returns OK with no error
(and the overshoot written into the scratch vector). -/
theorem C3_cex :
    c3state.aux3 = 257 ∧
    (readlengths 400 c3state 258).map Prod.fst = some INFLT_OK ∧
    (readlengths 400 c3state 258).map (fun rs => rs.2.error) = some 0 ∧
    (readlengths 400 c3state 258).map (fun rs => rs.2.aux3) = some 267 := by
  refine ⟨rfl, ?_, ?_, ?_⟩ <;> decide

/-- Witness for C3 at the concrete overflowing repeat (scindex 315,
repeat count 10, total 325 > 320). -/
theorem C3_repeat_cap_witness :
    (c3over.aux3 < 316 ∧
     rlFetch c3over = Sum.inr (⟨17, 16, 1⟩, c3fetched) ∧
     tryreadbits c3fetched (1 + 3) = (true, c3fetched) ∧
     c3over.aux3 + 10 > DEFLT_DMAXSYMBOL + DEFLT_LMAXSYMBOL) ∧
    readlengths 400 c3over 316 =
      some (INFLT_ERROR,
        { dropbits (dropbits c3fetched 1) 3 with error := INFLT_EBADTREE }) :=
  ⟨⟨by decide, rfl, rfl, by decide⟩,
   (C3_repeat_cap 399 316 c3over c3fetched c3fetched ⟨17, 16, 1⟩ 10 (by decide) rfl
      (by decide) (by decide) rfl (by decide) (by decide)).2.1 (by decide)⟩

/-- The overlapping byte-at-a-time copy `*target++ = *buffer++` with
`buffer = target - distance`, appending `k` bytes each read `distance`
positions back in the accumulated output (a `distance` of zero would read
unwritten memory in the C, undefined behaviour; the model reads the `getD`
default there). -/
def matchext (out : List Nat) (distance : Nat) : Nat → List Nat
  | 0 => out
  | k + 1 => matchext (out ++ [out.getD (out.length - distance) 0]) distance k

/-- A straight read of `run` bytes from the window starting at `offset`. -/
def windowrun (w : Nat → Nat) (offset run : Nat) : List Nat :=
  (List.range run).map (fun i => w (offset + i))

/-- `copybytes`: resolve one back-reference, copying from the current
output buffer or the window, suspending in substate 4 when the target
fills.  The outer `do ... while (length)` takes fuel (callers pass
`length + 1`, which outlasts every productive run; a zero-byte inner copy,
undefined behaviour in the C, exhausts the fuel instead). -/
def copybytes : Nat → TInflator → Nat → Nat → Option (eINFLTResult × TInflator)
  | 0, _, _, _ => none
  | fuel + 1, s, distance, length =>
    let avaible := s.tcap - s.out.length
    if avaible = 0 then
      let (r, s) := updatewindow s
      if r ≠ 0 then some (INFLT_ERROR, s)
      else
        some (INFLT_TGTEXHSTD,
          { s with aux0 := length, aux2 := distance, substate := 4 })
    else
      let maxrun := s.out.length
      if distance > maxrun then
        let maxrun := distance - maxrun
        if maxrun > s.count then
          some (INFLT_ERROR, { s with error := INFLT_EFAROFFSET })
        else
          let (offset, maxrun) :=
            if maxrun > s.wend then (WNDWSIZE - (maxrun - s.wend), maxrun - s.wend)
            else (s.wend - maxrun, maxrun)
          let maxrun := if maxrun > length then length else maxrun
          let maxrun := if maxrun > avaible then avaible else maxrun
          let s := { s with out := s.out ++ windowrun s.window offset maxrun }
          let length := length - maxrun
          if length ≠ 0 then copybytes fuel s distance length
          else some (INFLT_OK, s)
      else
        let maxrun := length
        let maxrun := if maxrun > avaible then avaible else maxrun
        let s := { s with out := matchext s.out distance maxrun }
        let length := length - maxrun
        if length ≠ 0 then copybytes fuel s distance length
        else some (INFLT_OK, s)

/-- The fast-path constants of the 64-bit configuration. -/
def FASTSRCLEFT : Nat := 14

def FASTTGTLEFT : Nat := 274

/-- `FILLBBUFFER` (64-bit): a wide load of six source bytes, LSB first. -/
def dfFillWord (src : List Nat) (spos : Nat) : Nat :=
  src.getD spos 0 |||
  (src.getD (spos + 1) 0 <<< 0x08) |||
  (src.getD (spos + 2) 0 <<< 0x10) |||
  (src.getD (spos + 3) 0 <<< 0x18) |||
  (src.getD (spos + 4) 0 <<< 0x20) |||
  (src.getD (spos + 5) 0 <<< 0x28)

/-- A bit-buffer refill of the fast path: `bb |= n << bc; bc += 48;
source += 6` on the local copies. -/
def dfFill (src : List Nat) (bb bc spos : Nat) : Nat × Nat × Nat :=
  ((bb ||| (dfFillWord src spos <<< bc)) % 2 ^ BBWIDTH, bc + 48, spos + 6)

/-- The fast path's state restore at `L_DONE`: keep only the sub-byte part
of the bit count and push whole over-read bytes back to the source
cursor. -/
def dfDone (s : TInflator) (bb bc spos : Nat) (out : List Nat) : TInflator :=
  let n := bc &&& 7
  { s with bbuffer := bb &&& ((1 <<< n) - 1), bcount := n,
           spos := spos - ((bc - n) >>> 3), out := out }

/-- The word-at-a-time overlap-free copy of the fast path
(`distance ≥ 8`): one prologue chunk of eight bytes plus a `do/while` that
runs at least once, each chunk reading eight bytes `distance` back in the
accumulated output (always already-written bytes, as `distance ≥ 8`). -/
def chunkCopyGo (out : List Nat) (distance : Nat) : Nat → List Nat
  | 0 => out
  | c + 1 =>
    chunkCopyGo
      (out ++ (List.range 8).map (fun i => out.getD (out.length - distance + i) 0))
      distance c

/-- The window-sourced copy loop of the fast path (no availability checks:
the guards make the target large enough); `.inl` is the FAR_OFFSET error,
`.inr` the extended output.  Fuel as in `copybytes`. -/
def fastwndw : Nat → TInflator → List Nat → Nat → Nat → Option (Nat ⊕ List Nat)
  | 0, _, _, _, _ => none
  | fuel + 1, s, out, distance, length =>
    let maxrun := out.length
    if distance > maxrun then
      let maxrun := distance - maxrun
      if maxrun > s.count then some (.inl INFLT_EFAROFFSET)
      else
        let (offset, maxrun) :=
          if maxrun > s.wend then (WNDWSIZE - (maxrun - s.wend), maxrun - s.wend)
          else (s.wend - maxrun, maxrun)
        let maxrun := if maxrun > length then length else maxrun
        let out := out ++ windowrun s.window offset maxrun
        let length := length - maxrun
        if length ≠ 0 then fastwndw fuel s out distance length else some (.inr out)
    else
      let maxrun := length
      let out := matchext out distance maxrun
      let length := length - maxrun
      if length ≠ 0 then fastwndw fuel s out distance length else some (.inr out)

/-- The `bc < 15` guarded refill idiom of the fast path. -/
def dfFill15 (src : List Nat) (bb bc spos : Nat) : Nat × Nat × Nat :=
  if bc < 15 then dfFill src bb bc spos else (bb, bc, spos)

/-- The `e.etag > bc` guarded refill idiom of the fast path (before pulling
`n` extra bits). -/
def dfFillBits (src : List Nat) (n bb bc spos : Nat) : Nat × Nat × Nat :=
  if n > bc then dfFill src bb bc spos else (bb, bc, spos)

/-- The two-step literal/length lookup of the fast path: a root probe of
`ltable` followed by the subtable probe when the root entry delegates. -/
def dfEntryL (s : TInflator) (bb : Nat) : TINFLTTEntry :=
  let e := s.ltable (bb &&& ((1 <<< LROOTBITS) - 1))
  if e.etag = SUBTABLEENTRY then
    s.ltable (e.info + ((bb &&& ((1 <<< e.length) - 1)) >>> LROOTBITS))
  else e

/-- The two-step distance lookup of the fast path, on `dtable`. -/
def dfEntryD (s : TInflator) (bb : Nat) : TINFLTTEntry :=
  let e := s.dtable (bb &&& ((1 <<< DROOTBITS) - 1))
  if e.etag = SUBTABLEENTRY then
    s.dtable (e.info + ((bb &&& ((1 <<< e.length) - 1)) >>> DROOTBITS))
  else e

/-- The three exits of `decodefast`: guard exit (`r = 0`), end-of-block
(`r = ENDOFBLOCK`), decode error (`r = INFLT_ERROR`). -/
inductive FastRes where
  | fok
  | feob
  | ferr
deriving DecidableEq

/-- One symbol cycle of the `decodefast` loop body, operating on the local
copies `bb`/`bc`/`source`/`target`; the state `s` is read-only except for
`SETERROR`: on the error exits the local copies are discarded (no `L_DONE`
restore), exactly as in the C.  `.inl` is a loop exit (end-of-block or
error), `.inr` continues the loop with the updated locals; `none` is fuel
exhaustion inside the window copy (unreachable: `fastwndw` is passed more
fuel than iterations). -/
def dfCycle (s : TInflator) (bb bc spos : Nat) (out : List Nat) :
    Option ((FastRes × TInflator) ⊕ (Nat × Nat × Nat × List Nat)) :=
  let (bb, bc, spos) := dfFill15 s.src bb bc spos
  let e := dfEntryL s bb
  let bb := bb >>> e.length
  let bc := bc - e.length
  if e.etag = LITERALSYMBOL then
    some (.inr (bb, bc, spos, out ++ [e.info % 256]))
  else if e.etag = ENDOFBLOCK then
    some (.inl (.feob, dfDone s bb bc spos out))
  else if e.etag = INVALIDCODE then
    some (.inl (.ferr, { s with error := INFLT_EBADCODE }))
  else
    let (bb, bc, spos) := dfFillBits s.src e.etag bb bc spos
    let length := e.info + (bb &&& ((1 <<< e.etag) - 1))
    let bb := bb >>> e.etag
    let bc := bc - e.etag
    let (bb, bc, spos) := dfFill15 s.src bb bc spos
    let e := dfEntryD s bb
    let bb := bb >>> e.length
    let bc := bc - e.length
    if e.etag = INVALIDCODE then
      some (.inl (.ferr, { s with error := INFLT_EBADCODE }))
    else
      let (bb, bc, spos) := dfFillBits s.src e.etag bb bc spos
      let distance := e.info + (bb &&& ((1 <<< e.etag) - 1))
      let bb := bb >>> e.etag
      let bc := bc - e.etag
      let targetsz := out.length
      if distance < targetsz then
        let out :=
          if distance ≥ 8 then
            (chunkCopyGo out distance (max 2 ((length + 7) / 8))).take
              (out.length + length)
          else
            matchext out distance (max length 3)
        some (.inr (bb, bc, spos, out))
      else
        match fastwndw (length + 1) s out distance length with
        | none => none
        | some (.inl err) => some (.inl (.ferr, { s with error := err }))
        | some (.inr out) => some (.inr (bb, bc, spos, out))

/-- The `decodefast` loop: the entry guard check followed by symbol cycles,
one fuel unit per cycle.  Returns the remaining fuel so that a fast run
followed by a slow continuation spends fuel in lockstep with a pure slow
run. -/
def decodefastGo (s : TInflator) : Nat -> Nat -> Nat -> Nat -> List Nat ->
    Option (FastRes × TInflator × Nat)
  | fuel, bb, bc, spos, out =>
    if s.tcap - out.length < FASTTGTLEFT ∨ s.src.length - spos < FASTSRCLEFT then
      some (.fok, dfDone s bb bc spos out, fuel)
    else
      match fuel with
      | 0 => none
      | fuel + 1 =>
        match dfCycle s bb bc spos out with
        | none => none
        | some (.inl (r, s1)) => some (r, s1, fuel)
        | some (.inr (bb, bc, spos, out)) => decodefastGo s fuel bb bc spos out

/-- `decodefast`: load the local copies from the state and run the fast
loop. -/
def decodefast (fuel : Nat) (s : TInflator) : Option (FastRes × TInflator × Nat) :=
  decodefastGo s fuel s.bbuffer s.bcount s.spos s.out

/-- The symbol fetch loop of the slow path: look up
`tbl[base + (getbits(bits) >> shift)]`, pulling one byte while the entry
needs more bits than are buffered; `false` on source exhaustion (handled at
each call site).  Structural counter as in `rlFetchGo`. -/
def dbFetchGo (tbl : TTable) (base bits shift : Nat) :
    Nat → TInflator → Bool × TINFLTTEntry × TInflator
  | 0, s => (false, default, s)
  | k + 1, s =>
    let e := tbl (base + (getbits s bits >>> shift))
    if e.length ≤ s.bcount then (true, e, s)
    else
      if s.spos < s.src.length then
        dbFetchGo tbl base bits shift k
          { s with
            bbuffer := (s.bbuffer ||| (s.src.getD s.spos 0 <<< s.bcount)) % 2 ^ BBWIDTH,
            bcount := s.bcount + 8,
            spos := s.spos + 1 }
      else (false, e, s)

/-- Entry point of the slow-path symbol fetch loop. -/
def dbFetch (tbl : TTable) (base bits shift : Nat) (s : TInflator) :
    Bool × TINFLTTEntry × TInflator :=
  dbFetchGo tbl base bits shift (s.src.length - s.spos + 1) s

/-- `decodeblck` from label `L_STATE4`: run the back-reference copy; on
success fall back to `L_LOOP` (`.inr` carries the loop registers). -/
def dbPhase4 (length bextra distance : Nat) (s : TInflator) :
    Option (eINFLTResult × TInflator) ⊕ (Nat × Nat × Nat × TInflator) :=
  match copybytes (length + 1) s distance length with
  | none => .inl none
  | some (r, s) =>
    if r ≠ INFLT_OK then .inl (some (r, s)) else .inr (length, bextra, distance, s)

/-- `decodeblck` from label `L_STATE3`: read the distance extra bits. -/
def dbPhase3 (length bextra distance : Nat) (s : TInflator) :
    Option (eINFLTResult × TInflator) ⊕ (Nat × Nat × Nat × TInflator) :=
  match tryreadbits s bextra with
  | (true, s) =>
    let distance := distance + getbits s bextra
    let s := dropbits s bextra
    dbPhase4 length bextra distance s
  | (false, s) =>
    let (r, s) := updatewindow s
    if r ≠ 0 then .inl (some (INFLT_ERROR, s))
    else
      .inl (some (INFLT_SRCEXHSTD,
        { s with substate := 3, aux0 := length, aux1 := bextra, aux2 := distance }))

/-- Common continuation after the distance symbol is resolved. -/
def dbPhase2cont (length : Nat) (e : TINFLTTEntry) (s : TInflator) :
    Option (eINFLTResult × TInflator) ⊕ (Nat × Nat × Nat × TInflator) :=
  if e.etag = INVALIDCODE then
    .inl (some (INFLT_ERROR, { s with error := INFLT_EBADCODE }))
  else
    let s := dropbits s e.length
    dbPhase3 length e.etag e.info s

/-- `decodeblck` from label `L_STATE2`: decode the distance symbol through
the distance table (the dead `INFLT_EOOM` store of the subtable fetch's
exhaustion path is mirrored; `updatewindow` in fact always returns 0). -/
def dbPhase2 (length bextra distance : Nat) (s : TInflator) :
    Option (eINFLTResult × TInflator) ⊕ (Nat × Nat × Nat × TInflator) :=
  match dbFetch s.dtable 0 DROOTBITS 0 s with
  | (false, _, s) =>
    let (r, s) := updatewindow s
    if r ≠ 0 then .inl (some (INFLT_ERROR, s))
    else
      .inl (some (INFLT_SRCEXHSTD,
        { s with substate := 2, aux0 := length, aux1 := bextra, aux2 := distance }))
  | (true, e, s) =>
    if e.etag = SUBTABLEENTRY then
      match dbFetch s.dtable e.info e.length DROOTBITS s with
      | (false, _, s) =>
        let (r, s) := updatewindow s
        if r ≠ 0 then .inl (some (INFLT_ERROR, { s with error := INFLT_EOOM }))
        else
          .inl (some (INFLT_SRCEXHSTD,
            { s with substate := 2, aux0 := length, aux1 := bextra, aux2 := distance }))
      | (true, e, s) => dbPhase2cont length e s
    else dbPhase2cont length e s

/-- `decodeblck` from label `L_STATE1`: read the length extra bits. -/
def dbPhase1 (length bextra distance : Nat) (s : TInflator) :
    Option (eINFLTResult × TInflator) ⊕ (Nat × Nat × Nat × TInflator) :=
  match tryreadbits s bextra with
  | (true, s) =>
    let length := length + getbits s bextra
    let s := dropbits s bextra
    dbPhase2 length bextra distance s
  | (false, s) =>
    let (r, s) := updatewindow s
    if r ≠ 0 then .inl (some (INFLT_ERROR, s))
    else
      .inl (some (INFLT_SRCEXHSTD,
        { s with substate := 1, aux0 := length, aux1 := bextra, aux2 := distance }))

/-- Dispatch after the literal/length symbol is resolved: emit a literal
(suspending in substate 0 when the target is full), finish the block on
end-of-block, raise BAD_CODE on an INVALID entry, or read the length
extras. -/
def dbPhase0cont (length bextra distance : Nat) (e : TINFLTTEntry) (s : TInflator) :
    Option (eINFLTResult × TInflator) ⊕ (Nat × Nat × Nat × TInflator) :=
  if e.etag = LITERALSYMBOL then
    if s.tcap > s.out.length then
      .inr (length, bextra, distance,
        dropbits { s with out := s.out ++ [e.info % 256] } e.length)
    else
      let (r, s) := updatewindow s
      if r ≠ 0 then .inl (some (INFLT_ERROR, s))
      else .inl (some (INFLT_TGTEXHSTD, { s with substate := 0 }))
  else if e.etag = ENDOFBLOCK then
    let s := dropbits s e.length
    .inl (some (INFLT_OK, { s with substate := 0 }))
  else if e.etag = INVALIDCODE then
    .inl (some (INFLT_ERROR, { s with error := INFLT_EBADCODE }))
  else
    let s := dropbits s e.length
    dbPhase1 e.info e.etag distance s

/-- The slow-path symbol decode at `L_LOOP` (after the fast-path check):
resolve one literal/length symbol through the literal/length table. -/
def dbPhase0 (length bextra distance : Nat) (s : TInflator) :
    Option (eINFLTResult × TInflator) ⊕ (Nat × Nat × Nat × TInflator) :=
  match dbFetch s.ltable 0 LROOTBITS 0 s with
  | (false, _, s) =>
    let (r, s) := updatewindow s
    if r ≠ 0 then .inl (some (INFLT_ERROR, s))
    else .inl (some (INFLT_SRCEXHSTD, { s with substate := 0 }))
  | (true, e, s) =>
    if e.etag = SUBTABLEENTRY then
      match dbFetch s.ltable e.info e.length LROOTBITS s with
      | (false, _, s) =>
        let (r, s) := updatewindow s
        if r ≠ 0 then .inl (some (INFLT_ERROR, s))
        else .inl (some (INFLT_SRCEXHSTD, { s with substate := 0 }))
      | (true, e, s) => dbPhase0cont length bextra distance e s
    else dbPhase0cont length bextra distance e s

/-- The slow decoding loop: one fuel unit per symbol cycle. -/
def decodeblckSlowGo : Nat → Nat → Nat → Nat → TInflator →
    Option (eINFLTResult × TInflator)
  | 0, _, _, _, _ => none
  | fuel + 1, length, bextra, distance, s =>
    match dbPhase0 length bextra distance s with
    | .inl r => r
    | .inr (length, bextra, distance, s) =>
      decodeblckSlowGo fuel length bextra distance s

/-- Arrival at `L_LOOP` with `fastcheck` still set: when the guards hold,
run the fast path once; afterwards (or when they fail) continue with the
slow loop, which never re-checks (`fastcheck = 0` for the rest of the
call).  The fast path hands back its remaining fuel so that fuel is spent
one unit per symbol cycle overall. -/
def decodeblckGo (fuel length bextra distance : Nat) (s : TInflator) :
    Option (eINFLTResult × TInflator) :=
  if s.tcap - s.out.length ≥ FASTTGTLEFT ∧ s.src.length - s.spos ≥ FASTSRCLEFT then
    match decodefast fuel s with
    | none => none
    | some (.feob, s, _) => some (INFLT_OK, { s with substate := 0 })
    | some (.ferr, s, _) => some (INFLT_ERROR, s)
    | some (.fok, s, rem) => decodeblckSlowGo rem length bextra distance s
  else decodeblckSlowGo fuel length bextra distance s

/-- Resume helper: a completed resume phase falls back to `L_LOOP` with
`fastcheck` still set. -/
def dbResume (fuel : Nat) :
    Option (eINFLTResult × TInflator) ⊕ (Nat × Nat × Nat × TInflator) →
    Option (eINFLTResult × TInflator)
  | .inl r => r
  | .inr (length, bextra, distance, s) => decodeblckGo fuel length bextra distance s

/-- `decodeblck`: the resumable literal/length/distance block decoder; the
loop registers are loaded from `aux0`..`aux2` and the substate selects the
resume label (a substate outside 1..4 falls through the C switch to
`L_LOOP`). -/
def decodeblck (fuel : Nat) (s : TInflator) : Option (eINFLTResult × TInflator) :=
  match s.substate with
  | 1 => dbResume fuel (dbPhase1 s.aux0 s.aux1 s.aux2 s)
  | 2 => dbResume fuel (dbPhase2 s.aux0 s.aux1 s.aux2 s)
  | 3 => dbResume fuel (dbPhase3 s.aux0 s.aux1 s.aux2 s)
  | 4 => dbResume fuel (dbPhase4 s.aux0 s.aux1 s.aux2 s)
  | _ => decodeblckGo fuel s.aux0 s.aux1 s.aux2 s

/-- Resume helper of the slow-only loop (`decodeblck` as if the fast-path
guards never held): identical to `dbResume` but continuing into the pure
slow loop. -/
def dbResumeSlow (fuel : Nat) :
    Option (eINFLTResult × TInflator) ⊕ (Nat × Nat × Nat × TInflator) →
    Option (eINFLTResult × TInflator)
  | .inl r => r
  | .inr (length, bextra, distance, s) =>
    decodeblckSlowGo fuel length bextra distance s

/-- The slow-path decoding loop as a whole-function variant of
`decodeblck`: the `fastcheck` block is disabled, everything else is
identical.  This is the reference the fast path is compared against. -/
def decodeblckNofast (fuel : Nat) (s : TInflator) : Option (eINFLTResult × TInflator) :=
  match s.substate with
  | 1 => dbResumeSlow fuel (dbPhase1 s.aux0 s.aux1 s.aux2 s)
  | 2 => dbResumeSlow fuel (dbPhase2 s.aux0 s.aux1 s.aux2 s)
  | 3 => dbResumeSlow fuel (dbPhase3 s.aux0 s.aux1 s.aux2 s)
  | 4 => dbResumeSlow fuel (dbPhase4 s.aux0 s.aux1 s.aux2 s)
  | _ => decodeblckSlowGo fuel s.aux0 s.aux1 s.aux2 s

/-- The fixed-Huffman literal/length code lengths (RFC 1951: 0–143 use 8
bits, 144–255 use 9, 256–279 use 7, 280–287 use 8). -/
def fixedlcodes : List Nat :=
  List.replicate 144 8 ++ List.replicate 112 9 ++
  List.replicate 24 7 ++ List.replicate 8 8

/-- The static literal/length table `lsttctable`.  The source stores it as
512 precomputed literal entries; the constant equals `buildtable` applied
to the fixed code lengths (including the artefact that symbols 286/287
read past the end of `lnsinfo`, yielding base 0 / extra 0, which the
precomputed table also contains). -/
def lsttctable : TTable :=
  (buildtable fixedlcodes emptyTable LTABLEMODE).getD emptyTable

/-- The static distance table `dsttctable`: 32 five-bit codes (symbols
30/31 again read past `dstinfo`, giving base 0 entries as in the
precomputed table). -/
def dsttctable : TTable :=
  (buildtable (List.replicate 32 5) emptyTable DTABLEMODE).getD emptyTable

/-- The driver loop of `inflator_inflate` (the `for (;;)` together with
the `L_DECODE` block, which the loop reaches whenever `state = 5`): one
fuel unit per dispatch; the same fuel is handed to the block decoders for
their cycles. -/
def inflateLoop : Nat → TInflator → Option (eINFLTResult × TInflator)
  | 0, _ => none
  | fuel + 1, s =>
    if s.state = 5 then
      match decodeblck (fuel + 1) s with
      | none => none
      | some (r, s) =>
        if r ≠ INFLT_OK then
          if s.finalinput ≠ 0 ∧ r = INFLT_SRCEXHSTD then
            some (INFLT_ERROR, { s with error := INFLT_EINPUTEND })
          else some (r, s)
        else inflateLoop fuel { s with state := 0 }
    else
      match s.state with
      | 0 =>
        if s.final ≠ 0 then some (INFLT_OK, { s with state := INFLT_BADSTATE })
        else
          match tryreadbits s 3 with
          | (true, s) =>
            let f := getbits s 1
            let s := dropbits s 1
            let st := getbits s 2
            let s := dropbits s 2
            inflateLoop fuel { s with final := f, state := st + 1 }
          | (false, s) =>
            if s.finalinput ≠ 0 then
              some (INFLT_ERROR, { s with error := INFLT_EINPUTEND })
            else
              let (r, s) := updatewindow s
              if r ≠ 0 then some (INFLT_ERROR, s)
              else some (INFLT_SRCEXHSTD, s)
      | 1 =>
        match decodestrd s with
        | (r, s) =>
          if r ≠ INFLT_OK then
            if s.finalinput ≠ 0 ∧ r = INFLT_SRCEXHSTD then
              some (INFLT_ERROR, { s with error := INFLT_EINPUTEND })
            else some (r, s)
          else inflateLoop fuel { s with state := 0 }
      | 2 =>
        inflateLoop fuel { s with ltable := lsttctable, dtable := dsttctable, state := 5 }
      | 3 =>
        match decodednmc (fuel + 1) s with
        | none => none
        | some (r, s) =>
          if r ≠ INFLT_OK then
            if s.finalinput ≠ 0 ∧ r = INFLT_SRCEXHSTD then
              some (INFLT_ERROR, { s with error := INFLT_EINPUTEND })
            else some (r, s)
          else inflateLoop fuel { s with state := 5 }
      | 4 =>
        some (INFLT_ERROR, { s with error := INFLT_EBADBLOCK })
      | _ =>
        if s.error = 0 then some (INFLT_ERROR, { s with error := INFLT_EBADSTATE })
        else some (INFLT_ERROR, s)

/-- `inflator_inflate`: latch the final-input flag, mark the decoder used,
and run the driver loop. -/
def inflator_inflate (fuel : Nat) (s : TInflator) (final : Nat) :
    Option (eINFLTResult × TInflator) :=
  let s := if s.finalinput = 0 ∧ final ≠ 0 then { s with finalinput := 1 } else s
  let s := { s with used := 1 }
  inflateLoop fuel s

/-- At `state = 0` with the final-block flag set, the driver loop returns
OK and parks the machine in the bad state. -/
theorem inflateLoop_final (fuel : Nat) (s : TInflator) (h0 : s.state = 0)
    (hf : s.final ≠ 0) :
    inflateLoop (fuel + 1) s = some (INFLT_OK, { s with state := INFLT_BADSTATE }) := by
  rw [inflateLoop]
  rw [if_neg (by rw [h0]; decide)]
  rw [h0]
  rw [if_pos hf]

/-- In the bad state the driver loop reports ERROR (storing the bad-state
code when no error is recorded yet) and touches nothing else. -/
theorem inflateLoop_badstate (fuel : Nat) (s : TInflator) (h : s.state = INFLT_BADSTATE) :
    inflateLoop (fuel + 1) s =
      (if s.error = 0 then some (INFLT_ERROR, { s with error := INFLT_EBADSTATE })
       else some (INFLT_ERROR, s)) := by
  rw [inflateLoop]
  rw [if_neg (by rw [h]; decide)]
  rw [h]
  rfl

/-- At `state = 4` (block type 3) the driver loop stores BAD_BLOCK and
reports ERROR, touching nothing else. -/
theorem inflateLoop_state4 (fuel : Nat) (s : TInflator) (h : s.state = 4) :
    inflateLoop (fuel + 1) s = some (INFLT_ERROR, { s with error := INFLT_EBADBLOCK }) := by
  rw [inflateLoop]
  rw [if_neg (by rw [h]; decide)]
  rw [h]

/-- The normalized entry state of `inflator_inflate`: final-input latch
plus the used mark. -/
def inflateEntry (s : TInflator) (final : Nat) : TInflator :=
  { (if s.finalinput = 0 ∧ final ≠ 0 then { s with finalinput := 1 } else s) with
    used := 1 }

/-- `inflator_inflate` is the driver loop started on the normalized entry
state. -/
theorem inflator_inflate_eq (fuel : Nat) (s : TInflator) (final : Nat) :
    inflator_inflate fuel s final = inflateLoop fuel (inflateEntry s final) := rfl

/-- The entry normalization only touches `finalinput` and `used`. -/
theorem inflateEntry_spec (s : TInflator) (f : Nat) :
    (inflateEntry s f).state = s.state ∧ (inflateEntry s f).error = s.error ∧
    (inflateEntry s f).src = s.src ∧ (inflateEntry s f).spos = s.spos ∧
    (inflateEntry s f).out = s.out ∧ (inflateEntry s f).tcap = s.tcap ∧
    (inflateEntry s f).substate = s.substate ∧ (inflateEntry s f).final = s.final ∧
    (inflateEntry s f).used = 1 := by
  unfold inflateEntry
  split <;> exact ⟨rfl, rfl, rfl, rfl, rfl, rfl, rfl, rfl, rfl⟩

/-- C6 (amended): after the final block has been fully consumed the driver
returns OK with no output exactly once more (the call that finds `state = 0`
with the final flag set), parking the decoder in the bad state; every call
after that returns ERROR with the BAD_STATE error code, again with no
output produced and no input consumed. -/
theorem C6_final_consumed (fuel final : Nat) (s : TInflator) :
    (s.state = 0 → s.final ≠ 0 →
      (inflator_inflate (fuel + 1) s final).map Prod.fst = some INFLT_OK ∧
      (inflator_inflate (fuel + 1) s final).map (fun rs => rs.2.out) = some s.out ∧
      (inflator_inflate (fuel + 1) s final).map (fun rs => rs.2.spos) = some s.spos ∧
      (inflator_inflate (fuel + 1) s final).map (fun rs => rs.2.state)
        = some INFLT_BADSTATE) ∧
    (s.state = INFLT_BADSTATE → s.error = 0 →
      (inflator_inflate (fuel + 1) s final).map Prod.fst = some INFLT_ERROR ∧
      (inflator_inflate (fuel + 1) s final).map (fun rs => rs.2.out) = some s.out ∧
      (inflator_inflate (fuel + 1) s final).map (fun rs => rs.2.spos) = some s.spos ∧
      (inflator_inflate (fuel + 1) s final).map (fun rs => rs.2.error)
        = some INFLT_EBADSTATE) := by
  have hspec := inflateEntry_spec s final
  constructor
  · intro h0 hf
    rw [inflator_inflate_eq]
    rw [inflateLoop_final fuel (inflateEntry s final)
      (by rw [hspec.1, h0]) (by rw [hspec.2.2.2.2.2.2.2.1]; exact hf)]
    refine ⟨rfl, ?_, ?_, rfl⟩
    · show some (inflateEntry s final).out = some s.out
      rw [hspec.2.2.2.2.1]
    · show some (inflateEntry s final).spos = some s.spos
      rw [hspec.2.2.2.1]
  · intro h6 herr
    rw [inflator_inflate_eq]
    rw [inflateLoop_badstate fuel (inflateEntry s final) (by rw [hspec.1, h6])]
    rw [if_pos (by rw [hspec.2.1]; exact herr)]
    refine ⟨rfl, ?_, ?_, rfl⟩
    · show some (inflateEntry s final).out = some s.out
      rw [hspec.2.2.2.2.1]
    · show some (inflateEntry s final).spos = some s.spos
      rw [hspec.2.2.2.1]

/-- The stream `01 00 00 ff ff` (single final empty stored block): the
completing call returns OK and parks the decoder, and the first FURTHER
call returns ERROR with the bad-state code — not OK as the claim states. -/
def c6state : TInflator :=
  { initialState with src := [0x01, 0x00, 0x00, 0xFF, 0xFF], tcap := 16 }

/-- The decoder state after the completing call on `c6state`. -/
def c6s1 : TInflator := ((inflator_inflate 100 c6state 0).getD (INFLT_OK, c6state)).2

/-- The claim fails on the code: after the stream-completing call (which
returns OK), the next call returns ERROR with `INFLT_EBADSTATE`, not OK. -/
theorem C6_cex :
    (inflator_inflate 100 c6state 0).map Prod.fst = some INFLT_OK ∧
    c6s1.state = INFLT_BADSTATE ∧
    (inflator_inflate 100 c6s1 0).map Prod.fst = some INFLT_ERROR ∧
    (inflator_inflate 100 c6s1 0).map (fun rs => rs.2.error) = some INFLT_EBADSTATE := by
  refine ⟨?_, ?_, ?_, ?_⟩ <;> decide

/-- Witness for C6 at a decoder that just consumed its final block and at
one already parked in the bad state. -/
theorem C6_final_consumed_witness :
    (({ initialState with final := 1 } : TInflator).state = 0 ∧
     ({ initialState with final := 1 } : TInflator).final ≠ 0 ∧
     (inflator_inflate 3 { initialState with final := 1 } 0).map Prod.fst
        = some INFLT_OK) ∧
    (({ initialState with state := INFLT_BADSTATE } : TInflator).state
        = INFLT_BADSTATE ∧
     (inflator_inflate 3 { initialState with state := INFLT_BADSTATE } 0).map Prod.fst
        = some INFLT_ERROR) :=
  ⟨⟨rfl, by decide, ((C6_final_consumed 2 0 _).1 rfl (by decide)).1⟩,
   ⟨rfl, ((C6_final_consumed 2 0 _).2 rfl rfl).1⟩⟩

/-- C2 (amended): the errors that park the state machine are terminal: with
`state = 4` (invalid block type) every call re-stores BAD_BLOCK and returns
ERROR, and in the bad state with an error recorded every call returns
ERROR with that error, in both cases producing no output and consuming no
input and leaving the state where it was.  (Decode errors that do NOT park
the machine — bad tree, bad code, far offset, input end — leave the
resumable state in place, and a subsequent call resumes decoding: see the
counterexample.) -/
theorem C2_terminal_states (fuel final : Nat) (s : TInflator) :
    (s.state = 4 →
      (inflator_inflate (fuel + 1) s final).map Prod.fst = some INFLT_ERROR ∧
      (inflator_inflate (fuel + 1) s final).map (fun rs => rs.2.out) = some s.out ∧
      (inflator_inflate (fuel + 1) s final).map (fun rs => rs.2.spos) = some s.spos ∧
      (inflator_inflate (fuel + 1) s final).map (fun rs => rs.2.state) = some 4 ∧
      (inflator_inflate (fuel + 1) s final).map (fun rs => rs.2.error)
        = some INFLT_EBADBLOCK) ∧
    (s.state = INFLT_BADSTATE → s.error ≠ 0 →
      (inflator_inflate (fuel + 1) s final).map Prod.fst = some INFLT_ERROR ∧
      (inflator_inflate (fuel + 1) s final).map (fun rs => rs.2.out) = some s.out ∧
      (inflator_inflate (fuel + 1) s final).map (fun rs => rs.2.spos) = some s.spos ∧
      (inflator_inflate (fuel + 1) s final).map (fun rs => rs.2.state)
        = some INFLT_BADSTATE ∧
      (inflator_inflate (fuel + 1) s final).map (fun rs => rs.2.error)
        = some s.error) := by
  have hspec := inflateEntry_spec s final
  constructor
  · intro h4
    rw [inflator_inflate_eq]
    rw [inflateLoop_state4 fuel (inflateEntry s final) (by rw [hspec.1, h4])]
    refine ⟨rfl, ?_, ?_, ?_, rfl⟩
    · show some (inflateEntry s final).out = some s.out
      rw [hspec.2.2.2.2.1]
    · show some (inflateEntry s final).spos = some s.spos
      rw [hspec.2.2.2.1]
    · show some (inflateEntry s final).state = some 4
      rw [hspec.1, h4]
  · intro h6 herr
    rw [inflator_inflate_eq]
    rw [inflateLoop_badstate fuel (inflateEntry s final) (by rw [hspec.1, h6])]
    rw [if_neg (by rw [hspec.2.1]; exact herr)]
    refine ⟨rfl, ?_, ?_, ?_, ?_⟩
    · show some (inflateEntry s final).out = some s.out
      rw [hspec.2.2.2.2.1]
    · show some (inflateEntry s final).spos = some s.spos
      rw [hspec.2.2.2.1]
    · show some (inflateEntry s final).state = some INFLT_BADSTATE
      rw [hspec.1, h6]
    · show some (inflateEntry s final).error = some s.error
      rw [hspec.2.1]

/-- A dynamic header whose HLIT field is 31 (`slcount = 288 > 286`):
`fc 00 00 00`.  The first call fails with BAD_TREE after consuming three
bytes; the machine is NOT parked. -/
def c2state : TInflator :=
  { initialState with src := [0xFC, 0x00, 0x00, 0x00], tcap := 16 }

/-- The decoder state after the failing first call on `c2state`. -/
def c2s1 : TInflator := ((inflator_inflate 100 c2state 0).getD (INFLT_OK, c2state)).2

/-- The claim fails on the code: after `inflator_inflate` returned ERROR
(bad tree), a second call without a reset does NOT return ERROR — it
resumes the dynamic-header parse, consumes the fourth input byte and
returns SOURCE_EXHAUSTED. -/
theorem C2_cex :
    (inflator_inflate 100 c2state 0).map Prod.fst = some INFLT_ERROR ∧
    c2s1.error = INFLT_EBADTREE ∧ c2s1.spos = 3 ∧
    (inflator_inflate 100 c2s1 0).map Prod.fst = some INFLT_SRCEXHSTD ∧
    (inflator_inflate 100 c2s1 0).map (fun rs => rs.2.spos) = some 4 := by
  refine ⟨?_, ?_, ?_, ?_, ?_⟩ <;> decide

/-- Witness for C2 at a decoder stuck on block type 3 and at one parked
with a recorded error. -/
theorem C2_terminal_states_witness :
    (({ initialState with state := 4 } : TInflator).state = 4 ∧
     (inflator_inflate 9 { initialState with state := 4 } 0).map Prod.fst
        = some INFLT_ERROR) ∧
    (({ initialState with state := INFLT_BADSTATE, error := INFLT_EOOM }
        : TInflator).state = INFLT_BADSTATE ∧
     (inflator_inflate 9
        { initialState with state := INFLT_BADSTATE, error := INFLT_EOOM }
        0).map Prod.fst = some INFLT_ERROR) :=
  ⟨⟨rfl, ((C2_terminal_states 8 0 _).1 rfl).1⟩,
   ⟨rfl, ((C2_terminal_states 8 0 _).2 rfl (by decide)).1⟩⟩

/-- An inflate call on an EMPTY source buffer: it consumes no input byte. -/
def c9state : TInflator := { initialState with src := [], tcap := 16 }

/-- The decoder state after that no-input inflate call. -/
def c9s1 : TInflator := ((inflator_inflate 100 c9state 0).getD (INFLT_OK, c9state)).2

/-- The claim fails on the code: the inflate call consumed no input byte
(`spos = 0`), yet a subsequent `inflator_setdctnr` is refused — the guard
is the `used` flag set by any inflate call, not actual input consumption. -/
theorem C9_cex :
    (inflator_inflate 100 c9state 0).map Prod.fst = some INFLT_SRCEXHSTD ∧
    c9s1.spos = 0 ∧
    (inflator_setdctnr c9s1 [1]).error = INFLT_EINCORRECTUSE ∧
    (inflator_setdctnr c9s1 [1]).state = INFLT_BADSTATE := by
  refine ⟨?_, ?_, ?_, ?_⟩ <;> decide

/-- `L_DONE` reconstructs a byte boundary: at most 7 bits stay buffered and
they are exactly the low sub-byte remainder of the reservoir. -/
theorem dfDone_bits (s : TInflator) (bb bc spos : Nat) (out : List Nat) :
    (dfDone s bb bc spos out).bcount < 8 ∧
    (dfDone s bb bc spos out).bbuffer < 2 ^ (dfDone s bb bc spos out).bcount := by
  refine ⟨?_, ?_⟩
  · show bc &&& 7 < 8
    exact Nat.and_lt_two_pow bc (by decide : (7:Nat) < 2 ^ 3)
  · show bb &&& ((1 <<< (bc &&& 7)) - 1) < 2 ^ (bc &&& 7)
    apply Nat.and_lt_two_pow
    rw [Nat.shiftLeft_eq, one_mul]
    exact Nat.sub_lt (Nat.pos_pow_of_pos _ (by decide)) (by decide)

/-- A loop exit of a symbol cycle is an error or goes through `L_DONE`. -/
theorem dfCycle_inl (s : TInflator) (bb bc spos : Nat) (out : List Nat)
    (r : FastRes) (s1 : TInflator)
    (h : dfCycle s bb bc spos out = some (.inl (r, s1))) :
    r = FastRes.ferr ∨ (s1.bcount < 8 ∧ s1.bbuffer < 2 ^ s1.bcount) := by
  rw [dfCycle] at h
  repeat' (first | split at h | simp only [] at h)
  all_goals first
    | exact Option.noConfusion h
    | (cases h <;> exact Or.inl rfl)
    | (cases h; exact Or.inr (dfDone_bits s _ _ _ _))

/-- Every non-error exit of the fast loop goes through the `L_DONE`
restore. -/
theorem decodefastGo_bits (s : TInflator) :
    ∀ fuel bb bc spos out r s1 rest,
      decodefastGo s fuel bb bc spos out = some (r, s1, rest) →
      r = FastRes.ferr ∨ (s1.bcount < 8 ∧ s1.bbuffer < 2 ^ s1.bcount) := by
  intro fuel
  induction fuel with
  | zero =>
    intro bb bc spos out r s1 rest h
    rw [decodefastGo] at h
    split at h
    · cases h
      exact Or.inr (dfDone_bits s bb bc spos out)
    · exact Option.noConfusion h
  | succ fuel ih =>
    intro bb bc spos out r s1 rest h
    rw [decodefastGo] at h
    split at h
    · cases h
      exact Or.inr (dfDone_bits s bb bc spos out)
    · split at h
      · exact Option.noConfusion h
      · rename_i heq
        cases h
        exact dfCycle_inl s bb bc spos out _ _ heq
      · exact ih _ _ _ _ _ _ _ h

/-- C8 (amended): the byte-boundary reconstruction is a property of the
FAST-PATH exits, not of every suspension return of `inflator_inflate`: at
every non-error exit of `decodefast` the reservoir holds strictly fewer
than 8 bits (only the sub-byte remainder, the over-read whole bytes having
been pushed back to the input cursor by the `L_DONE` restore).  Slow-path
suspensions of the driver do NOT re-establish this bound: see the
counterexample, a SOURCE_EXHAUSTED return with 13 buffered bits. -/
theorem C8_fastpath_boundary (fuel : Nat) (s : TInflator) (r : FastRes)
    (s1 : TInflator) (rest : Nat)
    (h : decodefast fuel s = some (r, s1, rest)) (hr : r ≠ FastRes.ferr) :
    s1.bcount < 8 ∧ s1.bbuffer < 2 ^ s1.bcount := by
  rw [decodefast] at h
  rcases decodefastGo_bits s fuel s.bbuffer s.bcount s.spos s.out r s1 rest h with
    h' | h'
  · exact absurd h' hr
  · exact h'

/-- A dynamic-header prefix `04 00`: the driver suspends with
SOURCE_EXHAUSTED while 13 bits sit in the reservoir. -/
def c8state : TInflator := { initialState with src := [0x04, 0x00], tcap := 16 }

/-- The claim fails on the code for slow-path suspensions: this
SOURCE_EXHAUSTED return of `inflator_inflate` leaves 13 (not fewer than 8)
bits in the reservoir — the slow path keeps whatever bits `tryreadbits`
had fetched when the source ran dry. -/
theorem C8_cex :
    (inflator_inflate 100 c8state 0).map Prod.fst = some INFLT_SRCEXHSTD ∧
    (inflator_inflate 100 c8state 0).map (fun rs => rs.2.bcount) = some 13 := by
  refine ⟨?_, ?_⟩ <;> decide

/-- Witness for C8 at the trivial guard exit of the fast path. -/
theorem C8_fastpath_boundary_witness :
    decodefast 1 initialState
      = some (FastRes.fok, dfDone initialState 0 0 0 [], 1) ∧
    FastRes.fok ≠ FastRes.ferr ∧
    ((dfDone initialState 0 0 0 []).bcount < 8 ∧
     (dfDone initialState 0 0 0 []).bbuffer
        < 2 ^ (dfDone initialState 0 0 0 []).bcount) :=
  ⟨rfl, by decide,
   C8_fastpath_boundary 1 initialState FastRes.fok (dfDone initialState 0 0 0 [])
     1 rfl (by decide)⟩

set_option maxRecDepth 8192

/-- The state component of `updatewindow` (whose numeric result is always
the literal 0). -/
def wnd2 (s : TInflator) : TInflator := (updatewindow s).2

theorem updatewindow_fst (s : TInflator) : (updatewindow s).1 = 0 := by
  simp only [updatewindow]
  repeat' split
  all_goals rfl

/-- `updatewindow` as an explicit pair, for reducing its destructuring
match at call sites. -/
theorem updatewindow_eq (s : TInflator) : updatewindow s = (0, wnd2 s) := by
  have h1 := updatewindow_fst s
  rw [wnd2]
  rcases hu : updatewindow s with ⟨a, b⟩
  rw [hu] at h1
  simp only [] at h1
  subst h1
  rfl

theorem wnd2_finalinput (s : TInflator) : (wnd2 s).finalinput = s.finalinput := by
  rw [wnd2]
  simp only [updatewindow]
  repeat' split
  all_goals rfl

/-- The success flag of `tryreadbits`. -/
def trb1 (s : TInflator) (n : Nat) : Bool := (tryreadbits s n).1

/-- The state component of `tryreadbits`. -/
def trb2 (s : TInflator) (n : Nat) : TInflator := (tryreadbits s n).2

/-- `tryreadbits` as an explicit pair, for reducing its destructuring
match at call sites. -/
theorem tryreadbits_eq (s : TInflator) (n : Nat) :
    tryreadbits s n = (trb1 s n, trb2 s n) := rfl

theorem trb2_finalinput (s : TInflator) (n : Nat) :
    (trb2 s n).finalinput = s.finalinput := (tryreadbits_spec s n).2.2.1

theorem decodestrd3_finalinput (s : TInflator) :
    (decodestrd3 s).2.finalinput = s.finalinput := by
  simp only [decodestrd3, updatewindow_eq]
  repeat' (first | simp only [] | split)
  all_goals try exact absurd rfl (by assumption)
  all_goals try injections
  all_goals subst_vars
  all_goals simp only [wnd2_finalinput]

theorem decodestrd2_finalinput (s : TInflator) :
    (decodestrd2 s).2.finalinput = s.finalinput := by
  simp only [decodestrd2, tryreadbits_eq, updatewindow_eq]
  repeat' (first | simp only [] | split)
  all_goals try exact absurd rfl (by assumption)
  all_goals try injections
  all_goals subst_vars
  all_goals simp only [decodestrd3_finalinput, wnd2_finalinput, trb2_finalinput, dropbits]

theorem decodestrd1_finalinput (s : TInflator) :
    (decodestrd1 s).2.finalinput = s.finalinput := by
  simp only [decodestrd1, tryreadbits_eq, updatewindow_eq]
  repeat' (first | simp only [] | split)
  all_goals try exact absurd rfl (by assumption)
  all_goals try injections
  all_goals subst_vars
  all_goals simp only [decodestrd2_finalinput, wnd2_finalinput, trb2_finalinput, dropbits]

theorem decodestrd0_finalinput (s : TInflator) :
    (decodestrd0 s).2.finalinput = s.finalinput := by
  simp only [decodestrd0, tryreadbits_eq, updatewindow_eq]
  repeat' (first | simp only [] | split)
  all_goals try exact absurd rfl (by assumption)
  all_goals try injections
  all_goals subst_vars
  all_goals simp only [decodestrd1_finalinput, wnd2_finalinput, trb2_finalinput, dropbits]

theorem decodestrd_finalinput (s : TInflator) :
    (decodestrd s).2.finalinput = s.finalinput := by
  rw [decodestrd]
  repeat' split
  all_goals simp only [decodestrd0_finalinput, decodestrd1_finalinput,
    decodestrd2_finalinput, decodestrd3_finalinput]

theorem rlFetchGo_finalinput (k : Nat) : ∀ s : TInflator,
    (∀ r t, rlFetchGo k s = .inl (r, t) → t.finalinput = s.finalinput) ∧
    (∀ e t, rlFetchGo k s = .inr (e, t) → t.finalinput = s.finalinput) := by
  induction k with
  | zero =>
    intro s
    constructor <;> intro a t h <;>
      rw [rlFetchGo] at h <;>
      simp only [updatewindow_eq] at h <;>
      repeat' (first | simp only [] at h | split at h)
    all_goals try exact absurd rfl (by assumption)
    all_goals first
      | exact Sum.noConfusion h
      | (injections; subst_vars; simp only [wnd2_finalinput])
  | succ k ih =>
    intro s
    constructor <;> intro a t h <;>
      rw [rlFetchGo] at h <;>
      simp only [updatewindow_eq] at h <;>
      repeat' (first | simp only [] at h | split at h)
    all_goals try exact absurd rfl (by assumption)
    all_goals first
      | exact Sum.noConfusion h
      | (injections; subst_vars; simp only [wnd2_finalinput])
      | exact ((ih _).1 _ _ h).trans rfl
      | exact ((ih _).2 _ _ h).trans rfl

theorem rlFetch_inl_finalinput (s : TInflator) (r : eINFLTResult) (t : TInflator)
    (h : rlFetch s = .inl (r, t)) : t.finalinput = s.finalinput :=
  (rlFetchGo_finalinput _ s).1 r t h

theorem rlFetch_inr_finalinput (s : TInflator) (e : TINFLTTEntry) (t : TInflator)
    (h : rlFetch s = .inr (e, t)) : t.finalinput = s.finalinput :=
  (rlFetchGo_finalinput _ s).2 e t h

/-- Manual unfolding lemma for `readlengths` at fuel 0 (like
`readlengths_succ`, the auto-generated equations are too costly). -/
theorem readlengths_zero (s : TInflator) (n : Nat) :
    readlengths 0 s n = if s.aux3 < n then none else some (INFLT_OK, s) := rfl

set_option maxHeartbeats 1600000 in
theorem readlengths_finalinput : ∀ fuel (s : TInflator) n r s1,
    readlengths fuel s n = some (r, s1) → s1.finalinput = s.finalinput := by
  intro fuel
  induction fuel with
  | zero =>
    intro s n r s1 h
    rw [readlengths_zero] at h
    split at h
    · exact Option.noConfusion h
    · injections; subst_vars; rfl
  | succ fuel ih =>
    intro s n r s1 h
    rw [readlengths_succ] at h
    split at h
    · split at h
      · rename_i rr heq
        rcases rr with ⟨r0, t⟩
        injection h with h'
        injection h' with h1 h2
        subst h2
        exact rlFetch_inl_finalinput _ _ _ heq
      · rename_i e t heq
        have ht : t.finalinput = s.finalinput := rlFetch_inr_finalinput _ _ _ heq
        clear heq
        split at h
        · exact (ih _ _ _ _ h).trans (by simp only [dropbits]; exact ht)
        · simp only [tryreadbits_eq, updatewindow_eq] at h
          repeat' (first | simp only [] at h | split at h)
          all_goals try exact absurd rfl (by assumption)
          all_goals try injections
          all_goals try injections
          all_goals try injections
          all_goals try subst_vars
          all_goals first
            | (simp only [wnd2_finalinput, trb2_finalinput, dropbits]; exact ht)
            | exact (ih _ _ _ _ h).trans
                (by simp only [dropbits, trb2_finalinput]; exact ht)
    · injections; subst_vars; rfl

theorem dnmclensGo_finalinput (k : Nat) : ∀ s : TInflator,
    (dnmclensGo k s).2.finalinput = s.finalinput := by
  induction k with
  | zero => intro s; rfl
  | succ k ih =>
    intro s
    simp only [dnmclensGo, tryreadbits_eq]
    repeat' (first | simp only [] | split)
    all_goals try injections
    all_goals subst_vars
    all_goals first
      | rfl
      | exact (ih _).trans (by simp only [dropbits, trb2_finalinput])
      | (simp only [trb2_finalinput]; done)

theorem dnmclens_finalinput (s : TInflator) :
    (dnmclens s).2.finalinput = s.finalinput := dnmclensGo_finalinput _ s

/-- The components of `dnmclens`, for reducing its destructuring match. -/
def dnl1 (s : TInflator) : Bool := (dnmclens s).1

def dnl2 (s : TInflator) : TInflator := (dnmclens s).2

theorem dnmclens_eq (s : TInflator) : dnmclens s = (dnl1 s, dnl2 s) := rfl

theorem dnl2_finalinput (s : TInflator) : (dnl2 s).finalinput = s.finalinput :=
  dnmclens_finalinput s

theorem decodednmc2_finalinput (fuel : Nat) (s : TInflator) (r : eINFLTResult)
    (s1 : TInflator) (h : decodednmc2 fuel s = some (r, s1)) :
    s1.finalinput = s.finalinput := by
  rw [decodednmc2] at h
  repeat' (first | simp only [] at h | split at h)
  all_goals try exact Option.noConfusion h
  all_goals injections
  all_goals subst_vars
  all_goals try simp only []
  all_goals exact readlengths_finalinput _ _ _ _ _ (by assumption)

theorem decodednmc1_finalinput (fuel : Nat) (s : TInflator) (r : eINFLTResult)
    (s1 : TInflator) (h : decodednmc1 fuel s = some (r, s1)) :
    s1.finalinput = s.finalinput := by
  rw [decodednmc1] at h
  simp only [dnmclens_eq, updatewindow_eq] at h
  repeat' (first | simp only [] at h | split at h)
  all_goals try exact absurd rfl (by assumption)
  all_goals try exact Option.noConfusion h
  all_goals try injections
  all_goals try injections
  all_goals try injections
  all_goals try subst_vars
  all_goals first
    | (simp only [wnd2_finalinput, dnl2_finalinput]; done)
    | exact (decodednmc2_finalinput _ _ _ _ h).trans
        (by simp only [dnl2_finalinput])

theorem decodednmc0_finalinput (fuel : Nat) (s : TInflator) (r : eINFLTResult)
    (s1 : TInflator) (h : decodednmc0 fuel s = some (r, s1)) :
    s1.finalinput = s.finalinput := by
  rw [decodednmc0] at h
  simp only [tryreadbits_eq, updatewindow_eq] at h
  repeat' (first | simp only [] at h | split at h)
  all_goals try exact absurd rfl (by assumption)
  all_goals try exact Option.noConfusion h
  all_goals try injections
  all_goals try injections
  all_goals try injections
  all_goals try subst_vars
  all_goals first
    | (simp only [wnd2_finalinput, trb2_finalinput, dropbits]; done)
    | exact (decodednmc1_finalinput _ _ _ _ h).trans
        (by simp only [dropbits, trb2_finalinput])

theorem decodednmc_finalinput (fuel : Nat) (s : TInflator) (r : eINFLTResult)
    (s1 : TInflator) (h : decodednmc fuel s = some (r, s1)) :
    s1.finalinput = s.finalinput := by
  rw [decodednmc] at h
  split at h
  · exact decodednmc1_finalinput _ _ _ _ h
  · exact decodednmc2_finalinput _ _ _ _ h
  · exact decodednmc0_finalinput _ _ _ _ h

theorem copybytes_finalinput : ∀ fuel (s : TInflator) d l r s1,
    copybytes fuel s d l = some (r, s1) → s1.finalinput = s.finalinput := by
  intro fuel
  induction fuel with
  | zero => intro s d l r s1 h; exact Option.noConfusion h
  | succ fuel ih =>
    intro s d l r s1 h
    rw [copybytes] at h
    simp only [updatewindow_eq] at h
    repeat' (first | simp only [] at h | split at h)
    all_goals try exact absurd rfl (by assumption)
    all_goals try injections
    all_goals try injections
    all_goals try injections
    all_goals try subst_vars
    all_goals first
      | (simp only [wnd2_finalinput]; done)
      | rfl
      | exact (ih _ _ _ _ _ h).trans rfl

theorem dfCycle_finalinput (s : TInflator) (bb bc spos : Nat) (out : List Nat)
    (r : FastRes) (s1 : TInflator)
    (h : dfCycle s bb bc spos out = some (.inl (r, s1))) :
    s1.finalinput = s.finalinput := by
  rw [dfCycle] at h
  repeat' (first | simp only [] at h | split at h)
  all_goals try exact Option.noConfusion h
  all_goals injections
  all_goals subst_vars
  all_goals rfl

theorem decodefastGo_finalinput (s : TInflator) :
    ∀ fuel bb bc spos out r s1 rest,
      decodefastGo s fuel bb bc spos out = some (r, s1, rest) →
      s1.finalinput = s.finalinput := by
  intro fuel
  induction fuel with
  | zero =>
    intro bb bc spos out r s1 rest h
    rw [decodefastGo] at h
    split at h
    · injections; subst_vars; rfl
    · exact Option.noConfusion h
  | succ fuel ih =>
    intro bb bc spos out r s1 rest h
    rw [decodefastGo] at h
    split at h
    · injections; subst_vars; rfl
    · split at h
      · exact Option.noConfusion h
      · rename_i p heq
        rcases p with ⟨r0, t0⟩
        injections
        subst_vars
        exact dfCycle_finalinput _ _ _ _ _ _ _ heq
      · exact ih _ _ _ _ _ _ _ h

theorem decodefast_finalinput (fuel : Nat) (s : TInflator) (r : FastRes)
    (s1 : TInflator) (rest : Nat) (h : decodefast fuel s = some (r, s1, rest)) :
    s1.finalinput = s.finalinput :=
  decodefastGo_finalinput s fuel _ _ _ _ r s1 rest h

/-- The components of `dbFetch`, for reducing its destructuring match. -/
def dbf1 (tbl : TTable) (base bits shift : Nat) (s : TInflator) : Bool :=
  (dbFetch tbl base bits shift s).1

def dbf2 (tbl : TTable) (base bits shift : Nat) (s : TInflator) : TINFLTTEntry :=
  (dbFetch tbl base bits shift s).2.1

def dbf3 (tbl : TTable) (base bits shift : Nat) (s : TInflator) : TInflator :=
  (dbFetch tbl base bits shift s).2.2

theorem dbFetch_eq (tbl : TTable) (base bits shift : Nat) (s : TInflator) :
    dbFetch tbl base bits shift s =
      (dbf1 tbl base bits shift s, dbf2 tbl base bits shift s,
       dbf3 tbl base bits shift s) := rfl

theorem dbFetchGo_finalinput (tbl : TTable) (base bits shift : Nat) :
    ∀ k (s : TInflator),
      (dbFetchGo tbl base bits shift k s).2.2.finalinput = s.finalinput := by
  intro k
  induction k with
  | zero => intro s; rfl
  | succ k ih =>
    intro s
    rw [dbFetchGo]
    repeat' split
    all_goals first
      | rfl
      | exact (ih _).trans rfl

theorem dbf3_finalinput (tbl : TTable) (base bits shift : Nat) (s : TInflator) :
    (dbf3 tbl base bits shift s).finalinput = s.finalinput :=
  dbFetchGo_finalinput tbl base bits shift _ s

theorem dbPhase4_frame (l b d : Nat) (s : TInflator) :
    (∀ r t, dbPhase4 l b d s = .inl (some (r, t)) → t.finalinput = s.finalinput) ∧
    (∀ l2 b2 d2 t, dbPhase4 l b d s = .inr (l2, b2, d2, t) →
      t.finalinput = s.finalinput) := by
  constructor <;> intro a1 a2 <;> [skip; intro a3 a4] <;> intro h <;>
    rw [dbPhase4] at h <;>
    rcases hc : copybytes (l + 1) s d l with _ | ⟨r0, t0⟩ <;>
    rw [hc] at h <;>
    simp only [] at h <;>
    try split at h
  all_goals try exact Sum.noConfusion h
  all_goals injections
  all_goals subst_vars
  all_goals exact (copybytes_finalinput _ _ _ _ _ _ hc).trans rfl

theorem dbPhase3_frame (l b d : Nat) (s : TInflator) :
    (∀ r t, dbPhase3 l b d s = .inl (some (r, t)) → t.finalinput = s.finalinput) ∧
    (∀ l2 b2 d2 t, dbPhase3 l b d s = .inr (l2, b2, d2, t) →
      t.finalinput = s.finalinput) := by
  constructor <;> [intro a1 a2 h; intro a1 a2 a3 a4 h] <;>
    rw [dbPhase3] at h <;>
    simp only [tryreadbits_eq, updatewindow_eq] at h <;>
    repeat' (first | simp only [] at h | split at h)
  all_goals try exact absurd rfl (by assumption)
  all_goals try exact Sum.noConfusion h
  all_goals try injections
  all_goals try injections
  all_goals try injections
  all_goals try subst_vars
  all_goals first
    | (simp only [wnd2_finalinput, trb2_finalinput, dropbits]; done)
    | exact ((dbPhase4_frame _ _ _ _).1 _ _ h).trans
        (by simp only [dropbits, trb2_finalinput])
    | exact ((dbPhase4_frame _ _ _ _).2 _ _ _ _ h).trans
        (by simp only [dropbits, trb2_finalinput])

theorem dbPhase2_frame (l b d : Nat) (s : TInflator) :
    (∀ r t, dbPhase2 l b d s = .inl (some (r, t)) → t.finalinput = s.finalinput) ∧
    (∀ l2 b2 d2 t, dbPhase2 l b d s = .inr (l2, b2, d2, t) →
      t.finalinput = s.finalinput) := by
  constructor <;> [intro a1 a2 h; intro a1 a2 a3 a4 h] <;>
    rw [dbPhase2] at h <;>
    simp only [dbFetch_eq, updatewindow_eq, dbPhase2cont] at h <;>
    repeat' (first | simp only [] at h | split at h)
  all_goals try exact absurd rfl (by assumption)
  all_goals try exact Sum.noConfusion h
  all_goals try simp only [Sum.inl.injEq, Sum.inr.injEq, Option.some.injEq,
    Prod.mk.injEq] at *
  all_goals try exact Option.noConfusion h
  all_goals casesm* _ ∧ _
  all_goals subst_vars
  all_goals first
    | (simp only [wnd2_finalinput, dbf3_finalinput, dropbits]; done)
    | exact ((dbPhase3_frame _ _ _ _).1 _ _ h).trans
        (by simp only [dropbits, dbf3_finalinput])
    | exact ((dbPhase3_frame _ _ _ _).2 _ _ _ _ h).trans
        (by simp only [dropbits, dbf3_finalinput])

theorem dbPhase1_frame (l b d : Nat) (s : TInflator) :
    (∀ r t, dbPhase1 l b d s = .inl (some (r, t)) → t.finalinput = s.finalinput) ∧
    (∀ l2 b2 d2 t, dbPhase1 l b d s = .inr (l2, b2, d2, t) →
      t.finalinput = s.finalinput) := by
  constructor <;> [intro a1 a2 h; intro a1 a2 a3 a4 h] <;>
    rw [dbPhase1] at h <;>
    simp only [tryreadbits_eq, updatewindow_eq] at h <;>
    repeat' (first | simp only [] at h | split at h)
  all_goals try exact absurd rfl (by assumption)
  all_goals try exact Sum.noConfusion h
  all_goals try injections
  all_goals try injections
  all_goals try injections
  all_goals try subst_vars
  all_goals first
    | (simp only [wnd2_finalinput, trb2_finalinput, dropbits]; done)
    | exact ((dbPhase2_frame _ _ _ _).1 _ _ h).trans
        (by simp only [dropbits, trb2_finalinput])
    | exact ((dbPhase2_frame _ _ _ _).2 _ _ _ _ h).trans
        (by simp only [dropbits, trb2_finalinput])

theorem dbPhase0_frame (l b d : Nat) (s : TInflator) :
    (∀ r t, dbPhase0 l b d s = .inl (some (r, t)) → t.finalinput = s.finalinput) ∧
    (∀ l2 b2 d2 t, dbPhase0 l b d s = .inr (l2, b2, d2, t) →
      t.finalinput = s.finalinput) := by
  constructor <;> [intro a1 a2 h; intro a1 a2 a3 a4 h] <;>
    rw [dbPhase0] at h <;>
    simp only [dbFetch_eq, updatewindow_eq, dbPhase0cont] at h <;>
    repeat' (first | simp only [] at h | split at h)
  all_goals try exact absurd rfl (by assumption)
  all_goals try exact Sum.noConfusion h
  all_goals try simp only [Sum.inl.injEq, Sum.inr.injEq, Option.some.injEq,
    Prod.mk.injEq] at *
  all_goals try exact Option.noConfusion h
  all_goals casesm* _ ∧ _
  all_goals subst_vars
  all_goals first
    | (simp only [wnd2_finalinput, dbf3_finalinput, dropbits]; done)
    | exact ((dbPhase1_frame _ _ _ _).1 _ _ h).trans
        (by simp only [dropbits, dbf3_finalinput])
    | exact ((dbPhase1_frame _ _ _ _).2 _ _ _ _ h).trans
        (by simp only [dropbits, dbf3_finalinput])

theorem decodeblckSlowGo_finalinput : ∀ fuel l b d (s : TInflator) r s1,
    decodeblckSlowGo fuel l b d s = some (r, s1) → s1.finalinput = s.finalinput := by
  intro fuel
  induction fuel with
  | zero => intro l b d s r s1 h; exact Option.noConfusion h
  | succ fuel ih =>
    intro l b d s r s1 h
    rw [decodeblckSlowGo] at h
    split at h
    · rename_i res heq
      subst h
      exact (dbPhase0_frame _ _ _ _).1 _ _ heq
    · rename_i l2 b2 d2 t heq
      exact (ih _ _ _ _ _ _ h).trans ((dbPhase0_frame _ _ _ _).2 _ _ _ _ heq)

theorem decodeblckGo_finalinput (fuel l b d : Nat) (s : TInflator)
    (r : eINFLTResult) (s1 : TInflator)
    (h : decodeblckGo fuel l b d s = some (r, s1)) :
    s1.finalinput = s.finalinput := by
  rw [decodeblckGo] at h
  split at h
  · split at h
    · exact Option.noConfusion h
    · rename_i t rest heq
      injections; subst_vars
      exact (decodefast_finalinput _ _ _ _ _ heq).trans rfl
    · rename_i t rest heq
      injections; subst_vars
      exact decodefast_finalinput _ _ _ _ _ heq
    · rename_i t rest heq
      exact (decodeblckSlowGo_finalinput _ _ _ _ _ _ _ h).trans
        (decodefast_finalinput _ _ _ _ _ heq)
  · exact decodeblckSlowGo_finalinput _ _ _ _ _ _ _ h

theorem decodeblck_finalinput (fuel : Nat) (s : TInflator) (r : eINFLTResult)
    (s1 : TInflator) (h : decodeblck fuel s = some (r, s1)) :
    s1.finalinput = s.finalinput := by
  rw [decodeblck] at h
  split at h
  · rcases hx : dbPhase1 s.aux0 s.aux1 s.aux2 s with p | ⟨l2, b2, d2, t⟩ <;>
      rw [hx] at h <;> simp only [dbResume] at h
    · subst h; exact (dbPhase1_frame _ _ _ _).1 _ _ hx
    · exact (decodeblckGo_finalinput _ _ _ _ _ _ _ h).trans
        ((dbPhase1_frame _ _ _ _).2 _ _ _ _ hx)
  · rcases hx : dbPhase2 s.aux0 s.aux1 s.aux2 s with p | ⟨l2, b2, d2, t⟩ <;>
      rw [hx] at h <;> simp only [dbResume] at h
    · subst h; exact (dbPhase2_frame _ _ _ _).1 _ _ hx
    · exact (decodeblckGo_finalinput _ _ _ _ _ _ _ h).trans
        ((dbPhase2_frame _ _ _ _).2 _ _ _ _ hx)
  · rcases hx : dbPhase3 s.aux0 s.aux1 s.aux2 s with p | ⟨l2, b2, d2, t⟩ <;>
      rw [hx] at h <;> simp only [dbResume] at h
    · subst h; exact (dbPhase3_frame _ _ _ _).1 _ _ hx
    · exact (decodeblckGo_finalinput _ _ _ _ _ _ _ h).trans
        ((dbPhase3_frame _ _ _ _).2 _ _ _ _ hx)
  · rcases hx : dbPhase4 s.aux0 s.aux1 s.aux2 s with p | ⟨l2, b2, d2, t⟩ <;>
      rw [hx] at h <;> simp only [dbResume] at h
    · subst h; exact (dbPhase4_frame _ _ _ _).1 _ _ hx
    · exact (decodeblckGo_finalinput _ _ _ _ _ _ _ h).trans
        ((dbPhase4_frame _ _ _ _).2 _ _ _ _ hx)
  · exact decodeblckGo_finalinput _ _ _ _ _ _ _ h


/-- The components of `decodestrd`, for reducing its destructuring match. -/
def dst1 (s : TInflator) : eINFLTResult := (decodestrd s).1

def dst2 (s : TInflator) : TInflator := (decodestrd s).2

theorem decodestrd_eq (s : TInflator) : decodestrd s = (dst1 s, dst2 s) := rfl

theorem dst2_finalinput (s : TInflator) : (dst2 s).finalinput = s.finalinput :=
  decodestrd_finalinput s

/-- The driver loop never writes the final-input latch, and with the latch
set it never reports SOURCE_EXHAUSTED (each suspension site converts it to
ERROR with the INPUT_END code first). -/
theorem inflateLoop_final_props : ∀ fuel (s : TInflator) r s1,
    inflateLoop fuel s = some (r, s1) →
    s1.finalinput = s.finalinput ∧
    (s.finalinput ≠ 0 → r ≠ INFLT_SRCEXHSTD) := by
  intro fuel
  induction fuel with
  | zero => intro s r s1 h; exact Option.noConfusion h
  | succ fuel ih =>
    intro s r s1 h
    rw [inflateLoop] at h
    simp only [tryreadbits_eq, decodestrd_eq, updatewindow_eq] at h
    split at h
    · -- state 5: the decodeblck dispatch
      split at h
      · exact Option.noConfusion h
      · rename_i r0 t0 heq
        have ht0 : t0.finalinput = s.finalinput := decodeblck_finalinput _ _ _ _ heq
        split at h
        · split at h
          · injection h with h'
            injection h' with h1 h2
            subst h1; subst h2
            exact ⟨ht0, fun _ => by decide⟩
          · rename_i hcond
            injection h with h'
            injection h' with h1 h2
            subst h1; subst h2
            exact ⟨ht0, fun hf hr => hcond ⟨by rw [ht0]; exact hf, hr⟩⟩
        · have hrec := ih { t0 with state := 0 } r s1 h
          exact ⟨hrec.1.trans ht0,
                 fun hf => hrec.2 (show t0.finalinput ≠ 0 by rw [ht0]; exact hf)⟩
    · split at h
      · -- state 0, final block already consumed
        split at h
        · injection h with h'
          injection h' with h1 h2
          subst h1; subst h2
          exact ⟨rfl, fun _ => by decide⟩
        · -- block header read
          split at h
          · rename_i p e1 heq
            injection heq with e1 e2
            subst e2
            have hrec := ih _ r s1 h
            refine ⟨hrec.1.trans (by simp only [dropbits, trb2_finalinput]), ?_⟩
            intro hf
            refine hrec.2 ?_
            show (dropbits (dropbits (trb2 s 3) 1) 2).finalinput ≠ 0
            simp only [dropbits, trb2_finalinput]
            exact hf
          · rename_i p e1 heq
            injection heq with e1 e2
            subst e2
            split at h
            · injection h with h'
              injection h' with h1 h2
              subst h1; subst h2
              exact ⟨by simp only [trb2_finalinput], fun _ => by decide⟩
            · rename_i hcond
              rw [trb2_finalinput] at hcond
              split at h
              · injection h with h'
                injection h' with h1 h2
                subst h1; subst h2
                exact ⟨by simp only [wnd2_finalinput, trb2_finalinput],
                       fun hf => absurd hf (by exact absurd · hcond)⟩
              · injection h with h'
                injection h' with h1 h2
                subst h1; subst h2
                exact ⟨by simp only [wnd2_finalinput, trb2_finalinput],
                       fun hf => absurd hf hcond⟩
      · -- state 1: stored block
        split at h
        · split at h
          · injection h with h'
            injection h' with h1 h2
            subst h1; subst h2
            exact ⟨by simp only [dst2_finalinput], fun _ => by decide⟩
          · rename_i hcond
            injection h with h'
            injection h' with h1 h2
            subst h1; subst h2
            exact ⟨by simp only [dst2_finalinput],
                   fun hf hr => hcond ⟨by rw [dst2_finalinput]; exact hf, hr⟩⟩
        · have hrec := ih { dst2 s with state := 0 } r s1 h
          exact ⟨hrec.1.trans (dst2_finalinput s),
                 fun hf => hrec.2
                   (show (dst2 s).finalinput ≠ 0 by
                     rw [dst2_finalinput]; exact hf)⟩
      · -- state 2: static tables
        have hrec := ih _ r s1 h
        exact ⟨hrec.1.trans rfl, fun hf => hrec.2 (show s.finalinput ≠ 0 from hf)⟩
      · -- state 3: dynamic header
        split at h
        · exact Option.noConfusion h
        · rename_i r0 t0 heq
          have ht0 : t0.finalinput = s.finalinput := decodednmc_finalinput _ _ _ _ heq
          split at h
          · split at h
            · injection h with h'
              injection h' with h1 h2
              subst h1; subst h2
              exact ⟨ht0, fun _ => by decide⟩
            · rename_i hcond
              injection h with h'
              injection h' with h1 h2
              subst h1; subst h2
              exact ⟨ht0, fun hf hr => hcond ⟨by rw [ht0]; exact hf, hr⟩⟩
          · have hrec := ih { t0 with state := 5 } r s1 h
            exact ⟨hrec.1.trans ht0,
                   fun hf => hrec.2 (show t0.finalinput ≠ 0 by rw [ht0]; exact hf)⟩
      · -- state 4: invalid block type
        injection h with h'
        injection h' with h1 h2
        subst h1; subst h2
        exact ⟨rfl, fun _ => by decide⟩
      · -- bad state
        split at h
        · injection h with h'
          injection h' with h1 h2
          subst h1; subst h2
          exact ⟨rfl, fun _ => by decide⟩
        · injection h with h'
          injection h' with h1 h2
          subst h1; subst h2
          exact ⟨rfl, fun _ => by decide⟩

/-- Overwrite only the `finalinput` latch of a state. -/
def setfi (s : TInflator) (w : Nat) : TInflator := { s with finalinput := w }

/-- Tag a driver result with the latch value `w` (the decode functions
never read the latch, so their results only carry it through). -/
def omap (w : Nat) : Option (eINFLTResult × TInflator) → Option (eINFLTResult × TInflator) :=
  Option.map (fun p => (p.1, setfi p.2 w))

theorem setfi_eta (s : TInflator) : setfi s s.finalinput = s := rfl

theorem updatewindow_setfi (s : TInflator) (w : Nat) :
    updatewindow (setfi s w) = (0, setfi (wnd2 s) w) := by
  rw [wnd2]
  unfold setfi updatewindow
  simp only []
  repeat' (first | split | simp only [])
  all_goals first
    | rfl
    | (exact absurd (by assumption) (by assumption))

theorem wnd2_setfi (s : TInflator) (w : Nat) :
    wnd2 (setfi s w) = setfi (wnd2 s) w := by
  rw [wnd2, updatewindow_setfi]

theorem tryreadbitsGo_setfi : ∀ (k : Nat) (s : TInflator) (n w : Nat),
    tryreadbitsGo k (setfi s w) n =
      ((tryreadbitsGo k s n).1, setfi (tryreadbitsGo k s n).2 w) := by
  intro k
  induction k with
  | zero => intro s n w; rfl
  | succ k ih =>
    intro s n w
    rw [show tryreadbitsGo (k + 1) (setfi s w) n =
        (if n > s.bcount then
          if s.spos ≥ s.src.length then (false, setfi s w)
          else
            tryreadbitsGo k
              (setfi { s with
                bbuffer := (s.bbuffer ||| (s.src.getD s.spos 0 <<< s.bcount)) % 2 ^ BBWIDTH,
                bcount := s.bcount + 8,
                spos := s.spos + 1 } w) n
        else (true, setfi s w)) from rfl,
      show tryreadbitsGo (k + 1) s n =
        (if n > s.bcount then
          if s.spos ≥ s.src.length then (false, s)
          else
            tryreadbitsGo k
              { s with
                bbuffer := (s.bbuffer ||| (s.src.getD s.spos 0 <<< s.bcount)) % 2 ^ BBWIDTH,
                bcount := s.bcount + 8,
                spos := s.spos + 1 } n
        else (true, s)) from rfl]
    by_cases h1 : n > s.bcount
    · rw [if_pos h1, if_pos h1]
      by_cases h2 : s.spos ≥ s.src.length
      · rw [if_pos h2, if_pos h2]
      · rw [if_neg h2, if_neg h2, ih]
    · rw [if_neg h1, if_neg h1]

theorem tryreadbits_setfi (s : TInflator) (n w : Nat) :
    tryreadbits (setfi s w) n = (trb1 s n, setfi (trb2 s n) w) :=
  tryreadbitsGo_setfi n s n w

theorem trb1_setfi (s : TInflator) (n w : Nat) : trb1 (setfi s w) n = trb1 s n := by
  rw [trb1, tryreadbits_setfi]

theorem trb2_setfi (s : TInflator) (n w : Nat) :
    trb2 (setfi s w) n = setfi (trb2 s n) w := by
  rw [trb2, tryreadbits_setfi]

theorem decodestrd3_setfi (s : TInflator) (w : Nat) :
    decodestrd3 (setfi s w) = ((decodestrd3 s).1, setfi (decodestrd3 s).2 w) := by
  have hL : decodestrd3 (setfi s w) =
      (let maxrun := s.aux0
       let maxrun := if s.tcap - s.out.length < maxrun then s.tcap - s.out.length else maxrun
       let maxrun := if s.src.length - s.spos < maxrun then s.src.length - s.spos else maxrun
       let s2 : TInflator := { s with out := s.out ++ (s.src.drop s.spos).take maxrun, spos := s.spos + maxrun, aux0 := s.aux0 - maxrun }
       if s2.aux0 ≠ 0 then
         if s2.final = 0 then
           match updatewindow (setfi s2 w) with
           | (r, s3) =>
             if r ≠ 0 then (INFLT_ERROR, s3)
             else if (s.tcap - s.out.length) - maxrun = 0 then (INFLT_TGTEXHSTD, s3)
             else (INFLT_SRCEXHSTD, s3)
         else
           if (s.tcap - s.out.length) - maxrun = 0 then (INFLT_TGTEXHSTD, setfi s2 w)
           else (INFLT_SRCEXHSTD, setfi s2 w)
       else (INFLT_OK, setfi { s2 with substate := 0 } w)) := rfl
  have hR : decodestrd3 s =
      (let maxrun := s.aux0
       let maxrun := if s.tcap - s.out.length < maxrun then s.tcap - s.out.length else maxrun
       let maxrun := if s.src.length - s.spos < maxrun then s.src.length - s.spos else maxrun
       let s2 : TInflator := { s with out := s.out ++ (s.src.drop s.spos).take maxrun, spos := s.spos + maxrun, aux0 := s.aux0 - maxrun }
       if s2.aux0 ≠ 0 then
         if s2.final = 0 then
           match updatewindow s2 with
           | (r, s3) =>
             if r ≠ 0 then (INFLT_ERROR, s3)
             else if (s.tcap - s.out.length) - maxrun = 0 then (INFLT_TGTEXHSTD, s3)
             else (INFLT_SRCEXHSTD, s3)
         else
           if (s.tcap - s.out.length) - maxrun = 0 then (INFLT_TGTEXHSTD, s2)
           else (INFLT_SRCEXHSTD, s2)
       else (INFLT_OK, setfi { s2 with substate := 0 } s.finalinput)) := rfl
  rw [hL, hR]
  simp only [updatewindow_setfi, updatewindow_eq]
  repeat' (first | split | simp only [])
  all_goals try rfl
  all_goals try exact absurd rfl (by assumption)
  all_goals try exact congrArg (Prod.mk _) (wnd2_setfi _ _)
  all_goals exact absurd (by assumption) (by assumption)

theorem getbits_setfi (s : TInflator) (n w : Nat) :
    getbits (setfi s w) n = getbits s n := rfl

theorem dropbits_setfi (s : TInflator) (n w : Nat) :
    dropbits (setfi s w) n = setfi (dropbits s n) w := rfl

theorem setfi_aux0 (s : TInflator) (w : Nat) : (setfi s w).aux0 = s.aux0 := rfl
theorem setfi_aux1 (s : TInflator) (w : Nat) : (setfi s w).aux1 = s.aux1 := rfl
theorem setfi_aux2 (s : TInflator) (w : Nat) : (setfi s w).aux2 = s.aux2 := rfl
theorem setfi_aux3 (s : TInflator) (w : Nat) : (setfi s w).aux3 = s.aux3 := rfl
theorem setfi_substate (s : TInflator) (w : Nat) : (setfi s w).substate = s.substate := rfl
theorem setfi_state (s : TInflator) (w : Nat) : (setfi s w).state = s.state := rfl
theorem setfi_final (s : TInflator) (w : Nat) : (setfi s w).final = s.final := rfl
theorem setfi_error (s : TInflator) (w : Nat) : (setfi s w).error = s.error := rfl
theorem setfi_src (s : TInflator) (w : Nat) : (setfi s w).src = s.src := rfl
theorem setfi_spos (s : TInflator) (w : Nat) : (setfi s w).spos = s.spos := rfl
theorem setfi_out (s : TInflator) (w : Nat) : (setfi s w).out = s.out := rfl
theorem setfi_tcap (s : TInflator) (w : Nat) : (setfi s w).tcap = s.tcap := rfl
theorem setfi_bcount (s : TInflator) (w : Nat) : (setfi s w).bcount = s.bcount := rfl
theorem setfi_bbuffer (s : TInflator) (w : Nat) : (setfi s w).bbuffer = s.bbuffer := rfl
theorem setfi_lengths (s : TInflator) (w : Nat) : (setfi s w).lengths = s.lengths := rfl
theorem setfi_ltable (s : TInflator) (w : Nat) : (setfi s w).ltable = s.ltable := rfl
theorem setfi_dtable (s : TInflator) (w : Nat) : (setfi s w).dtable = s.dtable := rfl
theorem setfi_tblL (s : TInflator) (w : Nat) : (setfi s w).tblL = s.tblL := rfl
theorem setfi_tblD (s : TInflator) (w : Nat) : (setfi s w).tblD = s.tblD := rfl
theorem setfi_count (s : TInflator) (w : Nat) : (setfi s w).count = s.count := rfl
theorem setfi_wend (s : TInflator) (w : Nat) : (setfi s w).wend = s.wend := rfl
theorem setfi_window (s : TInflator) (w : Nat) : (setfi s w).window = s.window := rfl

theorem setfi_upd_substate (t : TInflator) (w a : Nat) :
    ({ setfi t w with substate := a } : TInflator) = setfi { t with substate := a } w := rfl
theorem setfi_upd_aux0_substate (t : TInflator) (w a b : Nat) :
    ({ setfi t w with aux0 := a, substate := b } : TInflator)
      = setfi { t with aux0 := a, substate := b } w := rfl
theorem setfi_upd_error (t : TInflator) (w a : Nat) :
    ({ setfi t w with error := a } : TInflator) = setfi { t with error := a } w := rfl

theorem decodestrd2_setfi (s : TInflator) (w : Nat) :
    decodestrd2 (setfi s w) = ((decodestrd2 s).1, setfi (decodestrd2 s).2 w) := by
  unfold decodestrd2
  rw [tryreadbits_setfi, tryreadbits_eq]
  cases hq : trb1 s 16
  all_goals simp only [getbits_setfi, dropbits_setfi, setfi_aux0, setfi_upd_aux0_substate,
    setfi_upd_substate, setfi_upd_error, setfi_substate, decodestrd3_setfi,
    updatewindow_setfi, updatewindow_eq]
  all_goals repeat' (first | split | simp only [])
  all_goals try rfl
  all_goals try exact absurd rfl (by assumption)
  all_goals try exact congrArg (Prod.mk _) (wnd2_setfi _ _)
  all_goals exact absurd (by assumption) (by assumption)

theorem decodestrd1_setfi (s : TInflator) (w : Nat) :
    decodestrd1 (setfi s w) = ((decodestrd1 s).1, setfi (decodestrd1 s).2 w) := by
  unfold decodestrd1
  rw [tryreadbits_setfi, tryreadbits_eq]
  cases hq : trb1 s 16
  all_goals simp only [getbits_setfi, dropbits_setfi, setfi_aux0, setfi_upd_aux0_substate,
    setfi_upd_substate, setfi_upd_error, setfi_substate, decodestrd2_setfi,
    updatewindow_setfi, updatewindow_eq]
  all_goals repeat' (first | split | simp only [])
  all_goals try rfl
  all_goals try exact absurd rfl (by assumption)
  all_goals try exact congrArg (Prod.mk _) (wnd2_setfi _ _)
  all_goals exact absurd (by assumption) (by assumption)

theorem decodestrd0_setfi (s : TInflator) (w : Nat) :
    decodestrd0 (setfi s w) = ((decodestrd0 s).1, setfi (decodestrd0 s).2 w) := by
  have harg : ∀ (t : TInflator) (v : Nat),
      ({ (dropbits (setfi t v) ((setfi t v).bcount &&& 7)) with
          substate := (setfi t v).substate + 1 } : TInflator)
        = setfi { (dropbits t (t.bcount &&& 7)) with substate := t.substate + 1 } v :=
    fun _ _ => rfl
  unfold decodestrd0
  rw [tryreadbits_setfi, tryreadbits_eq]
  cases hq : trb1 s 8
  all_goals simp only []
  · simp only [updatewindow_setfi, updatewindow_eq]
    repeat' (first | split | simp only [])
    all_goals try rfl
    all_goals try exact absurd rfl (by assumption)
    all_goals try exact congrArg (Prod.mk _) (wnd2_setfi _ _)
    all_goals exact absurd (by assumption) (by assumption)
  · rw [harg, decodestrd1_setfi]

theorem decodestrd_setfi (s : TInflator) (w : Nat) :
    decodestrd (setfi s w) = (dst1 s, setfi (dst2 s) w) := by
  rw [show decodestrd (setfi s w) =
      (match (setfi s w).substate with
       | 1 => decodestrd1 (setfi s w)
       | 2 => decodestrd2 (setfi s w)
       | 3 => decodestrd3 (setfi s w)
       | _ => decodestrd0 (setfi s w)) from rfl,
    show (dst1 s, setfi (dst2 s) w) =
      ((decodestrd s).1, setfi (decodestrd s).2 w) from rfl,
    show decodestrd s =
      (match s.substate with
       | 1 => decodestrd1 s
       | 2 => decodestrd2 s
       | 3 => decodestrd3 s
       | _ => decodestrd0 s) from rfl,
    setfi_substate]
  split
  · exact decodestrd1_setfi s w
  · exact decodestrd2_setfi s w
  · exact decodestrd3_setfi s w
  · exact decodestrd0_setfi s w

/-- Tag a fetch-loop result with the latch value `w`. -/
def smap (w : Nat) :
    (eINFLTResult × TInflator) ⊕ (TINFLTTEntry × TInflator) →
    (eINFLTResult × TInflator) ⊕ (TINFLTTEntry × TInflator)
  | .inl (r, t) => .inl (r, setfi t w)
  | .inr (e, t) => .inr (e, setfi t w)

theorem setfi_pull (t : TInflator) (v : Nat) :
    ({ setfi t v with
        bbuffer := ((setfi t v).bbuffer |||
          ((setfi t v).src.getD (setfi t v).spos 0 <<< (setfi t v).bcount)) % 2 ^ BBWIDTH,
        bcount := (setfi t v).bcount + 8,
        spos := (setfi t v).spos + 1 } : TInflator)
      = setfi { t with
          bbuffer := (t.bbuffer ||| (t.src.getD t.spos 0 <<< t.bcount)) % 2 ^ BBWIDTH,
          bcount := t.bcount + 8,
          spos := t.spos + 1 } v := rfl

theorem rlFetchGo_setfi : ∀ (k : Nat) (s : TInflator) (w : Nat),
    rlFetchGo k (setfi s w) = smap w (rlFetchGo k s) := by
  intro k
  induction k with
  | zero =>
    intro s w
    rw [show rlFetchGo 0 (setfi s w) =
        (match updatewindow (setfi s w) with
         | (r, s2) => if r ≠ 0 then .inl (INFLT_ERROR, s2) else .inl (INFLT_SRCEXHSTD, s2)) from rfl,
      show rlFetchGo 0 s =
        (match updatewindow s with
         | (r, s2) => if r ≠ 0 then .inl (INFLT_ERROR, s2) else .inl (INFLT_SRCEXHSTD, s2)) from rfl,
      updatewindow_setfi, updatewindow_eq]
    simp only [smap]
    rw [if_neg (show ¬(0 : Nat) ≠ 0 by decide), if_neg (show ¬(0 : Nat) ≠ 0 by decide)]
  | succ k ih =>
    intro s w
    rw [show rlFetchGo (k + 1) (setfi s w) =
        (let e := s.ltable (getbits s CROOTBITS)
         if e.length ≤ s.bcount then .inr (e, setfi s w)
         else
           if s.spos < s.src.length then
             rlFetchGo k
               ({ setfi s w with
                  bbuffer := ((setfi s w).bbuffer |||
                    ((setfi s w).src.getD (setfi s w).spos 0 <<< (setfi s w).bcount)) % 2 ^ BBWIDTH,
                  bcount := (setfi s w).bcount + 8,
                  spos := (setfi s w).spos + 1 })
           else
             match updatewindow (setfi s w) with
             | (r, s2) => if r ≠ 0 then .inl (INFLT_ERROR, s2)
               else .inl (INFLT_SRCEXHSTD, s2)) from rfl,
      show rlFetchGo (k + 1) s =
        (let e := s.ltable (getbits s CROOTBITS)
         if e.length ≤ s.bcount then .inr (e, s)
         else
           if s.spos < s.src.length then
             rlFetchGo k
               { s with
                 bbuffer := (s.bbuffer ||| (s.src.getD s.spos 0 <<< s.bcount)) % 2 ^ BBWIDTH,
                 bcount := s.bcount + 8,
                 spos := s.spos + 1 }
           else
             match updatewindow s with
             | (r, s2) => if r ≠ 0 then .inl (INFLT_ERROR, s2)
               else .inl (INFLT_SRCEXHSTD, s2)) from rfl]
    simp only []
    by_cases h1 : (s.ltable (getbits s CROOTBITS)).length ≤ s.bcount
    · rw [if_pos h1, if_pos h1]
      rfl
    · rw [if_neg h1, if_neg h1]
      by_cases h2 : s.spos < s.src.length
      · rw [if_pos h2, if_pos h2, setfi_pull, ih]
      · rw [if_neg h2, if_neg h2, updatewindow_setfi, updatewindow_eq]
        simp only [smap]
        rw [if_neg (show ¬(0 : Nat) ≠ 0 by decide), if_neg (show ¬(0 : Nat) ≠ 0 by decide)]

theorem rlFetch_setfi (s : TInflator) (w : Nat) :
    rlFetch (setfi s w) = smap w (rlFetch s) :=
  rlFetchGo_setfi (s.src.length - s.spos + 1) s w

/-- Manual unfolding lemma for `readlengths` at nonzero fuel (the
auto-generated equations are too costly to realize). -/
theorem readlengths_succ2 (fuel : Nat) (s : TInflator) (n : Nat) :
    readlengths (fuel + 1) s n =
      (if s.aux3 < n then
        match rlFetch s with
        | .inl r => some r
        | .inr (e, s) =>
          if e.info < 16 then
            readlengths fuel
              (dropbits { s with lengths := s.lengths.set s.aux3 e.info,
                                 aux3 := s.aux3 + 1 } e.length) n
          else
            let replen := (rlsinfo.getD (e.info - 16) default).2
            let length := (rlsinfo.getD (e.info - 16) default).1
            match tryreadbits s (e.length + length) with
            | (false, s) =>
              let (r, s) := updatewindow s
              if r ≠ 0 then some (INFLT_ERROR, s) else some (INFLT_SRCEXHSTD, s)
            | (true, s) =>
              let s := dropbits s e.length
              let replen := replen + getbits s length
              let s := dropbits s length
              if length = 2 ∧ s.aux3 = 0 then
                some (INFLT_ERROR, { s with error := INFLT_EBADTREE })
              else
                let length := if length = 2 then s.lengths.getD (s.aux3 - 1) 0 else 0
                if s.aux3 + replen > DEFLT_DMAXSYMBOL + DEFLT_LMAXSYMBOL then
                  some (INFLT_ERROR, { s with error := INFLT_EBADTREE })
                else
                  readlengths fuel
                    { s with lengths := rlstore s.lengths s.aux3 length replen,
                             aux3 := s.aux3 + replen } n
      else some (INFLT_OK, s)) := rfl

theorem setfi_rlset (t : TInflator) (v i e : Nat) :
    dropbits ({ setfi t v with lengths := (setfi t v).lengths.set (setfi t v).aux3 i, aux3 := (setfi t v).aux3 + 1 } : TInflator) e
      = setfi (dropbits { t with lengths := t.lengths.set t.aux3 i, aux3 := t.aux3 + 1 } e) v := rfl

theorem setfi_rlstore (t : TInflator) (v L R : Nat) :
    ({ setfi t v with lengths := rlstore (setfi t v).lengths (setfi t v).aux3 L R, aux3 := (setfi t v).aux3 + R } : TInflator)
      = setfi { t with lengths := rlstore t.lengths t.aux3 L R, aux3 := t.aux3 + R } v := rfl

set_option maxHeartbeats 1000000 in
theorem readlengths_setfi : ∀ (fuel : Nat) (s : TInflator) (n w : Nat),
    readlengths fuel (setfi s w) n = omap w (readlengths fuel s n) := by
  intro fuel
  induction fuel with
  | zero =>
    intro s n w
    rw [show readlengths 0 (setfi s w) n =
        (if s.aux3 < n then none else some (INFLT_OK, setfi s w)) from rfl,
      show readlengths 0 s n =
        (if s.aux3 < n then none else some (INFLT_OK, s)) from rfl]
    by_cases h1 : s.aux3 < n
    · rw [if_pos h1, if_pos h1]
      rfl
    · rw [if_neg h1, if_neg h1]
      rfl
  | succ fuel ih =>
    intro s n w
    rw [readlengths_succ2, readlengths_succ2,
      show ((setfi s w).aux3 : Nat) = s.aux3 from rfl, rlFetch_setfi]
    by_cases h1 : s.aux3 < n
    · rw [if_pos h1, if_pos h1]
      rcases hf : rlFetch s with ⟨r0, t0⟩ | ⟨e0, t0⟩
      · rfl
      · try simp only [smap]
        by_cases h2 : e0.info < 16
        · rw [if_pos h2, if_pos h2, setfi_rlset, ih]
        · rw [if_neg h2, if_neg h2]
          try simp only []
          rw [tryreadbits_setfi, tryreadbits_eq]
          cases hq : trb1 t0 (e0.length + (rlsinfo.getD (e0.info - 16) default).1)
          · try simp only []
            rw [updatewindow_setfi, updatewindow_eq]
            try simp only []
            rw [if_neg (show ¬(0 : Nat) ≠ 0 by decide),
                if_neg (show ¬(0 : Nat) ≠ 0 by decide)]
            rfl
          · try simp only []
            rw [dropbits_setfi, dropbits_setfi, getbits_setfi,
              show ∀ (t : TInflator) (v : Nat), (setfi t v).aux3 = t.aux3 from fun _ _ => rfl]
            by_cases h3 : (rlsinfo.getD (e0.info - 16) default).1 = 2 ∧
                (dropbits (dropbits (trb2 t0 (e0.length + (rlsinfo.getD (e0.info - 16) default).1)) e0.length) (rlsinfo.getD (e0.info - 16) default).1).aux3 = 0
            · rw [if_pos h3, if_pos h3]
              rfl
            · rw [if_neg h3, if_neg h3]
              try simp only []
              try rw [show ∀ (t : TInflator) (v : Nat), (setfi t v).lengths = t.lengths from fun _ _ => rfl]
              by_cases h4 : (dropbits (dropbits (trb2 t0 (e0.length + (rlsinfo.getD (e0.info - 16) default).1)) e0.length) (rlsinfo.getD (e0.info - 16) default).1).aux3 + ((rlsinfo.getD (e0.info - 16) default).2 + getbits (dropbits (trb2 t0 (e0.length + (rlsinfo.getD (e0.info - 16) default).1)) e0.length) (rlsinfo.getD (e0.info - 16) default).1) > DEFLT_DMAXSYMBOL + DEFLT_LMAXSYMBOL
              · rw [if_pos h4, if_pos h4]
                rfl
              · rw [if_neg h4, if_neg h4, ← ih]
                rfl
    · rw [if_neg h1, if_neg h1]
      rfl

theorem dnmclensGo_setfi : ∀ (k : Nat) (s : TInflator) (w : Nat),
    dnmclensGo k (setfi s w) = ((dnmclensGo k s).1, setfi (dnmclensGo k s).2 w) := by
  intro k
  induction k with
  | zero => intro s w; rfl
  | succ k ih =>
    intro s w
    rw [show dnmclensGo (k + 1) (setfi s w) =
        (if s.aux2 > s.aux3 then
          match tryreadbits (setfi s w) 3 with
          | (true, s') =>
            let s2 : TInflator := { s' with
              lengths := s'.lengths.set (lcorder.getD s'.aux3 0) (getbits s' 3) }
            dnmclensGo k { (dropbits s2 3) with aux3 := s2.aux3 + 1 }
          | (false, s') => (false, s')
        else (true, setfi s w)) from rfl,
      show dnmclensGo (k + 1) s =
        (if s.aux2 > s.aux3 then
          match tryreadbits s 3 with
          | (true, s') =>
            let s2 : TInflator := { s' with
              lengths := s'.lengths.set (lcorder.getD s'.aux3 0) (getbits s' 3) }
            dnmclensGo k { (dropbits s2 3) with aux3 := s2.aux3 + 1 }
          | (false, s') => (false, s')
        else (true, s)) from rfl]
    by_cases h1 : s.aux2 > s.aux3
    · rw [if_pos h1, if_pos h1, tryreadbits_setfi, tryreadbits_eq]
      cases hq : trb1 s 3
      · rfl
      · simp only []
        rw [← ih]
        rfl
    · rw [if_neg h1, if_neg h1]

theorem dnmclens_setfi (s : TInflator) (w : Nat) :
    dnmclens (setfi s w) = (dnl1 s, setfi (dnl2 s) w) :=
  dnmclensGo_setfi (s.aux2 - s.aux3) s w

theorem decodednmc2_setfi (fuel : Nat) (s : TInflator) (w : Nat) :
    decodednmc2 fuel (setfi s w) = omap w (decodednmc2 fuel s) := by
  unfold decodednmc2
  rw [show ((setfi s w).aux0 + (setfi s w).aux1 : Nat) = s.aux0 + s.aux1 from rfl,
    readlengths_setfi]
  rcases hr : readlengths fuel s (s.aux0 + s.aux1) with _ | ⟨r1, t1⟩
  · rfl
  · simp only [omap, Option.map]
    by_cases h1 : r1 ≠ INFLT_OK
    · rw [if_pos h1, if_pos h1]
    · rw [if_neg h1, if_neg h1,
        show ((setfi t1 w).lengths : List Nat) = t1.lengths from rfl,
        show ((setfi t1 w).aux0 : Nat) = t1.aux0 from rfl,
        show ((setfi t1 w).aux1 : Nat) = t1.aux1 from rfl,
        show ((setfi t1 w).ltable : TTable) = t1.ltable from rfl,
        show ((setfi t1 w).dtable : TTable) = t1.dtable from rfl]
      by_cases h2 : t1.lengths.getD 256 0 = 0
      · rw [if_pos h2, if_pos h2]
        rfl
      · rw [if_neg h2, if_neg h2]
        rcases hb : buildtable (t1.lengths.take t1.aux0) t1.ltable LTABLEMODE with _ | tb
        · rfl
        · simp only []
          rcases hb2 : buildtable ((t1.lengths.drop t1.aux0).take t1.aux1) t1.dtable
              DTABLEMODE with _ | tb2
          · rfl
          · rfl

theorem decodednmc1_setfi (fuel : Nat) (s : TInflator) (w : Nat) :
    decodednmc1 fuel (setfi s w) = omap w (decodednmc1 fuel s) := by
  unfold decodednmc1
  rw [dnmclens_setfi, dnmclens_eq]
  cases hq : dnl1 s
  · simp only []
    rw [updatewindow_setfi, updatewindow_eq]
    simp only []
    rw [if_neg (show ¬(0 : Nat) ≠ 0 by decide), if_neg (show ¬(0 : Nat) ≠ 0 by decide)]
    rfl
  · simp only []
    rw [show ((setfi (dnl2 s) w).lengths : List Nat) = (dnl2 s).lengths from rfl,
      show ((setfi (dnl2 s) w).aux3 : Nat) = (dnl2 s).aux3 from rfl,
      show ((setfi (dnl2 s) w).ltable : TTable) = (dnl2 s).ltable from rfl]
    rcases hb : buildtable (List.take DEFLT_CMAXSYMBOL
        (dnmczero (dnl2 s).lengths (dnl2 s).aux3 (DEFLT_CMAXSYMBOL - (dnl2 s).aux3)))
        (dnl2 s).ltable CTABLEMODE with _ | tb
    · rfl
    · simp only []
      rw [← decodednmc2_setfi]
      rfl

theorem decodednmc0_setfi (fuel : Nat) (s : TInflator) (w : Nat) :
    decodednmc0 fuel (setfi s w) = omap w (decodednmc0 fuel s) := by
  unfold decodednmc0
  rw [show ({ setfi s w with ltable := (setfi s w).tblL, dtable := (setfi s w).tblD } : TInflator)
      = setfi { s with ltable := s.tblL, dtable := s.tblD } w from rfl]
  set t0 : TInflator := { s with ltable := s.tblL, dtable := s.tblD } with ht0
  simp only []
  rw [tryreadbits_setfi, tryreadbits_eq]
  cases hq : trb1 t0 14
  · simp only []
    rw [updatewindow_setfi, updatewindow_eq]
    simp only []
    rw [if_neg (show ¬(0 : Nat) ≠ 0 by decide), if_neg (show ¬(0 : Nat) ≠ 0 by decide)]
    rfl
  · simp only []
    rw [getbits_setfi, dropbits_setfi, getbits_setfi, dropbits_setfi, getbits_setfi,
      dropbits_setfi]
    by_cases h1 : getbits (trb2 t0 14) 5 + 257 > 286 ∨ getbits (dropbits (trb2 t0 14) 5) 5 + 1 > 30
    · rw [if_pos h1, if_pos h1]
      rfl
    · rw [if_neg h1, if_neg h1]
      rw [← decodednmc1_setfi]
      rfl

theorem decodednmc_setfi (fuel : Nat) (s : TInflator) (w : Nat) :
    decodednmc fuel (setfi s w) = omap w (decodednmc fuel s) := by
  rw [show decodednmc fuel (setfi s w) =
      (match (setfi s w).substate with
       | 1 => decodednmc1 fuel (setfi s w)
       | 2 => decodednmc2 fuel (setfi s w)
       | _ => decodednmc0 fuel (setfi s w)) from rfl,
    show decodednmc fuel s =
      (match s.substate with
       | 1 => decodednmc1 fuel s
       | 2 => decodednmc2 fuel s
       | _ => decodednmc0 fuel s) from rfl,
    show ((setfi s w).substate : Nat) = s.substate from rfl]
  split
  · exact decodednmc1_setfi fuel s w
  · exact decodednmc2_setfi fuel s w
  · exact decodednmc0_setfi fuel s w

theorem setfi_setfi (t : TInflator) (a b : Nat) : setfi (setfi t a) b = setfi t b := rfl

theorem copybytes_setfi (fuel : Nat) : ∀ (s : TInflator) (d l w : Nat),
    copybytes fuel (setfi s w) d l = omap w (copybytes fuel s d l) := by
  induction fuel with
  | zero => intro s d l w; rfl
  | succ fuel ih =>
    intro s d l w
    have hL : copybytes (fuel + 1) (setfi s w) d l =
        (let avaible := s.tcap - s.out.length
         if avaible = 0 then
           match updatewindow (setfi s w) with
           | (r, t) =>
             if r ≠ 0 then some (INFLT_ERROR, t)
             else some (INFLT_TGTEXHSTD, { t with aux0 := l, aux2 := d, substate := 4 })
         else
           let maxrun := s.out.length
           if d > maxrun then
             let maxrun := d - maxrun
             if maxrun > s.count then
               some (INFLT_ERROR, setfi { s with error := INFLT_EFAROFFSET } w)
             else
               let p := if maxrun > s.wend then (WNDWSIZE - (maxrun - s.wend), maxrun - s.wend) else (s.wend - maxrun, maxrun)
               let maxrun := if p.2 > l then l else p.2
               let maxrun := if maxrun > avaible then avaible else maxrun
               let t := setfi { s with out := s.out ++ windowrun s.window p.1 maxrun } w
               let l2 := l - maxrun
               if l2 ≠ 0 then copybytes fuel t d l2
               else some (INFLT_OK, t)
           else
             let maxrun := l
             let maxrun := if maxrun > avaible then avaible else maxrun
             let t := setfi { s with out := matchext s.out d maxrun } w
             let l2 := l - maxrun
             if l2 ≠ 0 then copybytes fuel t d l2
             else some (INFLT_OK, t)) := rfl
    have hR : copybytes (fuel + 1) s d l =
        (let avaible := s.tcap - s.out.length
         if avaible = 0 then
           match updatewindow s with
           | (r, t) =>
             if r ≠ 0 then some (INFLT_ERROR, t)
             else some (INFLT_TGTEXHSTD, { t with aux0 := l, aux2 := d, substate := 4 })
         else
           let maxrun := s.out.length
           if d > maxrun then
             let maxrun := d - maxrun
             if maxrun > s.count then
               some (INFLT_ERROR, { s with error := INFLT_EFAROFFSET })
             else
               let p := if maxrun > s.wend then (WNDWSIZE - (maxrun - s.wend), maxrun - s.wend) else (s.wend - maxrun, maxrun)
               let maxrun := if p.2 > l then l else p.2
               let maxrun := if maxrun > avaible then avaible else maxrun
               let t := { s with out := s.out ++ windowrun s.window p.1 maxrun }
               let l2 := l - maxrun
               if l2 ≠ 0 then copybytes fuel t d l2
               else some (INFLT_OK, t)
           else
             let maxrun := l
             let maxrun := if maxrun > avaible then avaible else maxrun
             let t := { s with out := matchext s.out d maxrun }
             let l2 := l - maxrun
             if l2 ≠ 0 then copybytes fuel t d l2
             else some (INFLT_OK, t)) := rfl
    rw [hL, hR]
    simp only [updatewindow_setfi, updatewindow_eq, wnd2_setfi]
    repeat' (first | split | simp only [])
    all_goals try rfl
    all_goals try exact absurd rfl (by assumption)
    all_goals try exact ih _ _ _ _
    all_goals exact absurd (by assumption) (by assumption)

/-- Tag a phase result with the latch value `w`. -/
def pmap (w : Nat) :
    Option (eINFLTResult × TInflator) ⊕ (Nat × Nat × Nat × TInflator) →
    Option (eINFLTResult × TInflator) ⊕ (Nat × Nat × Nat × TInflator)
  | .inl r => .inl (omap w r)
  | .inr (a, b, c, t) => .inr (a, b, c, setfi t w)

theorem dbFetchGo_setfi (tbl : TTable) (base bits shift : Nat) :
    ∀ (k : Nat) (s : TInflator) (w : Nat),
    dbFetchGo tbl base bits shift k (setfi s w) =
      ((dbFetchGo tbl base bits shift k s).1,
       (dbFetchGo tbl base bits shift k s).2.1,
       setfi (dbFetchGo tbl base bits shift k s).2.2 w) := by
  intro k
  induction k with
  | zero => intro s w; rfl
  | succ k ih =>
    intro s w
    have hL : dbFetchGo tbl base bits shift (k + 1) (setfi s w) =
        (let e := tbl (base + (getbits s bits >>> shift))
         if e.length ≤ s.bcount then (true, e, setfi s w)
         else
           if s.spos < s.src.length then
             dbFetchGo tbl base bits shift k
               (setfi { s with bbuffer := (s.bbuffer ||| (s.src.getD s.spos 0 <<< s.bcount)) % 2 ^ BBWIDTH, bcount := s.bcount + 8, spos := s.spos + 1 } w)
           else (false, e, setfi s w)) := rfl
    have hR : dbFetchGo tbl base bits shift (k + 1) s =
        (let e := tbl (base + (getbits s bits >>> shift))
         if e.length ≤ s.bcount then (true, e, s)
         else
           if s.spos < s.src.length then
             dbFetchGo tbl base bits shift k
               { s with bbuffer := (s.bbuffer ||| (s.src.getD s.spos 0 <<< s.bcount)) % 2 ^ BBWIDTH, bcount := s.bcount + 8, spos := s.spos + 1 }
           else (false, e, s)) := rfl
    rw [hL, hR]
    simp only []
    by_cases h1 : (tbl (base + (getbits s bits >>> shift))).length ≤ s.bcount
    · rw [if_pos h1, if_pos h1]
    · rw [if_neg h1, if_neg h1]
      by_cases h2 : s.spos < s.src.length
      · rw [if_pos h2, if_pos h2, ih]
      · rw [if_neg h2, if_neg h2]

theorem dbFetch_setfi (tbl : TTable) (base bits shift : Nat) (s : TInflator) (w : Nat) :
    dbFetch tbl base bits shift (setfi s w) =
      (dbf1 tbl base bits shift s, dbf2 tbl base bits shift s,
       setfi (dbf3 tbl base bits shift s) w) := by
  rw [show dbFetch tbl base bits shift (setfi s w)
      = dbFetchGo tbl base bits shift (s.src.length - s.spos + 1) (setfi s w) from rfl,
    dbFetchGo_setfi]
  rfl

theorem dbPhase4_setfi (length bextra distance : Nat) (s : TInflator) (w : Nat) :
    dbPhase4 length bextra distance (setfi s w) =
      pmap w (dbPhase4 length bextra distance s) := by
  unfold dbPhase4
  rw [copybytes_setfi]
  rcases hc : copybytes (length + 1) s distance length with _ | ⟨r, t⟩
  · rfl
  · simp only [omap, Option.map]
    by_cases h1 : r ≠ INFLT_OK
    · rw [if_pos h1, if_pos h1]
      rfl
    · rw [if_neg h1, if_neg h1]
      rfl

theorem dbPhase3_setfi (length bextra distance : Nat) (s : TInflator) (w : Nat) :
    dbPhase3 length bextra distance (setfi s w) =
      pmap w (dbPhase3 length bextra distance s) := by
  unfold dbPhase3
  rw [tryreadbits_setfi, tryreadbits_eq]
  cases hq : trb1 s bextra
  · simp only []
    rw [updatewindow_setfi, updatewindow_eq]
    simp only []
    rw [if_neg (show ¬(0 : Nat) ≠ 0 by decide), if_neg (show ¬(0 : Nat) ≠ 0 by decide)]
    rfl
  · simp only []
    rw [getbits_setfi, dropbits_setfi, dbPhase4_setfi]

theorem dbPhase2cont_setfi (length : Nat) (e : TINFLTTEntry) (s : TInflator) (w : Nat) :
    dbPhase2cont length e (setfi s w) = pmap w (dbPhase2cont length e s) := by
  unfold dbPhase2cont
  by_cases h1 : e.etag = INVALIDCODE
  · rw [if_pos h1, if_pos h1]
    rfl
  · rw [if_neg h1, if_neg h1]
    simp only []
    rw [dropbits_setfi, dbPhase3_setfi]

theorem dbPhase2_setfi (length bextra distance : Nat) (s : TInflator) (w : Nat) :
    dbPhase2 length bextra distance (setfi s w) =
      pmap w (dbPhase2 length bextra distance s) := by
  unfold dbPhase2
  rw [setfi_dtable, dbFetch_setfi, dbFetch_eq]
  cases h1 : dbf1 s.dtable 0 DROOTBITS 0 s
  · simp only []
    rw [updatewindow_setfi, updatewindow_eq]
    simp only []
    rw [if_neg (show ¬(0 : Nat) ≠ 0 by decide), if_neg (show ¬(0 : Nat) ≠ 0 by decide)]
    rfl
  · simp only []
    by_cases h2 : (dbf2 s.dtable 0 DROOTBITS 0 s).etag = SUBTABLEENTRY
    · rw [if_pos h2, if_pos h2, setfi_dtable, dbFetch_setfi, dbFetch_eq]
      cases h3 : dbf1 (dbf3 s.dtable 0 DROOTBITS 0 s).dtable
          (dbf2 s.dtable 0 DROOTBITS 0 s).info
          (dbf2 s.dtable 0 DROOTBITS 0 s).length DROOTBITS
          (dbf3 s.dtable 0 DROOTBITS 0 s)
      · simp only []
        rw [updatewindow_setfi, updatewindow_eq]
        simp only []
        rw [if_neg (show ¬(0 : Nat) ≠ 0 by decide), if_neg (show ¬(0 : Nat) ≠ 0 by decide)]
        rfl
      · simp only []
        rw [dbPhase2cont_setfi]
    · rw [if_neg h2, if_neg h2, dbPhase2cont_setfi]

theorem dbPhase1_setfi (length bextra distance : Nat) (s : TInflator) (w : Nat) :
    dbPhase1 length bextra distance (setfi s w) =
      pmap w (dbPhase1 length bextra distance s) := by
  unfold dbPhase1
  rw [tryreadbits_setfi, tryreadbits_eq]
  cases hq : trb1 s bextra
  · simp only []
    rw [updatewindow_setfi, updatewindow_eq]
    simp only []
    rw [if_neg (show ¬(0 : Nat) ≠ 0 by decide), if_neg (show ¬(0 : Nat) ≠ 0 by decide)]
    rfl
  · simp only []
    rw [getbits_setfi, dropbits_setfi, dbPhase2_setfi]

theorem dbPhase0cont_setfi (length bextra distance : Nat) (e : TINFLTTEntry)
    (s : TInflator) (w : Nat) :
    dbPhase0cont length bextra distance e (setfi s w) =
      pmap w (dbPhase0cont length bextra distance e s) := by
  unfold dbPhase0cont
  by_cases h1 : e.etag = LITERALSYMBOL
  · rw [if_pos h1, if_pos h1, setfi_tcap, setfi_out]
    by_cases h2 : s.tcap > s.out.length
    · rw [if_pos h2, if_pos h2]
      rfl
    · rw [if_neg h2, if_neg h2]
      simp only []
      rw [updatewindow_setfi, updatewindow_eq]
      simp only []
      rw [if_neg (show ¬(0 : Nat) ≠ 0 by decide), if_neg (show ¬(0 : Nat) ≠ 0 by decide)]
      rfl
  · rw [if_neg h1, if_neg h1]
    by_cases h2 : e.etag = ENDOFBLOCK
    · rw [if_pos h2, if_pos h2]
      rfl
    · rw [if_neg h2, if_neg h2]
      by_cases h3 : e.etag = INVALIDCODE
      · rw [if_pos h3, if_pos h3]
        rfl
      · rw [if_neg h3, if_neg h3]
        simp only []
        rw [dropbits_setfi, dbPhase1_setfi]

theorem dbPhase0_setfi (length bextra distance : Nat) (s : TInflator) (w : Nat) :
    dbPhase0 length bextra distance (setfi s w) =
      pmap w (dbPhase0 length bextra distance s) := by
  unfold dbPhase0
  rw [setfi_ltable, dbFetch_setfi, dbFetch_eq]
  cases h1 : dbf1 s.ltable 0 LROOTBITS 0 s
  · simp only []
    rw [updatewindow_setfi, updatewindow_eq]
    simp only []
    rw [if_neg (show ¬(0 : Nat) ≠ 0 by decide), if_neg (show ¬(0 : Nat) ≠ 0 by decide)]
    rfl
  · simp only []
    by_cases h2 : (dbf2 s.ltable 0 LROOTBITS 0 s).etag = SUBTABLEENTRY
    · rw [if_pos h2, if_pos h2, setfi_ltable, dbFetch_setfi, dbFetch_eq]
      cases h3 : dbf1 (dbf3 s.ltable 0 LROOTBITS 0 s).ltable
          (dbf2 s.ltable 0 LROOTBITS 0 s).info
          (dbf2 s.ltable 0 LROOTBITS 0 s).length LROOTBITS
          (dbf3 s.ltable 0 LROOTBITS 0 s)
      · simp only []
        rw [updatewindow_setfi, updatewindow_eq]
        simp only []
        rw [if_neg (show ¬(0 : Nat) ≠ 0 by decide), if_neg (show ¬(0 : Nat) ≠ 0 by decide)]
        rfl
      · simp only []
        rw [dbPhase0cont_setfi]
    · rw [if_neg h2, if_neg h2, dbPhase0cont_setfi]

theorem decodeblckSlowGo_setfi (fuel : Nat) :
    ∀ (length bextra distance : Nat) (s : TInflator) (w : Nat),
    decodeblckSlowGo fuel length bextra distance (setfi s w) =
      omap w (decodeblckSlowGo fuel length bextra distance s) := by
  induction fuel with
  | zero => intro a b c s w; rfl
  | succ fuel ih =>
    intro a b c s w
    have hL : decodeblckSlowGo (fuel + 1) a b c (setfi s w) =
        (match dbPhase0 a b c (setfi s w) with
         | .inl r => r
         | .inr (a, b, c, t) => decodeblckSlowGo fuel a b c t) := rfl
    have hR : decodeblckSlowGo (fuel + 1) a b c s =
        (match dbPhase0 a b c s with
         | .inl r => r
         | .inr (a, b, c, t) => decodeblckSlowGo fuel a b c t) := rfl
    rw [hL, hR, dbPhase0_setfi]
    rcases hp : dbPhase0 a b c s with r | ⟨a2, b2, c2, t⟩
    · rfl
    · show decodeblckSlowGo fuel a2 b2 c2 (setfi t w)
          = omap w (decodeblckSlowGo fuel a2 b2 c2 t)
      exact ih _ _ _ _ _

theorem fastwndw_setfi (fuel : Nat) : ∀ (s : TInflator) (out : List Nat) (d l w : Nat),
    fastwndw fuel (setfi s w) out d l = fastwndw fuel s out d l := by
  induction fuel with
  | zero => intro s out d l w; rfl
  | succ fuel ih =>
    intro s out d l w
    have hL : fastwndw (fuel + 1) (setfi s w) out d l =
        (let maxrun := out.length
         if d > maxrun then
           let maxrun := d - maxrun
           if maxrun > s.count then some (.inl INFLT_EFAROFFSET)
           else
             let p := if maxrun > s.wend then (WNDWSIZE - (maxrun - s.wend), maxrun - s.wend) else (s.wend - maxrun, maxrun)
             let maxrun := if p.2 > l then l else p.2
             let out2 := out ++ windowrun s.window p.1 maxrun
             let l2 := l - maxrun
             if l2 ≠ 0 then fastwndw fuel (setfi s w) out2 d l2 else some (.inr out2)
         else
           let maxrun := l
           let out2 := matchext out d maxrun
           let l2 := l - maxrun
           if l2 ≠ 0 then fastwndw fuel (setfi s w) out2 d l2 else some (.inr out2)) := rfl
    have hR : fastwndw (fuel + 1) s out d l =
        (let maxrun := out.length
         if d > maxrun then
           let maxrun := d - maxrun
           if maxrun > s.count then some (.inl INFLT_EFAROFFSET)
           else
             let p := if maxrun > s.wend then (WNDWSIZE - (maxrun - s.wend), maxrun - s.wend) else (s.wend - maxrun, maxrun)
             let maxrun := if p.2 > l then l else p.2
             let out2 := out ++ windowrun s.window p.1 maxrun
             let l2 := l - maxrun
             if l2 ≠ 0 then fastwndw fuel s out2 d l2 else some (.inr out2)
         else
           let maxrun := l
           let out2 := matchext out d maxrun
           let l2 := l - maxrun
           if l2 ≠ 0 then fastwndw fuel s out2 d l2 else some (.inr out2)) := rfl
    rw [hL, hR]
    repeat' (first | split | simp only [])
    all_goals try rfl
    all_goals try exact ih _ _ _ _ _
    all_goals exact absurd (by assumption) (by assumption)

theorem dfEntryL_setfi (s : TInflator) (bb w : Nat) :
    dfEntryL (setfi s w) bb = dfEntryL s bb := rfl

theorem dfEntryD_setfi (s : TInflator) (bb w : Nat) :
    dfEntryD (setfi s w) bb = dfEntryD s bb := rfl

theorem dfDone_setfi (s : TInflator) (bb bc spos : Nat) (out : List Nat) (w : Nat) :
    dfDone (setfi s w) bb bc spos out = setfi (dfDone s bb bc spos out) w := rfl

/-- Tag a fast-cycle result with the latch value `w` (only the state on the
loop-exit arm carries it). -/
def cmap (w : Nat) :
    Option ((FastRes × TInflator) ⊕ (Nat × Nat × Nat × List Nat)) →
    Option ((FastRes × TInflator) ⊕ (Nat × Nat × Nat × List Nat))
  | none => none
  | some (.inl (r, t)) => some (.inl (r, setfi t w))
  | some (.inr q) => some (.inr q)

theorem dfCycle_setfi (s : TInflator) (bb bc spos : Nat) (out : List Nat) (w : Nat) :
    dfCycle (setfi s w) bb bc spos out = cmap w (dfCycle s bb bc spos out) := by
  have hL : dfCycle (setfi s w) bb bc spos out =
      (let q := dfFill15 s.src bb bc spos
       let e := dfEntryL s q.1
       let bb1 := q.1 >>> e.length
       let bc1 := q.2.1 - e.length
       if e.etag = LITERALSYMBOL then
         some (.inr (bb1, bc1, q.2.2, out ++ [e.info % 256]))
       else if e.etag = ENDOFBLOCK then
         some (.inl (.feob, setfi (dfDone s bb1 bc1 q.2.2 out) w))
       else if e.etag = INVALIDCODE then
         some (.inl (.ferr, setfi { s with error := INFLT_EBADCODE } w))
       else
         let q2 := dfFillBits s.src e.etag bb1 bc1 q.2.2
         let length := e.info + (q2.1 &&& ((1 <<< e.etag) - 1))
         let bb2 := q2.1 >>> e.etag
         let bc2 := q2.2.1 - e.etag
         let q3 := dfFill15 s.src bb2 bc2 q2.2.2
         let e2 := dfEntryD s q3.1
         let bb3 := q3.1 >>> e2.length
         let bc3 := q3.2.1 - e2.length
         if e2.etag = INVALIDCODE then
           some (.inl (.ferr, setfi { s with error := INFLT_EBADCODE } w))
         else
           let q4 := dfFillBits s.src e2.etag bb3 bc3 q3.2.2
           let distance := e2.info + (q4.1 &&& ((1 <<< e2.etag) - 1))
           let bb4 := q4.1 >>> e2.etag
           let bc4 := q4.2.1 - e2.etag
           if distance < out.length then
             let out2 :=
               if distance ≥ 8 then
                 (chunkCopyGo out distance (max 2 ((length + 7) / 8))).take (out.length + length)
               else matchext out distance (max length 3)
             some (.inr (bb4, bc4, q4.2.2, out2))
           else
             match fastwndw (length + 1) (setfi s w) out distance length with
             | none => none
             | some (.inl err) => some (.inl (.ferr, setfi { s with error := err } w))
             | some (.inr out2) => some (.inr (bb4, bc4, q4.2.2, out2))) := rfl
  have hR : dfCycle s bb bc spos out =
      (let q := dfFill15 s.src bb bc spos
       let e := dfEntryL s q.1
       let bb1 := q.1 >>> e.length
       let bc1 := q.2.1 - e.length
       if e.etag = LITERALSYMBOL then
         some (.inr (bb1, bc1, q.2.2, out ++ [e.info % 256]))
       else if e.etag = ENDOFBLOCK then
         some (.inl (.feob, dfDone s bb1 bc1 q.2.2 out))
       else if e.etag = INVALIDCODE then
         some (.inl (.ferr, { s with error := INFLT_EBADCODE }))
       else
         let q2 := dfFillBits s.src e.etag bb1 bc1 q.2.2
         let length := e.info + (q2.1 &&& ((1 <<< e.etag) - 1))
         let bb2 := q2.1 >>> e.etag
         let bc2 := q2.2.1 - e.etag
         let q3 := dfFill15 s.src bb2 bc2 q2.2.2
         let e2 := dfEntryD s q3.1
         let bb3 := q3.1 >>> e2.length
         let bc3 := q3.2.1 - e2.length
         if e2.etag = INVALIDCODE then
           some (.inl (.ferr, { s with error := INFLT_EBADCODE }))
         else
           let q4 := dfFillBits s.src e2.etag bb3 bc3 q3.2.2
           let distance := e2.info + (q4.1 &&& ((1 <<< e2.etag) - 1))
           let bb4 := q4.1 >>> e2.etag
           let bc4 := q4.2.1 - e2.etag
           if distance < out.length then
             let out2 :=
               if distance ≥ 8 then
                 (chunkCopyGo out distance (max 2 ((length + 7) / 8))).take (out.length + length)
               else matchext out distance (max length 3)
             some (.inr (bb4, bc4, q4.2.2, out2))
           else
             match fastwndw (length + 1) s out distance length with
             | none => none
             | some (.inl err) => some (.inl (.ferr, { s with error := err }))
             | some (.inr out2) => some (.inr (bb4, bc4, q4.2.2, out2))) := rfl
  rw [hL, hR]
  simp only []
  rw [fastwndw_setfi]
  repeat' (first | split | simp only [])
  all_goals try rfl
  all_goals exact absurd (by assumption) (by assumption)

/-- Tag a fast-loop result with the latch value `w`. -/
def fmap (w : Nat) :
    Option (FastRes × TInflator × Nat) → Option (FastRes × TInflator × Nat) :=
  Option.map (fun p => (p.1, setfi p.2.1 w, p.2.2))

theorem decodefastGo_setfi (fuel : Nat) :
    ∀ (s : TInflator) (bb bc spos : Nat) (out : List Nat) (w : Nat),
    decodefastGo (setfi s w) fuel bb bc spos out =
      fmap w (decodefastGo s fuel bb bc spos out) := by
  induction fuel with
  | zero =>
    intro s bb bc spos out w
    have hL : decodefastGo (setfi s w) 0 bb bc spos out =
        (if s.tcap - out.length < FASTTGTLEFT ∨ s.src.length - spos < FASTSRCLEFT then
           some (.fok, setfi (dfDone s bb bc spos out) w, 0)
         else none) := rfl
    have hR : decodefastGo s 0 bb bc spos out =
        (if s.tcap - out.length < FASTTGTLEFT ∨ s.src.length - spos < FASTSRCLEFT then
           some (.fok, dfDone s bb bc spos out, 0)
         else none) := rfl
    rw [hL, hR]
    by_cases h1 : s.tcap - out.length < FASTTGTLEFT ∨ s.src.length - spos < FASTSRCLEFT
    · rw [if_pos h1, if_pos h1]
      rfl
    · rw [if_neg h1, if_neg h1]
      rfl
  | succ fuel ih =>
    intro s bb bc spos out w
    have hL : decodefastGo (setfi s w) (fuel + 1) bb bc spos out =
        (if s.tcap - out.length < FASTTGTLEFT ∨ s.src.length - spos < FASTSRCLEFT then
           some (.fok, setfi (dfDone s bb bc spos out) w, fuel + 1)
         else
           match dfCycle (setfi s w) bb bc spos out with
           | none => none
           | some (.inl (r, s1)) => some (r, s1, fuel)
           | some (.inr (bb, bc, spos, out)) =>
             decodefastGo (setfi s w) fuel bb bc spos out) := rfl
    have hR : decodefastGo s (fuel + 1) bb bc spos out =
        (if s.tcap - out.length < FASTTGTLEFT ∨ s.src.length - spos < FASTSRCLEFT then
           some (.fok, dfDone s bb bc spos out, fuel + 1)
         else
           match dfCycle s bb bc spos out with
           | none => none
           | some (.inl (r, s1)) => some (r, s1, fuel)
           | some (.inr (bb, bc, spos, out)) =>
             decodefastGo s fuel bb bc spos out) := rfl
    rw [hL, hR, dfCycle_setfi]
    by_cases h1 : s.tcap - out.length < FASTTGTLEFT ∨ s.src.length - spos < FASTSRCLEFT
    · rw [if_pos h1, if_pos h1]
      rfl
    · rw [if_neg h1, if_neg h1]
      rcases hc : dfCycle s bb bc spos out with _ | (⟨r, s1⟩ | ⟨bb2, bc2, spos2, out2⟩)
      · rfl
      · rfl
      · show decodefastGo (setfi s w) fuel bb2 bc2 spos2 out2
            = fmap w (decodefastGo s fuel bb2 bc2 spos2 out2)
        exact ih _ _ _ _ _ _

theorem decodefast_setfi (fuel : Nat) (s : TInflator) (w : Nat) :
    decodefast fuel (setfi s w) = fmap w (decodefast fuel s) := by
  rw [show decodefast fuel (setfi s w)
      = decodefastGo (setfi s w) fuel s.bbuffer s.bcount s.spos s.out from rfl,
    decodefastGo_setfi]
  rfl

theorem decodeblckGo_setfi (fuel length bextra distance : Nat) (s : TInflator) (w : Nat) :
    decodeblckGo fuel length bextra distance (setfi s w) =
      omap w (decodeblckGo fuel length bextra distance s) := by
  unfold decodeblckGo
  rw [setfi_tcap, setfi_out, setfi_src, setfi_spos, decodefast_setfi]
  by_cases h1 : s.tcap - s.out.length ≥ FASTTGTLEFT ∧ s.src.length - s.spos ≥ FASTSRCLEFT
  · rw [if_pos h1, if_pos h1]
    rcases hf : decodefast fuel s with _ | ⟨r, s1, rem⟩
    · rfl
    · cases r
      · show decodeblckSlowGo rem length bextra distance (setfi s1 w)
            = omap w (decodeblckSlowGo rem length bextra distance s1)
        exact decodeblckSlowGo_setfi _ _ _ _ _ _
      · rfl
      · rfl
  · rw [if_neg h1, if_neg h1]
    exact decodeblckSlowGo_setfi _ _ _ _ _ _

theorem dbResume_setfi (fuel : Nat)
    (x : Option (eINFLTResult × TInflator) ⊕ (Nat × Nat × Nat × TInflator)) (w : Nat) :
    dbResume fuel (pmap w x) = omap w (dbResume fuel x) := by
  rcases x with r | ⟨a, b, c, t⟩
  · rfl
  · show decodeblckGo fuel a b c (setfi t w) = omap w (decodeblckGo fuel a b c t)
    exact decodeblckGo_setfi _ _ _ _ _ _

theorem decodeblck_setfi (fuel : Nat) (s : TInflator) (w : Nat) :
    decodeblck fuel (setfi s w) = omap w (decodeblck fuel s) := by
  rw [show decodeblck fuel (setfi s w) =
      (match (setfi s w).substate with
       | 1 => dbResume fuel (dbPhase1 s.aux0 s.aux1 s.aux2 (setfi s w))
       | 2 => dbResume fuel (dbPhase2 s.aux0 s.aux1 s.aux2 (setfi s w))
       | 3 => dbResume fuel (dbPhase3 s.aux0 s.aux1 s.aux2 (setfi s w))
       | 4 => dbResume fuel (dbPhase4 s.aux0 s.aux1 s.aux2 (setfi s w))
       | _ => decodeblckGo fuel s.aux0 s.aux1 s.aux2 (setfi s w)) from rfl,
    show decodeblck fuel s =
      (match s.substate with
       | 1 => dbResume fuel (dbPhase1 s.aux0 s.aux1 s.aux2 s)
       | 2 => dbResume fuel (dbPhase2 s.aux0 s.aux1 s.aux2 s)
       | 3 => dbResume fuel (dbPhase3 s.aux0 s.aux1 s.aux2 s)
       | 4 => dbResume fuel (dbPhase4 s.aux0 s.aux1 s.aux2 s)
       | _ => decodeblckGo fuel s.aux0 s.aux1 s.aux2 s) from rfl,
    show ((setfi s w).substate : Nat) = s.substate from rfl]
  split
  · rw [dbPhase1_setfi, dbResume_setfi]
  · rw [dbPhase2_setfi, dbResume_setfi]
  · rw [dbPhase3_setfi, dbResume_setfi]
  · rw [dbPhase4_setfi, dbResume_setfi]
  · exact decodeblckGo_setfi _ _ _ _ _ _

theorem setfi_fi (t : TInflator) (w : Nat) : (setfi t w).finalinput = w := rfl

/-- Relates the results of the same driver run with the latch clear versus
set: fuel exhaustion is shared; a SOURCE_EXHAUSTED result of the clear run
becomes ERROR with the INPUT_END error code, and any other result is
identical (with the latch carried in the state). -/
def TwinRel (v : Nat) :
    Option (eINFLTResult × TInflator) → Option (eINFLTResult × TInflator) → Prop
  | none, none => True
  | some (r0, t0), some (r, t) =>
      (r0 = INFLT_SRCEXHSTD → r = INFLT_ERROR ∧ t.error = INFLT_EINPUTEND) ∧
      (r0 ≠ INFLT_SRCEXHSTD → r = r0 ∧ t = setfi t0 v)
  | _, _ => False

theorem inflateLoop_twin (fuel : Nat) : ∀ (u : TInflator) (v : Nat), v ≠ 0 →
    TwinRel v (inflateLoop fuel (setfi u 0)) (inflateLoop fuel (setfi u v)) := by
  induction fuel with
  | zero => intro u v hv; exact trivial
  | succ fuel ih =>
    intro u v hv
    rw [inflateLoop, inflateLoop]
    simp only [setfi_state, setfi_final, setfi_error]
    by_cases h5 : u.state = 5
    · rw [if_pos h5, if_pos h5, decodeblck_setfi, decodeblck_setfi]
      rcases hd : decodeblck (fuel + 1) u with _ | ⟨r1, t1⟩
      · exact trivial
      · simp only [omap, Option.map, setfi_fi]
        cases r1
        · rw [if_neg (show ¬(INFLT_OK ≠ INFLT_OK) by decide),
            if_neg (show ¬(INFLT_OK ≠ INFLT_OK) by decide)]
          exact ih { t1 with state := 0 } v hv
        · rw [if_pos (show INFLT_SRCEXHSTD ≠ INFLT_OK by decide),
            if_pos (show INFLT_SRCEXHSTD ≠ INFLT_OK by decide),
            if_neg (show ¬((0 : Nat) ≠ 0 ∧ INFLT_SRCEXHSTD = INFLT_SRCEXHSTD) by decide),
            if_pos (show v ≠ 0 ∧ INFLT_SRCEXHSTD = INFLT_SRCEXHSTD from ⟨hv, rfl⟩)]
          exact ⟨fun _ => ⟨rfl, rfl⟩, fun hne => absurd rfl hne⟩
        · rw [if_pos (show INFLT_TGTEXHSTD ≠ INFLT_OK by decide),
            if_pos (show INFLT_TGTEXHSTD ≠ INFLT_OK by decide),
            if_neg (show ¬((0 : Nat) ≠ 0 ∧ INFLT_TGTEXHSTD = INFLT_SRCEXHSTD) by decide),
            if_neg (show ¬(v ≠ 0 ∧ INFLT_TGTEXHSTD = INFLT_SRCEXHSTD) from
              fun h => absurd h.2 (by decide))]
          exact ⟨fun h => absurd h (by decide), fun _ => ⟨rfl, rfl⟩⟩
        · rw [if_pos (show INFLT_ERROR ≠ INFLT_OK by decide),
            if_pos (show INFLT_ERROR ≠ INFLT_OK by decide),
            if_neg (show ¬((0 : Nat) ≠ 0 ∧ INFLT_ERROR = INFLT_SRCEXHSTD) by decide),
            if_neg (show ¬(v ≠ 0 ∧ INFLT_ERROR = INFLT_SRCEXHSTD) from
              fun h => absurd h.2 (by decide))]
          exact ⟨fun h => absurd h (by decide), fun _ => ⟨rfl, rfl⟩⟩
    · rw [if_neg h5, if_neg h5]
      split
      · -- state 0
        by_cases hf : u.final ≠ 0
        · rw [if_pos hf, if_pos hf]
          exact ⟨fun h => absurd h (by decide), fun _ => ⟨rfl, rfl⟩⟩
        · rw [if_neg hf, if_neg hf, tryreadbits_setfi, tryreadbits_setfi]
          cases htr : trb1 u 3
          · simp only [setfi_fi]
            rw [if_neg (show ¬(0 : Nat) ≠ 0 by decide), if_pos hv, updatewindow_setfi]
            simp only []
            rw [if_neg (show ¬(0 : Nat) ≠ 0 by decide)]
            exact ⟨fun _ => ⟨rfl, rfl⟩, fun hne => absurd rfl hne⟩
          · simp only [getbits_setfi, dropbits_setfi]
            exact ih { dropbits (dropbits (trb2 u 3) 1) 2 with
              final := getbits (trb2 u 3) 1,
              state := getbits (dropbits (trb2 u 3) 1) 2 + 1 } v hv
      · -- state 1
        rw [decodestrd_setfi, decodestrd_setfi]
        simp only [setfi_fi]
        cases hds : dst1 u
        · rw [if_neg (show ¬(INFLT_OK ≠ INFLT_OK) by decide),
            if_neg (show ¬(INFLT_OK ≠ INFLT_OK) by decide)]
          exact ih { dst2 u with state := 0 } v hv
        · rw [if_pos (show INFLT_SRCEXHSTD ≠ INFLT_OK by decide),
            if_pos (show INFLT_SRCEXHSTD ≠ INFLT_OK by decide),
            if_neg (show ¬((0 : Nat) ≠ 0 ∧ INFLT_SRCEXHSTD = INFLT_SRCEXHSTD) by decide),
            if_pos (show v ≠ 0 ∧ INFLT_SRCEXHSTD = INFLT_SRCEXHSTD from ⟨hv, rfl⟩)]
          exact ⟨fun _ => ⟨rfl, rfl⟩, fun hne => absurd rfl hne⟩
        · rw [if_pos (show INFLT_TGTEXHSTD ≠ INFLT_OK by decide),
            if_pos (show INFLT_TGTEXHSTD ≠ INFLT_OK by decide),
            if_neg (show ¬((0 : Nat) ≠ 0 ∧ INFLT_TGTEXHSTD = INFLT_SRCEXHSTD) by decide),
            if_neg (show ¬(v ≠ 0 ∧ INFLT_TGTEXHSTD = INFLT_SRCEXHSTD) from
              fun h => absurd h.2 (by decide))]
          exact ⟨fun h => absurd h (by decide), fun _ => ⟨rfl, rfl⟩⟩
        · rw [if_pos (show INFLT_ERROR ≠ INFLT_OK by decide),
            if_pos (show INFLT_ERROR ≠ INFLT_OK by decide),
            if_neg (show ¬((0 : Nat) ≠ 0 ∧ INFLT_ERROR = INFLT_SRCEXHSTD) by decide),
            if_neg (show ¬(v ≠ 0 ∧ INFLT_ERROR = INFLT_SRCEXHSTD) from
              fun h => absurd h.2 (by decide))]
          exact ⟨fun h => absurd h (by decide), fun _ => ⟨rfl, rfl⟩⟩
      · -- state 2
        exact ih { u with ltable := lsttctable, dtable := dsttctable, state := 5 } v hv
      · -- state 3
        rw [decodednmc_setfi, decodednmc_setfi]
        rcases hd : decodednmc (fuel + 1) u with _ | ⟨r1, t1⟩
        · exact trivial
        · simp only [omap, Option.map, setfi_fi]
          cases r1
          · rw [if_neg (show ¬(INFLT_OK ≠ INFLT_OK) by decide),
              if_neg (show ¬(INFLT_OK ≠ INFLT_OK) by decide)]
            exact ih { t1 with state := 5 } v hv
          · rw [if_pos (show INFLT_SRCEXHSTD ≠ INFLT_OK by decide),
              if_pos (show INFLT_SRCEXHSTD ≠ INFLT_OK by decide),
              if_neg (show ¬((0 : Nat) ≠ 0 ∧ INFLT_SRCEXHSTD = INFLT_SRCEXHSTD) by decide),
              if_pos (show v ≠ 0 ∧ INFLT_SRCEXHSTD = INFLT_SRCEXHSTD from ⟨hv, rfl⟩)]
            exact ⟨fun _ => ⟨rfl, rfl⟩, fun hne => absurd rfl hne⟩
          · rw [if_pos (show INFLT_TGTEXHSTD ≠ INFLT_OK by decide),
              if_pos (show INFLT_TGTEXHSTD ≠ INFLT_OK by decide),
              if_neg (show ¬((0 : Nat) ≠ 0 ∧ INFLT_TGTEXHSTD = INFLT_SRCEXHSTD) by decide),
              if_neg (show ¬(v ≠ 0 ∧ INFLT_TGTEXHSTD = INFLT_SRCEXHSTD) from
                fun h => absurd h.2 (by decide))]
            exact ⟨fun h => absurd h (by decide), fun _ => ⟨rfl, rfl⟩⟩
          · rw [if_pos (show INFLT_ERROR ≠ INFLT_OK by decide),
              if_pos (show INFLT_ERROR ≠ INFLT_OK by decide),
              if_neg (show ¬((0 : Nat) ≠ 0 ∧ INFLT_ERROR = INFLT_SRCEXHSTD) by decide),
              if_neg (show ¬(v ≠ 0 ∧ INFLT_ERROR = INFLT_SRCEXHSTD) from
                fun h => absurd h.2 (by decide))]
            exact ⟨fun h => absurd h (by decide), fun _ => ⟨rfl, rfl⟩⟩
      · -- state 4
        exact ⟨fun h => absurd h (by decide), fun _ => ⟨rfl, rfl⟩⟩
      · -- bad state
        by_cases he : u.error = 0
        · rw [if_pos he, if_pos he]
          exact ⟨fun h => absurd h (by decide), fun _ => ⟨rfl, rfl⟩⟩
        · rw [if_neg he, if_neg he]
          exact ⟨fun h => absurd h (by decide), fun _ => ⟨rfl, rfl⟩⟩

/-- C10 (confirmed): a nonzero `final` argument latches the final-input
condition: the flag is raised and no later call lowers it (calls passing
`final = 0` keep the stored value), and once the condition holds on entry
the call can no longer return SOURCE_EXHAUSTED; moreover every condition
that would return SOURCE_EXHAUSTED instead returns ERROR with the
INPUT_END error code: whenever the same call with the latch cleared (and
`final = 0`) returns SOURCE_EXHAUSTED, the latched call returns ERROR and
stores the INPUT_END error code. -/
theorem C10_finalinput_latch (fuel final : Nat) (s : TInflator)
    (res : eINFLTResult) (s1 : TInflator)
    (h : inflator_inflate fuel s final = some (res, s1)) :
    (s.finalinput = 0 → final ≠ 0 → s1.finalinput = 1) ∧
    (s.finalinput ≠ 0 → s1.finalinput = s.finalinput) ∧
    ((s.finalinput ≠ 0 ∨ final ≠ 0) → res ≠ INFLT_SRCEXHSTD) ∧
    (∀ r0 t0, inflator_inflate fuel { s with finalinput := 0 } 0 = some (r0, t0) →
      (s.finalinput ≠ 0 ∨ final ≠ 0) → r0 = INFLT_SRCEXHSTD →
      res = INFLT_ERROR ∧ s1.error = INFLT_EINPUTEND) := by
  rw [inflator_inflate_eq] at h
  have hp := inflateLoop_final_props fuel (inflateEntry s final) res s1 h
  refine ⟨?_, ?_, ?_, ?_⟩
  · intro h0 hf
    refine hp.1.trans ?_
    simp only [inflateEntry]
    rw [if_pos (And.intro h0 hf)]
  · intro h0
    refine hp.1.trans ?_
    simp only [inflateEntry]
    rw [if_neg (fun hc => h0 hc.1)]
  · intro hor
    refine hp.2 ?_
    simp only [inflateEntry]
    by_cases h0 : s.finalinput = 0
    · rcases hor with h0' | hf
      · exact absurd h0 h0'
      · rw [if_pos (And.intro h0 hf)]
        exact Nat.one_ne_zero
    · rw [if_neg (fun hc => h0 hc.1)]
      exact h0
  · intro r0 t0 h0run hor hr0
    have hv : (inflateEntry s final).finalinput ≠ 0 := by
      simp only [inflateEntry]
      by_cases hc : s.finalinput = 0 ∧ final ≠ 0
      · rw [if_pos hc]
        exact Nat.one_ne_zero
      · rw [if_neg hc]
        rcases hor with h1 | h2
        · exact h1
        · intro h0
          exact hc ⟨h0, h2⟩
    have e1 : inflateEntry s final
        = setfi { s with used := 1 } (inflateEntry s final).finalinput := by
      simp only [inflateEntry]
      by_cases hc : s.finalinput = 0 ∧ final ≠ 0
      · rw [if_pos hc]
        rfl
      · rw [if_neg hc]
        rfl
    have h0run2 : inflateLoop fuel (setfi { s with used := 1 } 0) = some (r0, t0) := h0run
    rw [e1] at h
    have htw := inflateLoop_twin fuel { s with used := 1 } (inflateEntry s final).finalinput hv
    rw [h0run2, h] at htw
    exact htw.1 hr0

/-- Witness for C10: a first call passing `final = 1` on an empty source
latches the flag and reports ERROR (input end); the same call with the
latch cleared returns SOURCE_EXHAUSTED, and the conversion conclusion
instantiates at it. -/
theorem C10_finalinput_latch_witness :
    inflator_inflate 3 initialState 1
      = some (INFLT_ERROR,
          { inflateEntry initialState 1 with error := INFLT_EINPUTEND }) ∧
    initialState.finalinput = 0 ∧ (1 : Nat) ≠ 0 ∧
    ({ inflateEntry initialState 1 with error := INFLT_EINPUTEND }
      : TInflator).finalinput = 1 ∧
    INFLT_ERROR ≠ INFLT_SRCEXHSTD ∧
    (inflator_inflate 3 { initialState with finalinput := 0 } 0).map Prod.fst
      = some INFLT_SRCEXHSTD ∧
    (INFLT_ERROR = INFLT_ERROR ∧
      ({ inflateEntry initialState 1 with error := INFLT_EINPUTEND }
        : TInflator).error = INFLT_EINPUTEND) :=
  ⟨rfl, rfl, by decide,
   (C10_finalinput_latch 3 1 initialState INFLT_ERROR _ rfl).1 rfl (by decide),
   (C10_finalinput_latch 3 1 initialState INFLT_ERROR _ rfl).2.2.1
     (Or.inr (by decide)),
   rfl,
   (C10_finalinput_latch 3 1 initialState INFLT_ERROR _ rfl).2.2.2
     INFLT_SRCEXHSTD _ rfl (Or.inr (by decide)) rfl⟩

/-- The literal/length table of the code assigning symbol 0 a 1-bit code
and symbols 256/257 2-bit codes (a complete code): written as the direct
periodic function the canonical table builder produces for these lengths
(`buildtable ([1] ++ replicate 255 0 ++ [2, 2])` fills even root slots
with the literal, slots 1 mod 4 with end-of-block, slots 3 mod 4 with the
length-3 entry). -/
def c1ltable : TTable := fun i =>
  if i % 2 = 0 then ⟨0, LITERALSYMBOL, 1⟩
  else if i % 4 = 1 then ⟨256, ENDOFBLOCK, 2⟩
  else ⟨3, 0, 2⟩

/-- The distance table of the single 1-bit code for distance 1 (the
exempt one-code incomplete case): even root slots decode distance 1, odd
slots are INVALID — the periodic function `buildtable [1]` produces. -/
def c1dtable : TTable := fun i =>
  if i % 2 = 0 then ⟨1, 0, 1⟩ else ⟨65535, INVALIDCODE, 15⟩

set_option maxHeartbeats 16000000 in
/-- `c1dtable` is exactly what the table builder produces for the one-code
length vector `[1]` on the whole distance root range. -/
theorem c1dtable_from_buildtable :
    ∀ i, i < 128 →
      c1dtable i = ((buildtable [1] emptyTable DTABLEMODE).getD emptyTable) i := by
  decide

set_option maxHeartbeats 64000000 in
/-- `c1ltable` is exactly what the table builder produces for the code
lengths `[1] ++ replicate 255 0 ++ [2, 2]` on the whole root range. -/
theorem c1ltable_from_buildtable :
    ∀ i, i < 512 →
      c1ltable i =
        ((buildtable ([1] ++ List.replicate 255 0 ++ [2, 2]) emptyTable
          LTABLEMODE).getD emptyTable) i := by
  decide

/-- A block-decode state satisfying the fast-path guards whose stream is
`0e 00 …`: literal 0, then length symbol 257 followed by an INVALID
distance code. -/
def c1state : TInflator :=
  { initialState with ltable := c1ltable, dtable := c1dtable, src := 0x0E :: List.replicate 25 0, tcap := 300, state := 5 }

set_option maxHeartbeats 4000000 in
/-- The claim fails on the code: on this stream (fast-path guards hold)
both paths report ERROR (bad code), but the fast path discards its local
cursors on the error exit — the literal byte it had produced and the
consumed input are lost (`out = []`, `spos = 0`), while the slow path
retains them (`out = [0]`, three source bytes pulled). -/
theorem C1_cex :
    (c1state.tcap - c1state.out.length ≥ FASTTGTLEFT ∧
     c1state.src.length - c1state.spos ≥ FASTSRCLEFT) ∧
    (decodeblck 100 c1state).map Prod.fst = some INFLT_ERROR ∧
    (decodeblckNofast 100 c1state).map Prod.fst = some INFLT_ERROR ∧
    (decodeblck 100 c1state).map (fun rs => rs.2.error) = some INFLT_EBADCODE ∧
    (decodeblckNofast 100 c1state).map (fun rs => rs.2.error)
      = some INFLT_EBADCODE ∧
    (decodeblck 100 c1state).map (fun rs => rs.2.out) = some [] ∧
    (decodeblckNofast 100 c1state).map (fun rs => rs.2.out) = some [0] ∧
    (decodeblck 100 c1state).map (fun rs => rs.2.spos) = some 0 ∧
    (decodeblckNofast 100 c1state).map (fun rs => rs.2.spos) = some 3 := by
  refine ⟨by decide, ?_, ?_, ?_, ?_, ?_, ?_, ?_, ?_⟩ <;> decide
